import Mathlib

/-!
# WeeChat IRC plugin: command layer (irc-command.c)

A shallow embedding of the functions of `src/plugins/irc/irc-command.c` that split
mode changes into several MODE messages, connect and disconnect servers, manage
the server registry, execute a command on all servers or channels, send the
messages of /kickban and /whois, toggle the away status and join channels,
followed by the properties proved about them. The send queue that
`irc_server_sendf` feeds is in irc-server.c; it is modelled from the specification.

Conventions of the embedding

* A C string is the list of its `char`s before the terminating NUL (`CStr`).
* A call of `irc_server_sendf` is recorded with its flags, its format and its
  string arguments (`SendfCall`); `SendfCall.line` is the formatted line.
* Functions of the plugin that are not part of `irc-command.c` (the matcher
  `weechat_string_match`, `irc_server_get_max_modes`, `irc_server_connect`, ...)
  are parameters of the embedded functions.
* A function that fills a buffer of fixed size without a test (`modes[128+1]` of
  `irc_command_mode_nicks` and `irc_command_mode_masks`, `new_args` of
  `irc_command_join_server`) returns an `Option`: the value is `none` when the
  source writes past the end of the buffer, where the behaviour of the C code is
  undefined. The functions named `..._unbounded` are the same loops without this
  bound; they are only used in the proofs, through the lemmas `..._some` and
  `..._fits` that relate them to the functions of the source.
-/

namespace IrcCommand

/-! ## C strings and `irc_server_sendf` -/

/-- A C string: the chars before the terminating NUL. -/
abbrev CStr := List Char

/-- Flags of `irc_server_sendf` used by the command layer: no queue flag (`0`),
`IRC_SERVER_SEND_OUTQ_PRIO_HIGH`, `IRC_SERVER_SEND_OUTQ_PRIO_LOW` and
`IRC_SERVER_SEND_OUTQ_PRIO_HIGH | IRC_SERVER_SEND_RETURN_HASHTABLE`. -/
inductive SendFlags where
  | none
  | outq_prio_high
  | outq_prio_low
  | outq_prio_high_return_hashtable
  deriving DecidableEq, Repr

/-- The macro `IRC_SERVER_SEND_OUTQ_PRIO_HIGH`. -/
abbrev IRC_SERVER_SEND_OUTQ_PRIO_HIGH : SendFlags := SendFlags.outq_prio_high

/-- The macro `IRC_SERVER_SEND_OUTQ_PRIO_LOW`. -/
abbrev IRC_SERVER_SEND_OUTQ_PRIO_LOW : SendFlags := SendFlags.outq_prio_low

/-- One call `irc_server_sendf (server, flags, NULL, format, args...)` where every
argument is a string. -/
structure SendfCall where
  flags : SendFlags
  format : CStr
  args : List CStr
  deriving DecidableEq, Repr

/-- Expansion of a printf format whose only conversions are `%s`. -/
def format_s : CStr → List CStr → CStr
  | [], _ => []
  | '%' :: 's' :: rest, a :: as => a ++ format_s rest as
  | '%' :: 's' :: rest, [] => format_s rest []
  | c :: rest, as => c :: format_s rest as

/-- The line built by `irc_server_sendf` from the format and the arguments. -/
def SendfCall.line (c : SendfCall) : CStr := format_s c.format c.args

/-- The format of every MODE message of `irc_command_mode_nicks` and
`irc_command_mode_masks`. -/
def mode_format : CStr := "MODE %s %s%s %s".toList

/-- Names separated by one space, as the buffers `nicks` and `masks` hold them. -/
def join_sp : List CStr → CStr
  | [] => []
  | [a] => a
  | a :: b :: rest => a ++ ' ' :: join_sp (b :: rest)

/-- Auxiliary of `split_sp`: `cur` is the word being read. -/
def split_sp_aux : CStr → CStr → List CStr
  | cur, [] => [cur]
  | cur, c :: rest =>
    if c = ' ' then cur :: split_sp_aux [] rest else split_sp_aux (cur ++ [c]) rest

/-- The words of a buffer, cut at every space. -/
def split_sp (s : CStr) : List CStr := split_sp_aux [] s

/-- The last argument of a MODE call: the buffer of nicks or masks. -/
def SendfCall.targets (c : SendfCall) : CStr := c.args.getD 3 []

/-- The third argument of a MODE call: the buffer of mode letters. -/
def SendfCall.modes (c : SendfCall) : CStr := c.args.getD 2 []

/-- The nicks (or masks) a MODE call carries. -/
def SendfCall.target_list (c : SendfCall) : List CStr := split_sp c.targets

/-! ## Data model -/

/-- The fields of `struct t_irc_nick` read by the command layer. -/
structure t_irc_nick where
  name : CStr
  prefixes : CStr
  deriving DecidableEq, Repr

/-- The fields of `struct t_irc_channel` read by the command layer: `nicks` is the
linked list `channel->nicks` in list order, `type` is `IRC_CHANNEL_TYPE_CHANNEL` (the
default here) or `IRC_CHANNEL_TYPE_PRIVATE`, `key` is the channel key (`none` for
NULL). -/
structure t_irc_channel where
  name : CStr
  nicks : List t_irc_nick
  type : Int := 0
  key : Option CStr := none
  deriving DecidableEq, Repr

/-- Result of a mode command: the `irc_server_sendf` calls in emission order and
the formats of the `weechat_printf` calls. -/
structure ModeResult where
  sent : List SendfCall
  printed : List String
  deriving DecidableEq, Repr

/-! ## irc_command_mode_nicks -/

/-- The local variables of `irc_command_mode_nicks` that change in its loop, the
keys of the hashtable `nicks_sent` and the messages sent so far. -/
structure ModeNicksState where
  modes : CStr
  nicks : CStr
  modes_added : Nat
  msg_priority : SendFlags
  nicks_sent : List CStr
  sent : List SendfCall
  deriving DecidableEq, Repr

/-- Size of the buffer `nicks` (and `masks`): `char nicks[1024]`. -/
def sizeof_nicks : Nat := 1024

/-- Size of the buffer `modes`: `char modes[128+1]`. -/
def sizeof_modes : Nat := 129

/-- The block run when `modes_added == max_modes`: send the MODE command and
flush the strings; subsequent messages have low priority. -/
def mode_nicks_send (channel : t_irc_channel) (set : CStr) (st : ModeNicksState) :
    ModeNicksState :=
  { st with
    sent := st.sent ++ [⟨st.msg_priority, mode_format, [channel.name, set, st.modes, st.nicks]⟩]
    modes := []
    nicks := []
    modes_added := 0
    msg_priority := IRC_SERVER_SEND_OUTQ_PRIO_LOW }

/-- The exclusion of the own nick: set+mode is "-o" or "-h", the argument is not
empty and has a wildcard, and the nick is the nick of the server. -/
def mode_nicks_self_excluded (server_nick set mode arg : CStr) (ptr_nick : t_irc_nick) : Prop :=
  set.head? = some '-' ∧ (mode.head? = some 'o' ∨ mode.head? = some 'h')
    ∧ arg ≠ [] ∧ '*' ∈ arg ∧ server_nick = ptr_nick.name

instance (server_nick set mode arg : CStr) (ptr_nick : t_irc_nick) :
    Decidable (mode_nicks_self_excluded server_nick set mode arg ptr_nick) := by
  unfold mode_nicks_self_excluded; infer_instance

/-- The nick mode is already as asked: mode +X and the nick has the prefix of X, or
mode -X and the nick does not have it (only when the mode has a prefix char). -/
def mode_nicks_already_ok (prefix_chr : Char) (set : CStr) (ptr_nick : t_irc_nick) : Prop :=
  prefix_chr ≠ ' ' ∧
    ((set.head? = some '+' ∧ prefix_chr ∈ ptr_nick.prefixes)
      ∨ (set.head? = some '-' ∧ prefix_chr ∉ ptr_nick.prefixes))

instance (prefix_chr : Char) (set : CStr) (ptr_nick : t_irc_nick) :
    Decidable (mode_nicks_already_ok prefix_chr set ptr_nick) := by
  unfold mode_nicks_already_ok; infer_instance

/-- The test `modes_added == max_modes` and its block: the MODE command is sent
when the max number of modes is reached. -/
def mode_nicks_send_if_full (max_modes : Nat) (channel : t_irc_channel) (set : CStr)
    (st : ModeNicksState) : ModeNicksState :=
  if st.modes_added = max_modes then mode_nicks_send channel set st else st

/-- The test `strlen (nicks) + 1 + strlen (ptr_nick->name) + 1 < sizeof (nicks)`. -/
def mode_nicks_fits (name : CStr) (st : ModeNicksState) : Prop :=
  st.nicks.length + 1 + name.length + 1 < sizeof_nicks

instance (name : CStr) (st : ModeNicksState) : Decidable (mode_nicks_fits name st) := by
  unfold mode_nicks_fits; infer_instance

/-- The block that adds one mode letter and the nick: `strcat (modes, mode)`, a
space when `nicks` is not empty, `strcat (nicks, ptr_nick->name)`, `modes_added++`
and `weechat_hashtable_set (nicks_sent, ptr_nick->name, NULL)`. The source does not
test the size of `modes`: when `modes` followed by `mode` and the final NUL does
not fit in `char modes[128+1]`, `strcat` writes past the end of the buffer, the
behaviour of the source is undefined and the value is `none`. -/
def mode_nicks_add (mode : CStr) (name : CStr) (st : ModeNicksState) :
    Option ModeNicksState :=
  if st.modes.length + mode.length < sizeof_modes then
    some
      { st with
        modes := st.modes ++ mode
        nicks := (if st.nicks ≠ [] then st.nicks ++ [' '] else st.nicks) ++ name
        modes_added := st.modes_added + 1
        nicks_sent := name :: st.nicks_sent }
  else none

/-- The inner loop `for (i = 1; i < argc; i++)` for one nick of the channel, on the
arguments that remain. `continue` goes on with the next argument, `break` leaves.
The value is `none` when the source writes past the end of `modes`. -/
def mode_nicks_args (string_match : CStr → CStr → Bool) (server_nick : CStr)
    (max_modes : Nat) (prefix_chr : Char) (channel : t_irc_channel) (set mode : CStr)
    (ptr_nick : t_irc_nick) : List CStr → ModeNicksState → Option ModeNicksState
  | [], st => some st
  | arg :: rest, st =>
    if string_match ptr_nick.name arg then
      if mode_nicks_self_excluded server_nick set mode arg ptr_nick then
        mode_nicks_args string_match server_nick max_modes prefix_chr channel set mode
          ptr_nick rest st
      else if mode_nicks_already_ok prefix_chr set ptr_nick then
        mode_nicks_args string_match server_nick max_modes prefix_chr channel set mode
          ptr_nick rest st
      else
        let st1 := mode_nicks_send_if_full max_modes channel set st
        if mode_nicks_fits ptr_nick.name st1 then
          mode_nicks_add mode ptr_nick.name st1
        else
          mode_nicks_args string_match server_nick max_modes prefix_chr channel set mode
            ptr_nick rest st1
    else
      mode_nicks_args string_match server_nick max_modes prefix_chr channel set mode
        ptr_nick rest st

/-- The outer loop over `channel->nicks`: a nick already sent is ignored. -/
def mode_nicks_loop (string_match : CStr → CStr → Bool) (server_nick : CStr)
    (max_modes : Nat) (prefix_chr : Char) (channel : t_irc_channel) (set mode : CStr)
    (args : List CStr) : List t_irc_nick → ModeNicksState → Option ModeNicksState
  | [], st => some st
  | ptr_nick :: next, st =>
    if ptr_nick.name ∈ st.nicks_sent then
      mode_nicks_loop string_match server_nick max_modes prefix_chr channel set mode args next st
    else
      match mode_nicks_args string_match server_nick max_modes prefix_chr channel set mode
          ptr_nick args st with
      | some st1 =>
        mode_nicks_loop string_match server_nick max_modes prefix_chr channel set mode args
          next st1
      | none => none

/-- The end of `irc_command_mode_nicks`: a final MODE command is sent if some
nicks are remaining. The value is the list of all the messages sent. -/
def mode_nicks_final (channel : t_irc_channel) (set : CStr) (st : ModeNicksState) :
    List SendfCall :=
  if st.modes ≠ [] ∧ st.nicks ≠ [] then
    st.sent ++ [⟨st.msg_priority, mode_format, [channel.name, set, st.modes, st.nicks]⟩]
  else st.sent

/-- The arguments `argv[1] .. argv[argc - 1]` after the removal of a final "-yes"
(which is removed only when `argc > 2`), and the flag `arg_yes`. -/
def mode_nicks_arguments (argv : List CStr) : List CStr × Bool :=
  if 2 < argv.length ∧ argv.getLast? = some "-yes".toList then
    (argv.dropLast.drop 1, true)
  else
    (argv.drop 1, false)

/-- The function `irc_command_mode_nicks`. `max_modes` is the value of
`irc_server_get_max_modes (server)`, `prefix_chr` the value of
`irc_server_get_prefix_char_for_mode (server, mode[0])`, `string_match name mask`
the value of `weechat_string_match (name, mask, 0)` and `server_nick` is
`server->nick`. The value is `none` when the source writes past the end of
`modes`. -/
def irc_command_mode_nicks (string_match : CStr → CStr → Bool) (server_nick : CStr)
    (max_modes : Nat) (prefix_chr : Char) (channel : t_irc_channel) (set mode : CStr)
    (argv : List CStr) : Option ModeResult :=
  if argv.length < 2 then some ⟨[], []⟩
  else
    let a := mode_nicks_arguments argv
    if a.2 = false ∧ "*".toList ∈ a.1 then
      some ⟨[],
        ["%s%s: \"-yes\" argument is required for nick \"*\" (security reason), see /help %s"]⟩
    else
      (mode_nicks_loop string_match server_nick max_modes prefix_chr channel set mode
        a.1 channel.nicks
        ⟨[], [], 0, IRC_SERVER_SEND_OUTQ_PRIO_HIGH, [], []⟩).map
          fun st => ⟨mode_nicks_final channel set st, []⟩

/-! ## irc_command_mode_nicks without the bound of `modes` -/

/-- The state that `mode_nicks_add` gives when the letters fit in `modes`. This
function and the three that follow are used in the proofs only: they are the loops
of `irc_command_mode_nicks` on a buffer `modes` without bound, and they give the
values of `mode_nicks_args`, `mode_nicks_loop` and `irc_command_mode_nicks` whenever
these are not `none`. -/
def mode_nicks_add_unbounded (mode : CStr) (name : CStr) (st : ModeNicksState) :
    ModeNicksState :=
  { st with
    modes := st.modes ++ mode
    nicks := (if st.nicks ≠ [] then st.nicks ++ [' '] else st.nicks) ++ name
    modes_added := st.modes_added + 1
    nicks_sent := name :: st.nicks_sent }


/-- The function `mode_nicks_args` without the bound of `modes`. -/
def mode_nicks_args_unbounded (string_match : CStr → CStr → Bool) (server_nick : CStr)
    (max_modes : Nat) (prefix_chr : Char) (channel : t_irc_channel) (set mode : CStr)
    (ptr_nick : t_irc_nick) : List CStr → ModeNicksState → ModeNicksState
  | [], st => st
  | arg :: rest, st =>
    if string_match ptr_nick.name arg then
      if mode_nicks_self_excluded server_nick set mode arg ptr_nick then
        mode_nicks_args_unbounded string_match server_nick max_modes prefix_chr channel set mode
          ptr_nick rest st
      else if mode_nicks_already_ok prefix_chr set ptr_nick then
        mode_nicks_args_unbounded string_match server_nick max_modes prefix_chr channel set mode
          ptr_nick rest st
      else
        let st1 := mode_nicks_send_if_full max_modes channel set st
        if mode_nicks_fits ptr_nick.name st1 then
          mode_nicks_add_unbounded mode ptr_nick.name st1
        else
          mode_nicks_args_unbounded string_match server_nick max_modes prefix_chr channel set mode
            ptr_nick rest st1
    else
      mode_nicks_args_unbounded string_match server_nick max_modes prefix_chr channel set mode
        ptr_nick rest st

/-- The function `mode_nicks_loop` without the bound of `modes`. -/
def mode_nicks_loop_unbounded (string_match : CStr → CStr → Bool) (server_nick : CStr)
    (max_modes : Nat) (prefix_chr : Char) (channel : t_irc_channel) (set mode : CStr)
    (args : List CStr) : List t_irc_nick → ModeNicksState → ModeNicksState
  | [], st => st
  | ptr_nick :: next, st =>
    if ptr_nick.name ∈ st.nicks_sent then
      mode_nicks_loop_unbounded string_match server_nick max_modes prefix_chr channel set mode args next st
    else
      mode_nicks_loop_unbounded string_match server_nick max_modes prefix_chr channel set mode args next
        (mode_nicks_args_unbounded string_match server_nick max_modes prefix_chr channel set mode
          ptr_nick args st)

/-- The function `irc_command_mode_nicks` without the bound of `modes`. -/
def irc_command_mode_nicks_unbounded (string_match : CStr → CStr → Bool) (server_nick : CStr)
    (max_modes : Nat) (prefix_chr : Char) (channel : t_irc_channel) (set mode : CStr)
    (argv : List CStr) : ModeResult :=
  if argv.length < 2 then ⟨[], []⟩
  else
    let a := mode_nicks_arguments argv
    if a.2 = false ∧ "*".toList ∈ a.1 then
      ⟨[], ["%s%s: \"-yes\" argument is required for nick \"*\" (security reason), see /help %s"]⟩
    else
      let st := mode_nicks_loop_unbounded string_match server_nick max_modes prefix_chr channel set mode
        a.1 channel.nicks
        ⟨[], [], 0, IRC_SERVER_SEND_OUTQ_PRIO_HIGH, [], []⟩
      ⟨mode_nicks_final channel set st, []⟩

/-! ## The selected nicks and their groups -/

/-- The nick is selected by the arguments: its name matches at least one argument
for which it is not excluded as own nick, and its mode is not already as asked. -/
def mode_nicks_selects (string_match : CStr → CStr → Bool) (server_nick : CStr)
    (prefix_chr : Char) (set mode : CStr) (args : List CStr) (ptr_nick : t_irc_nick) : Prop :=
  ∃ arg ∈ args, string_match ptr_nick.name arg = true
    ∧ ¬ mode_nicks_self_excluded server_nick set mode arg ptr_nick
    ∧ ¬ mode_nicks_already_ok prefix_chr set ptr_nick

instance (string_match : CStr → CStr → Bool) (server_nick : CStr)
    (prefix_chr : Char) (set mode : CStr) (args : List CStr) (ptr_nick : t_irc_nick) :
    Decidable (mode_nicks_selects string_match server_nick prefix_chr set mode args ptr_nick) := by
  unfold mode_nicks_selects; infer_instance

/-- The names of a list without the names already in `seen` and without
repetitions: the first occurrence of every name is kept. -/
def keep_first : List CStr → List CStr → List CStr
  | _, [] => []
  | seen, x :: xs => if x ∈ seen then keep_first seen xs else x :: keep_first (x :: seen) xs

/-- The names of the nicks of a list that the arguments select. -/
def selected_names (string_match : CStr → CStr → Bool) (server_nick : CStr)
    (prefix_chr : Char) (set mode : CStr) (args : List CStr) (l : List t_irc_nick) :
    List CStr :=
  (l.filter fun n =>
    decide (mode_nicks_selects string_match server_nick prefix_chr set mode args n)).map
      t_irc_nick.name

/-- The nicks selected for the change, in the order of the channel: the names of
the channel nicks that the arguments select, every name once. -/
def selected_nicks (string_match : CStr → CStr → Bool) (server_nick : CStr)
    (prefix_chr : Char) (channel : t_irc_channel) (set mode : CStr) (args : List CStr) :
    List CStr :=
  keep_first [] (selected_names string_match server_nick prefix_chr set mode args channel.nicks)

/-- Groups of `max_modes` consecutive names: `cur` is the group being filled. -/
def batch_aux (max_modes : Nat) : List CStr → List CStr → List (List CStr)
  | [], [] => []
  | c :: cs, [] => [c :: cs]
  | cur, x :: xs =>
    if cur.length = max_modes then cur :: batch_aux max_modes [x] xs
    else batch_aux max_modes (cur ++ [x]) xs

/-- The names cut in groups of `max_modes`, the last group holding the rest. -/
def batches (max_modes : Nat) (names : List CStr) : List (List CStr) :=
  batch_aux max_modes [] names

/-! ## irc_command_mode_masks -/

/-- The local variables of `irc_command_mode_masks` that change in its loop and the
messages sent so far. -/
structure ModeMasksState where
  modes : CStr
  masks : CStr
  modes_added : Nat
  msg_priority : SendFlags
  sent : List SendfCall
  deriving DecidableEq, Repr

/-- The mask used for one argument: the default ban mask of the nick when the
channel is known, the argument has neither '!' nor '@' and names a nick of the
channel (and `irc_nick_default_ban_mask` does not return NULL), else the argument. -/
def mode_masks_mask (irc_nick_search : t_irc_channel → CStr → Option t_irc_nick)
    (irc_nick_default_ban_mask : t_irc_nick → Option CStr)
    (ptr_channel : Option t_irc_channel) (arg : CStr) : CStr :=
  match ptr_channel with
  | some ch =>
    if '!' ∉ arg ∧ '@' ∉ arg then
      match irc_nick_search ch arg with
      | some ptr_nick =>
        match irc_nick_default_ban_mask ptr_nick with
        | some mask => mask
        | none => arg
      | none => arg
    else arg
  | none => arg

/-- Send the MODE command and flush the strings `modes` and `masks`. -/
def mode_masks_send (channel_name set : CStr) (st : ModeMasksState) : ModeMasksState :=
  { st with
    sent := st.sent ++ [⟨st.msg_priority, mode_format, [channel_name, set, st.modes, st.masks]⟩]
    modes := []
    masks := []
    modes_added := 0
    msg_priority := IRC_SERVER_SEND_OUTQ_PRIO_LOW }

/-- One round of the loop of `irc_command_mode_masks` for the mask `m`:
`mask_fits` is computed once, before the MODE command is possibly sent. The source
does not test the size of `modes` before `strcat (modes, mode)`: when `modes`
followed by `mode` and the final NUL does not fit in `char modes[128+1]`, the
behaviour of the source is undefined and the value is `none`. -/
def mode_masks_step (max_modes : Nat) (channel_name set mode : CStr) (m : CStr)
    (st : ModeMasksState) : Option ModeMasksState :=
  let mask_fits : Prop := st.masks.length + 1 + m.length + 1 < sizeof_nicks
  let st1 :=
    if st.modes ≠ [] ∧ (st.modes_added = max_modes ∨ ¬ mask_fits) then
      mode_masks_send channel_name set st
    else st
  if mask_fits then
    if st1.modes.length + mode.length < sizeof_modes then
      some
        { st1 with
          modes := st1.modes ++ mode
          masks := (if st1.masks ≠ [] then st1.masks ++ [' '] else st1.masks) ++ m
          modes_added := st1.modes_added + 1 }
    else none
  else some st1

/-- The loop `for (; argv[pos_masks]; pos_masks++)` on the masks that remain. -/
def mode_masks_loop (max_modes : Nat) (channel_name set mode : CStr) :
    List CStr → ModeMasksState → Option ModeMasksState
  | [], st => some st
  | m :: rest, st =>
    match mode_masks_step max_modes channel_name set mode m st with
    | some st1 => mode_masks_loop max_modes channel_name set mode rest st1
    | none => none

/-- The end of `irc_command_mode_masks`: a final MODE command is sent if some
masks are remaining. The value is the list of all the messages sent. -/
def mode_masks_final (channel_name set : CStr) (st : ModeMasksState) : List SendfCall :=
  if st.modes ≠ [] ∧ st.masks ≠ [] then
    st.sent ++ [⟨st.msg_priority, mode_format, [channel_name, set, st.modes, st.masks]⟩]
  else st.sent

/-- The masks of a call: the arguments from `argv[pos_masks]` on, each replaced by
the default ban mask when it names a nick of the channel. -/
def mode_masks_list (irc_nick_search : t_irc_channel → CStr → Option t_irc_nick)
    (irc_nick_default_ban_mask : t_irc_nick → Option CStr)
    (ptr_channel : Option t_irc_channel) (argv : List CStr) (pos_masks : Nat) : List CStr :=
  (argv.drop pos_masks).map
    (mode_masks_mask irc_nick_search irc_nick_default_ban_mask ptr_channel)

/-- The function `irc_command_mode_masks`. `chanmode_type` is the value of
`irc_mode_get_chanmode_type (server, mode[0])`, `max_modes` the value of
`irc_server_get_max_modes (server)` and `ptr_channel` the value of
`irc_channel_search (server, channel_name)`. The value is `none` when the source
writes past the end of `modes`. -/
def irc_command_mode_masks (chanmode_type : Char) (max_modes : Nat)
    (irc_nick_search : t_irc_channel → CStr → Option t_irc_nick)
    (irc_nick_default_ban_mask : t_irc_nick → Option CStr)
    (ptr_channel : Option t_irc_channel) (channel_name set mode : CStr)
    (argv : List CStr) (pos_masks : Nat) : Option ModeResult :=
  if chanmode_type ≠ 'A' then
    some ⟨[],
      ["%s%s: cannot execute command /%s, channel mode \"%s\" is not supported by server"]⟩
  else
    (mode_masks_loop max_modes channel_name set mode
      (mode_masks_list irc_nick_search irc_nick_default_ban_mask ptr_channel argv pos_masks)
      ⟨[], [], 0, IRC_SERVER_SEND_OUTQ_PRIO_HIGH, []⟩).map
        fun st => ⟨mode_masks_final channel_name set st, []⟩

/-! ## irc_command_mode_masks without the bound of `modes` -/

/-- The function `mode_masks_step` on a buffer `modes` without bound. This function
and the two that follow are used in the proofs only: they give the values of
`mode_masks_step`, `mode_masks_loop` and `irc_command_mode_masks` whenever these are
not `none`. -/
def mode_masks_step_unbounded (max_modes : Nat) (channel_name set mode : CStr) (m : CStr)
    (st : ModeMasksState) : ModeMasksState :=
  let mask_fits : Prop := st.masks.length + 1 + m.length + 1 < sizeof_nicks
  let st1 :=
    if st.modes ≠ [] ∧ (st.modes_added = max_modes ∨ ¬ mask_fits) then
      mode_masks_send channel_name set st
    else st
  if mask_fits then
    { st1 with
      modes := st1.modes ++ mode
      masks := (if st1.masks ≠ [] then st1.masks ++ [' '] else st1.masks) ++ m
      modes_added := st1.modes_added + 1 }
  else st1

/-- The function `mode_masks_loop` without the bound of `modes`. -/
def mode_masks_loop_unbounded (max_modes : Nat) (channel_name set mode : CStr) :
    List CStr → ModeMasksState → ModeMasksState
  | [], st => st
  | m :: rest, st =>
    mode_masks_loop_unbounded max_modes channel_name set mode rest
      (mode_masks_step_unbounded max_modes channel_name set mode m st)

/-- The function `irc_command_mode_masks` without the bound of `modes`. -/
def irc_command_mode_masks_unbounded (chanmode_type : Char) (max_modes : Nat)
    (irc_nick_search : t_irc_channel → CStr → Option t_irc_nick)
    (irc_nick_default_ban_mask : t_irc_nick → Option CStr)
    (ptr_channel : Option t_irc_channel) (channel_name set mode : CStr)
    (argv : List CStr) (pos_masks : Nat) : ModeResult :=
  if chanmode_type ≠ 'A' then
    ⟨[], ["%s%s: cannot execute command /%s, channel mode \"%s\" is not supported by server"]⟩
  else
    let st := mode_masks_loop_unbounded max_modes channel_name set mode
      (mode_masks_list irc_nick_search irc_nick_default_ban_mask ptr_channel argv pos_masks)
      ⟨[], [], 0, IRC_SERVER_SEND_OUTQ_PRIO_HIGH, []⟩
    ⟨mode_masks_final channel_name set st, []⟩

/-! ## Servers: connection and disconnection -/

/-- The fields of `struct t_irc_server` used by the commands below. A pointer field
(`hook_connect`, `hook_fd`) is `true` when it is not NULL; `msg_quit` is the value of
`IRC_SERVER_OPTION_STRING(server, IRC_SERVER_OPTION_MSG_QUIT)` (`none` for NULL) and
`msg_kick` the value of the option `IRC_SERVER_OPTION_MSG_KICK`; `away_message` is
`none` for NULL; the hashtables `join_manual`, `join_noswitch` and
`join_channel_key` are the lists of their entries, the newest first. -/
structure t_irc_server where
  name : CStr
  nick : CStr
  temp_server : Int
  is_connected : Int
  hook_connect : Bool
  hook_fd : Bool
  reconnect_delay : Int
  reconnect_start : Int
  reconnect_join : Int
  disable_autojoin : Int
  channels : List t_irc_channel
  msg_quit : Option CStr
  msg_kick : Option CStr := none
  is_away : Int := 0
  away_time : Int := 0
  away_message : Option CStr := none
  sock : Int := -1
  join_manual : List (CStr × Int) := []
  join_noswitch : List (CStr × Int) := []
  join_channel_key : List (CStr × CStr) := []
  deriving DecidableEq, Repr

/-- What a command does besides changing the fields of the servers, in the order
of the calls. -/
inductive Effect where
  | sendf (server : CStr) (call : SendfCall)
  | printf (format : String)
  | server_switch_address (server : CStr) (connection : Int)
  | server_connect (server : CStr)
  | server_disconnect (server : CStr) (switch_address reconnect : Int)
  | bar_item_update (item : String)
  | display_server (server : CStr) (with_detail : Int)
  | server_alloc (name : CStr)
  | server_copy (server new_name : CStr)
  | server_rename (server new_name : CStr)
  | server_free (server : CStr)
  | server_reorder (names : List CStr)
  | outqueue_free_all (server : CStr) (priority : Nat)
  | raw_open
  | buffer_set_display (server : CStr)
  | msgq_add_buffer (server : CStr) (message : CStr)
  | msgq_flush
  | server_set_away (server nick : CStr) (is_away : Int)
  | printf_date_tags (buffer : CStr) (format : String) (args : List CStr)
  | buffer_set (buffer : CStr) (property value : String)
  | channel_create_buffer (server : CStr) (channel_type : Int) (channel_name : CStr)
      (switch_to_channel auto_switch : Int)
  deriving DecidableEq, Repr

/-- Result of a function on one server: the value returned, the server after the
call and the effects. -/
structure ServerResult where
  rc : Int
  server : Option t_irc_server
  effects : List Effect
  deriving DecidableEq, Repr

/-- The function `irc_command_connect_one_server`. The functions
`irc_server_switch_address` and `irc_server_connect` of irc-server.c are
parameters: each gives the server after the call, `irc_server_connect` also the
value it returns. -/
def irc_command_connect_one_server
    (irc_server_switch_address : t_irc_server → Int → t_irc_server)
    (irc_server_connect : t_irc_server → Int × t_irc_server)
    (server : Option t_irc_server) (switch_address no_join : Int) : ServerResult :=
  match server with
  | none => ⟨0, none, []⟩
  | some server =>
    if server.is_connected ≠ 0 then
      ⟨0, some server, [Effect.printf "%s%s: already connected to server \"%s\"!"]⟩
    else if server.hook_connect then
      ⟨0, some server, [Effect.printf "%s%s: currently connecting to server \"%s\"!"]⟩
    else
      let s1 := if switch_address ≠ 0 then irc_server_switch_address server 0 else server
      let e1 := if switch_address ≠ 0 then [Effect.server_switch_address server.name 0] else []
      let s2 := { s1 with disable_autojoin := no_join }
      let r := irc_server_connect s2
      let s3 :=
        if r.1 ≠ 0 then
          { r.2 with
            reconnect_delay := 0
            reconnect_start := 0
            reconnect_join := if r.2.channels ≠ [] then 1 else 0 }
        else r.2
      ⟨1, some s3, e1 ++ [Effect.server_connect s2.name]⟩

/-- The function `irc_command_quit_server`: the calls of `irc_server_sendf`.
`irc_server_get_default_msg` of irc-server.c is a parameter. -/
def irc_command_quit_server (irc_server_get_default_msg : CStr → t_irc_server → CStr)
    (server : Option t_irc_server) (arguments : Option CStr) : List Effect :=
  match server with
  | none => []
  | some server =>
    if server.is_connected = 0 then []
    else
      let ptr_arg : Option CStr :=
        match arguments with
        | some a => some a
        | none => server.msg_quit
      match ptr_arg with
      | some (c :: cs) =>
        [Effect.sendf server.name
          ⟨SendFlags.none, "QUIT :%s".toList, [irc_server_get_default_msg (c :: cs) server]⟩]
      | _ => [Effect.sendf server.name ⟨SendFlags.none, "QUIT".toList, []⟩]

/-- The function `irc_command_disconnect_one_server`. `irc_server_disconnect` of
irc-server.c is a parameter: it gives the server after the call. -/
def irc_command_disconnect_one_server
    (irc_server_get_default_msg : CStr → t_irc_server → CStr)
    (irc_server_disconnect : t_irc_server → Int → Int → t_irc_server)
    (server : Option t_irc_server) (reason : Option CStr) : ServerResult :=
  match server with
  | none => ⟨0, none, []⟩
  | some server =>
    if server.is_connected = 0 ∧ server.hook_connect = false ∧ server.hook_fd = false
        ∧ server.reconnect_start = 0 then
      ⟨0, some server, [Effect.printf "%s%s: not connected to server \"%s\"!"]⟩
    else
      let e1 :=
        if 0 < server.reconnect_start then [Effect.printf "%s: auto-reconnection is cancelled"]
        else []
      ⟨1, some (irc_server_disconnect server 0 0),
        e1 ++ irc_command_quit_server irc_server_get_default_msg (some server) reason
          ++ [Effect.server_disconnect server.name 0 0, Effect.bar_item_update "away"]⟩

/-- The server is fully disconnected: not connected, no connection attempt going
on (`hook_connect` and `hook_fd` unset) and no reconnection scheduled. -/
def fully_disconnected (server : t_irc_server) : Prop :=
  server.is_connected = 0 ∧ server.hook_connect = false ∧ server.hook_fd = false
    ∧ server.reconnect_start = 0

instance (server : t_irc_server) : Decidable (fully_disconnected server) := by
  unfold fully_disconnected; infer_instance

/-- The effect is a call of `irc_server_sendf`. -/
def Effect.is_sendf : Effect → Bool
  | Effect.sendf _ _ => true
  | _ => false

/-- The effect is a call of `irc_server_disconnect`. -/
def Effect.is_server_disconnect : Effect → Bool
  | Effect.server_disconnect _ _ _ => true
  | _ => false

/-- The effect is a call of `irc_server_switch_address` or `irc_server_connect`. -/
def Effect.is_connect : Effect → Bool
  | Effect.server_switch_address _ _ => true
  | Effect.server_connect _ => true
  | _ => false

/-- The text chosen for the QUIT message: the reason given, or the default quit
message of the server when no reason is given (empty when the option is NULL). -/
def quit_text (server : t_irc_server) (reason : Option CStr) : CStr :=
  match reason with
  | some a => a
  | none => server.msg_quit.getD []

/-- The call of `irc_server_sendf` for the QUIT message with the text chosen. -/
def quit_call (irc_server_get_default_msg : CStr → t_irc_server → CStr)
    (server : t_irc_server) (reason : Option CStr) : SendfCall :=
  if quit_text server reason = [] then ⟨SendFlags.none, "QUIT".toList, []⟩
  else
    ⟨SendFlags.none, "QUIT :%s".toList,
      [irc_server_get_default_msg (quit_text server reason) server]⟩

/-! ## The command /server -/

/-- Values returned by a command callback: `WEECHAT_RC_OK` and `WEECHAT_RC_ERROR`. -/
inductive ReturnCode where
  | WEECHAT_RC_OK
  | WEECHAT_RC_ERROR
  deriving DecidableEq, Repr

/-- Modelled from the spec: the comparison "ignoring case" of two names, that is
`weechat_strcasecmp (a, b) == 0` of the WeeChat core (absent from src): the names
are equal once their letters are in lower case. -/
def string_caseeq (a b : CStr) : Bool := a.map Char.toLower == b.map Char.toLower

/-- Modelled from the spec: `weechat_strcasestr (s, search) != NULL` of the WeeChat
core (absent from src): `search` is a substring of `s`, ignoring case. -/
def string_casestr (s search : CStr) : Bool :=
  (s.map Char.toLower).tails.any fun t => (search.map Char.toLower).isPrefixOf t

/-- Modelled from the spec: `irc_server_search` of irc-server.c (absent from src),
the lookup of a server by its exact name in the ordered registry. -/
def irc_server_search (irc_servers : List t_irc_server) (name : CStr) : Option t_irc_server :=
  irc_servers.find? fun s => s.name == name

/-- Modelled from the spec: `irc_server_casesearch` of irc-server.c (absent from
src), the lookup of a server by name in the ordered registry, ignoring case. -/
def irc_server_casesearch (irc_servers : List t_irc_server) (name : CStr) :
    Option t_irc_server :=
  irc_servers.find? fun s => string_caseeq s.name name

/-- The functions of irc-server.c that change the registry `irc_servers`, as
parameters of the command: each gives the registry after the call.
`irc_server_alloc` and `irc_server_copy` also give the new server (`none` for NULL),
`irc_server_rename` gives `none` when it returns 0, `irc_server_reorder` gives the
number of servers moved. `set_addresses` is the call of `weechat_config_option_set`
on the option "addresses" of the new server. -/
structure ServerOps where
  irc_server_alloc : List t_irc_server → CStr → Option (t_irc_server × List t_irc_server)
  set_addresses : List t_irc_server → t_irc_server → CStr → List t_irc_server
  irc_server_apply_command_line_options :
    List t_irc_server → t_irc_server → List CStr → List t_irc_server
  irc_server_copy :
    List t_irc_server → t_irc_server → CStr → Option (t_irc_server × List t_irc_server)
  irc_server_rename : List t_irc_server → t_irc_server → CStr → Option (List t_irc_server)
  irc_server_free : List t_irc_server → t_irc_server → List t_irc_server
  irc_server_reorder : List t_irc_server → List CStr → Int × List t_irc_server

/-- Result of the command /server: the value returned, the registry `irc_servers`
after the command and the effects. -/
structure ServerCmdResult where
  rc : ReturnCode
  irc_servers : List t_irc_server
  effects : List Effect
  deriving DecidableEq, Repr

/-- The macro `WEECHAT_COMMAND_ERROR`: an error is displayed and the callback
returns `WEECHAT_RC_ERROR`. -/
def weechat_command_error (irc_servers : List t_irc_server) : ServerCmdResult :=
  ⟨ReturnCode.WEECHAT_RC_ERROR, irc_servers,
    [Effect.printf "%sError with command \"%s\" (help on command: /help %s)"]⟩

/-- The return of the macro `WEECHAT_COMMAND_MIN_ARGS` when `argc` is too small. -/
def weechat_command_min_args_error (irc_servers : List t_irc_server) : ServerCmdResult :=
  ⟨ReturnCode.WEECHAT_RC_ERROR, irc_servers,
    [Effect.printf "%sToo few arguments for command \"%s%s%s\" (help on command: /help %s)"]⟩

/-- The loop `for (i = 1; i < argc; i++)` of the branch "list" on the arguments
that remain: the variables `server_name` (`none` for NULL) and `detailed_list`. The
arguments "list" and "listfull" are skipped, the first other argument is the name. -/
def server_list_args : List CStr → Option CStr × Int → Option CStr × Int
  | [], st => st
  | a :: rest, st =>
    if string_caseeq a "list".toList then server_list_args rest st
    else if string_caseeq a "listfull".toList then server_list_args rest (st.1, 1)
    else if st.1 = none then server_list_args rest (some a, st.2)
    else server_list_args rest st

/-- The loop on the registry of the branch "list" when a name is given, on the
servers that remain: the variable `one_server_found` and the effects. The title is
displayed before the first server found. -/
def server_list_loop (server_name : CStr) (detailed_list : Int) :
    List t_irc_server → Int → Int × List Effect
  | [], one_server_found => (one_server_found, [])
  | s :: next, one_server_found =>
    if string_casestr s.name server_name then
      let t := server_list_loop server_name detailed_list next 1
      (t.1,
        (if one_server_found = 0 then [Effect.printf "", Effect.printf "Servers with \"%s\":"]
          else [])
          ++ Effect.display_server s.name detailed_list :: t.2)
    else server_list_loop server_name detailed_list next one_server_found

/-- The branch "list" and "listfull" of `irc_command_server` (also taken when
`argc == 1`). -/
def irc_command_server_list (irc_servers : List t_irc_server) (argv : List CStr) :
    ServerCmdResult :=
  let a := server_list_args (argv.drop 1) (none, 0)
  match a.1 with
  | none =>
    if irc_servers ≠ [] then
      ⟨ReturnCode.WEECHAT_RC_OK, irc_servers,
        [Effect.printf "", Effect.printf "All servers:"]
          ++ irc_servers.map fun s => Effect.display_server s.name a.2⟩
    else ⟨ReturnCode.WEECHAT_RC_OK, irc_servers, [Effect.printf "No server"]⟩
  | some server_name =>
    let t := server_list_loop server_name a.2 irc_servers 0
    ⟨ReturnCode.WEECHAT_RC_OK, irc_servers,
      t.2 ++ (if t.1 = 0 then [Effect.printf "No server found with \"%s\""] else [])⟩

/-- The effect is a call of `irc_command_display_server`. -/
def Effect.is_display_server : Effect → Bool
  | Effect.display_server _ _ => true
  | _ => false

/-- The text is a substring of the name, ignoring case. -/
def name_contains (name text : CStr) : Prop :=
  text.map Char.toLower <:+: name.map Char.toLower

instance (name text : CStr) : Decidable (name_contains name text) := by
  unfold name_contains; infer_instance

/-- The branch "add" of `irc_command_server`. -/
def irc_command_server_add (ops : ServerOps) (irc_servers : List t_irc_server)
    (argv : List CStr) : ServerCmdResult :=
  if argv.length < 4 then weechat_command_min_args_error irc_servers
  else
    match irc_server_casesearch irc_servers (argv.getD 2 []) with
    | some _ =>
      ⟨ReturnCode.WEECHAT_RC_OK, irc_servers,
        [Effect.printf "%s%s: server \"%s\" already exists, can't add it!"]⟩
    | none =>
      match ops.irc_server_alloc irc_servers (argv.getD 2 []) with
      | none =>
        ⟨ReturnCode.WEECHAT_RC_OK, irc_servers,
          [Effect.server_alloc (argv.getD 2 []), Effect.printf "%s%s: unable to add server"]⟩
      | some (new_server, servers1) =>
        let servers2 := ops.set_addresses servers1 new_server (argv.getD 3 [])
        let servers3 := ops.irc_server_apply_command_line_options servers2 new_server argv
        ⟨ReturnCode.WEECHAT_RC_OK, servers3,
          [Effect.server_alloc (argv.getD 2 []),
            Effect.printf
              (if new_server.temp_server ≠ 0 then
                "%s: server %s%s%s added (temporary server, NOT SAVED!)"
              else "%s: server %s%s%s added")]⟩

/-- The branch "copy" of `irc_command_server`. -/
def irc_command_server_copy (ops : ServerOps) (irc_servers : List t_irc_server)
    (argv : List CStr) : ServerCmdResult :=
  if argv.length < 4 then weechat_command_min_args_error irc_servers
  else
    match irc_server_search irc_servers (argv.getD 2 []) with
    | none =>
      ⟨ReturnCode.WEECHAT_RC_OK, irc_servers,
        [Effect.printf "%s%s: server \"%s\" not found for \"%s\" command"]⟩
    | some server_found =>
      match irc_server_casesearch irc_servers (argv.getD 3 []) with
      | some _ =>
        ⟨ReturnCode.WEECHAT_RC_OK, irc_servers,
          [Effect.printf "%s%s: server \"%s\" already exists for \"%s\" command"]⟩
      | none =>
        match ops.irc_server_copy irc_servers server_found (argv.getD 3 []) with
        | some (_, servers1) =>
          ⟨ReturnCode.WEECHAT_RC_OK, servers1,
            [Effect.server_copy server_found.name (argv.getD 3 []),
              Effect.printf "%s: server %s%s%s has been copied to %s%s%s"]⟩
        | none =>
          ⟨ReturnCode.WEECHAT_RC_ERROR, irc_servers,
            Effect.server_copy server_found.name (argv.getD 3 [])
              :: (weechat_command_error irc_servers).effects⟩

/-- The branch "rename" of `irc_command_server`. -/
def irc_command_server_rename (ops : ServerOps) (irc_servers : List t_irc_server)
    (argv : List CStr) : ServerCmdResult :=
  if argv.length < 4 then weechat_command_min_args_error irc_servers
  else
    match irc_server_search irc_servers (argv.getD 2 []) with
    | none =>
      ⟨ReturnCode.WEECHAT_RC_OK, irc_servers,
        [Effect.printf "%s%s: server \"%s\" not found for \"%s\" command"]⟩
    | some server_found =>
      match irc_server_casesearch irc_servers (argv.getD 3 []) with
      | some _ =>
        ⟨ReturnCode.WEECHAT_RC_OK, irc_servers,
          [Effect.printf "%s%s: server \"%s\" already exists for \"%s\" command"]⟩
      | none =>
        match ops.irc_server_rename irc_servers server_found (argv.getD 3 []) with
        | some servers1 =>
          ⟨ReturnCode.WEECHAT_RC_OK, servers1,
            [Effect.server_rename server_found.name (argv.getD 3 []),
              Effect.printf "%s: server %s%s%s has been renamed to %s%s%s"]⟩
        | none =>
          ⟨ReturnCode.WEECHAT_RC_ERROR, irc_servers,
            Effect.server_rename server_found.name (argv.getD 3 [])
              :: (weechat_command_error irc_servers).effects⟩

/-- The registry after a change of the first server named `name`, the server that
`irc_server_search` finds. -/
def update_found (name : CStr) (f : t_irc_server → t_irc_server) :
    List t_irc_server → List t_irc_server
  | [] => []
  | s :: rest => if s.name == name then f s :: rest else s :: update_found name f rest

/-- The branch "keep" of `irc_command_server`. -/
def irc_command_server_keep (irc_servers : List t_irc_server) (argv : List CStr) :
    ServerCmdResult :=
  if argv.length < 3 then weechat_command_min_args_error irc_servers
  else
    match irc_server_search irc_servers (argv.getD 2 []) with
    | none =>
      ⟨ReturnCode.WEECHAT_RC_OK, irc_servers,
        [Effect.printf "%s%s: server \"%s\" not found for \"%s\" command"]⟩
    | some server_found =>
      if server_found.temp_server = 0 then
        ⟨ReturnCode.WEECHAT_RC_OK, irc_servers,
          [Effect.printf "%s%s: server \"%s\" is not a temporary server"]⟩
      else
        ⟨ReturnCode.WEECHAT_RC_OK,
          update_found (argv.getD 2 []) (fun s => { s with temp_server := 0 }) irc_servers,
          [Effect.printf "%s: server %s%s%s is not temporary any more"]⟩

/-- The branch "del" of `irc_command_server`. -/
def irc_command_server_del (ops : ServerOps) (irc_servers : List t_irc_server)
    (argv : List CStr) : ServerCmdResult :=
  if argv.length < 3 then weechat_command_min_args_error irc_servers
  else
    match irc_server_search irc_servers (argv.getD 2 []) with
    | none =>
      ⟨ReturnCode.WEECHAT_RC_OK, irc_servers,
        [Effect.printf "%s%s: server \"%s\" not found for \"%s\" command"]⟩
    | some server_found =>
      if server_found.is_connected ≠ 0 then
        ⟨ReturnCode.WEECHAT_RC_OK, irc_servers,
          [Effect.printf ("%s%s: you can not delete server \"%s\" because you are "
            ++ "connected to. Try \"/disconnect %s\" before.")]⟩
      else
        ⟨ReturnCode.WEECHAT_RC_OK, ops.irc_server_free irc_servers server_found,
          [Effect.server_free server_found.name,
            Effect.printf "%s: server %s%s%s has been deleted"]⟩

/-- Modelled from the spec: the constant `IRC_SERVER_NUM_OUTQUEUES_PRIO` of
irc-server.h (absent from src), the two priority lanes of the send queue. -/
def IRC_SERVER_NUM_OUTQUEUES_PRIO : Nat := 2

/-- The branch "fakerecv" of `irc_command_server`; the macro
`IRC_COMMAND_CHECK_SERVER` returns when there is no server or no connection. -/
def irc_command_server_fakerecv (ptr_server : Option t_irc_server)
    (irc_servers : List t_irc_server) (argv argv_eol : List CStr) : ServerCmdResult :=
  if argv.length < 3 then weechat_command_min_args_error irc_servers
  else
    match ptr_server with
    | none =>
      ⟨ReturnCode.WEECHAT_RC_OK, irc_servers,
        [Effect.printf ("%s%s: command \"%s\" must be executed on irc buffer "
          ++ "(server, channel or private)")]⟩
    | some server =>
      if server.is_connected = 0 then
        ⟨ReturnCode.WEECHAT_RC_OK, irc_servers,
          [Effect.printf "%s%s: command \"%s\" must be executed on connected irc server"]⟩
      else if 0 < (argv_eol.getD 2 []).length then
        ⟨ReturnCode.WEECHAT_RC_OK, irc_servers,
          [Effect.msgq_add_buffer server.name (argv_eol.getD 2 [] ++ ['\r', '\n']),
            Effect.msgq_flush]⟩
      else ⟨ReturnCode.WEECHAT_RC_OK, irc_servers, []⟩

/-- The callback of the command /server: `ptr_server` is the server of the buffer,
`irc_servers` the registry, `argv` and `argv_eol` the arguments (`argc` is the
length of `argv`). In the branch "reorder", `NG_ (single, plural, count)` is the
singular text when the count is 1 and the plural text otherwise (no
translation). -/
def irc_command_server (ops : ServerOps) (ptr_server : Option t_irc_server)
    (irc_servers : List t_irc_server) (argv argv_eol : List CStr) : ServerCmdResult :=
  let arg1 := argv.getD 1 []
  if argv.length = 1 ∨ string_caseeq arg1 "list".toList ∨ string_caseeq arg1 "listfull".toList
  then irc_command_server_list irc_servers argv
  else if string_caseeq arg1 "add".toList then irc_command_server_add ops irc_servers argv
  else if string_caseeq arg1 "copy".toList then irc_command_server_copy ops irc_servers argv
  else if string_caseeq arg1 "rename".toList then
    irc_command_server_rename ops irc_servers argv
  else if string_caseeq arg1 "reorder".toList then
    if argv.length < 3 then weechat_command_min_args_error irc_servers
    else
      ⟨ReturnCode.WEECHAT_RC_OK, (ops.irc_server_reorder irc_servers (argv.drop 2)).2,
        [Effect.server_reorder (argv.drop 2),
          Effect.printf
            (if (ops.irc_server_reorder irc_servers (argv.drop 2)).1 = 1 then "%d server moved"
              else "%d servers moved")]⟩
  else if string_caseeq arg1 "keep".toList then irc_command_server_keep irc_servers argv
  else if string_caseeq arg1 "del".toList then irc_command_server_del ops irc_servers argv
  else if string_caseeq arg1 "deloutq".toList then
    ⟨ReturnCode.WEECHAT_RC_OK, irc_servers,
      (irc_servers.map fun s =>
          (List.range IRC_SERVER_NUM_OUTQUEUES_PRIO).map fun i =>
            Effect.outqueue_free_all s.name i).flatten
        ++ [Effect.printf ("%s: messages outqueue DELETED for all servers. Some messages "
          ++ "from you or WeeChat may have been lost!")]⟩
  else if string_caseeq arg1 "raw".toList then
    ⟨ReturnCode.WEECHAT_RC_OK, irc_servers, [Effect.raw_open]⟩
  else if string_caseeq arg1 "jump".toList then
    match ptr_server with
    | some server => ⟨ReturnCode.WEECHAT_RC_OK, irc_servers, [Effect.buffer_set_display server.name]⟩
    | none => ⟨ReturnCode.WEECHAT_RC_OK, irc_servers, []⟩
  else if string_caseeq arg1 "fakerecv".toList then
    irc_command_server_fakerecv ptr_server irc_servers argv argv_eol
  else weechat_command_error irc_servers

/-- The callback of the command /op. `ptr_server` and `ptr_channel` are the server
and the channel of the buffer, `is_channel` tells that the type of the channel is
`IRC_CHANNEL_TYPE_CHANNEL`; the other parameters are those of
`irc_command_mode_nicks`. -/
def irc_command_op (string_match : CStr → CStr → Bool) (max_modes : Nat) (prefix_chr : Char)
    (ptr_server : Option t_irc_server) (ptr_channel : Option t_irc_channel)
    (is_channel : Bool) (argv : List CStr) : Option ModeResult :=
  match ptr_server with
  | none =>
    some ⟨[],
      ["%s%s: command \"%s\" must be executed on irc buffer (server, channel or private)"]⟩
  | some server =>
    if server.is_connected = 0 then
      some ⟨[], ["%s%s: command \"%s\" must be executed on connected irc server"]⟩
    else
      match ptr_channel with
      | none => some ⟨[], ["%s%s: \"%s\" command can only be executed in a channel buffer"]⟩
      | some channel =>
        if ! is_channel then
          some ⟨[], ["%s%s: \"%s\" command can only be executed in a channel buffer"]⟩
        else if argv.length < 2 then
          some ⟨[⟨IRC_SERVER_SEND_OUTQ_PRIO_HIGH, "MODE %s +o %s".toList,
            [channel.name, server.nick]⟩], []⟩
        else
          irc_command_mode_nicks string_match server.nick max_modes prefix_chr channel
            "+".toList "o".toList argv

/-! ## The command /disconnect -/

/-- The test of the loop of "/disconnect -all": the server is connected, is
connecting (`hook_connect` or `hook_fd` set) or has a reconnection scheduled. -/
def disconnect_all_test (s : t_irc_server) : Prop :=
  s.is_connected ≠ 0 ∨ s.hook_connect = true ∨ s.hook_fd = true ∨ s.reconnect_start ≠ 0

instance (s : t_irc_server) : Decidable (disconnect_all_test s) := by
  unfold disconnect_all_test; infer_instance

/-- The test of the loop of "/disconnect -pending": the server is not connected and
has a reconnection scheduled. -/
def disconnect_pending_test (s : t_irc_server) : Prop :=
  s.is_connected = 0 ∧ s.reconnect_start ≠ 0

instance (s : t_irc_server) : Decidable (disconnect_pending_test s) := by
  unfold disconnect_pending_test; infer_instance

/-- State of the loops of `irc_command_disconnect`: the variable `disconnect_ok`,
the servers after the loop and the effects of the loop. -/
structure DisconnectLoop where
  disconnect_ok : Int
  irc_servers : List t_irc_server
  effects : List Effect
  deriving DecidableEq, Repr

/-- The loop `for (ptr_server = irc_servers; ptr_server; ...)` of "/disconnect -all"
and "/disconnect -pending" on the servers that remain: `test` is the condition of
the loop, `disconnect_ok` is set to 0 when a call returns 0. -/
def disconnect_loop (irc_server_get_default_msg : CStr → t_irc_server → CStr)
    (irc_server_disconnect : t_irc_server → Int → Int → t_irc_server)
    (test : t_irc_server → Bool) (reason : Option CStr) :
    List t_irc_server → Int → DisconnectLoop
  | [], disconnect_ok => ⟨disconnect_ok, [], []⟩
  | s :: next, disconnect_ok =>
    if test s then
      let r := irc_command_disconnect_one_server irc_server_get_default_msg
        irc_server_disconnect (some s) reason
      let t := disconnect_loop irc_server_get_default_msg irc_server_disconnect test reason
        next (if r.rc = 0 then 0 else disconnect_ok)
      ⟨t.disconnect_ok, r.server.getD s :: t.irc_servers, r.effects ++ t.effects⟩
    else
      let t := disconnect_loop irc_server_get_default_msg irc_server_disconnect test reason
        next disconnect_ok
      ⟨t.disconnect_ok, s :: t.irc_servers, t.effects⟩

/-- The callback of the command /disconnect: `ptr_server` is the server of the
buffer (an entry of the registry `irc_servers`). -/
def irc_command_disconnect (irc_server_get_default_msg : CStr → t_irc_server → CStr)
    (irc_server_disconnect : t_irc_server → Int → Int → t_irc_server)
    (ptr_server : Option t_irc_server) (irc_servers : List t_irc_server)
    (argv argv_eol : List CStr) : ServerCmdResult :=
  let reason : Option CStr := if 2 < argv.length then some (argv_eol.getD 2 []) else none
  if argv.length < 2 then
    let r := irc_command_disconnect_one_server irc_server_get_default_msg
      irc_server_disconnect ptr_server reason
    ⟨if r.rc ≠ 0 then ReturnCode.WEECHAT_RC_OK else ReturnCode.WEECHAT_RC_ERROR,
      match ptr_server, r.server with
      | some s, some s2 => update_found s.name (fun _ => s2) irc_servers
      | _, _ => irc_servers,
      r.effects⟩
  else if string_caseeq (argv.getD 1 []) "-all".toList then
    let t := disconnect_loop irc_server_get_default_msg irc_server_disconnect
      (fun s => decide (disconnect_all_test s)) reason irc_servers 1
    ⟨if t.disconnect_ok ≠ 0 then ReturnCode.WEECHAT_RC_OK else ReturnCode.WEECHAT_RC_ERROR,
      t.irc_servers, t.effects⟩
  else if string_caseeq (argv.getD 1 []) "-pending".toList then
    let t := disconnect_loop irc_server_get_default_msg irc_server_disconnect
      (fun s => decide (disconnect_pending_test s)) reason irc_servers 1
    ⟨if t.disconnect_ok ≠ 0 then ReturnCode.WEECHAT_RC_OK else ReturnCode.WEECHAT_RC_ERROR,
      t.irc_servers, t.effects⟩
  else
    match irc_server_search irc_servers (argv.getD 1 []) with
    | some s =>
      let r := irc_command_disconnect_one_server irc_server_get_default_msg
        irc_server_disconnect (some s) reason
      ⟨if r.rc ≠ 0 then ReturnCode.WEECHAT_RC_OK else ReturnCode.WEECHAT_RC_ERROR,
        match r.server with
        | some s2 => update_found s.name (fun _ => s2) irc_servers
        | none => irc_servers,
        r.effects⟩
    | none =>
      ⟨ReturnCode.WEECHAT_RC_ERROR, irc_servers,
        [Effect.printf "%s%s: server \"%s\" not found"]⟩

/-! ## The commands /allserv and /allchan -/

/-- The functions of the WeeChat core and of the other files of the plugin used by
`irc_command_exec_all_servers` and `irc_command_exec_all_channels`, as parameters.
`string_match name mask` is `weechat_string_match (name, mask, 0)`; `string_split`
is `weechat_string_split (string, ",", 0, 0, &num)` (`none` for NULL);
`server_full_name` and `channel_full_name` give the "full_name" of the buffer of a
server and of a channel; `buffer_server_and_channel` is `weechat_buffer_search`
followed by `irc_buffer_get_server_and_channel` (`none` when no buffer has this
name); `irc_message_replace_vars` may return NULL (`none`). -/
structure ExecEnv where
  string_match : CStr → CStr → Bool
  string_is_command_char : CStr → Bool
  string_split : CStr → Option (List CStr)
  server_full_name : t_irc_server → CStr
  channel_full_name : t_irc_server → t_irc_channel → CStr
  buffer_server_and_channel : CStr → Option (Option t_irc_server × Option t_irc_channel)
  irc_message_replace_vars : t_irc_server → Option CStr → CStr → Option CStr

/-- One call `weechat_command (buffer, command)`; the buffer is given by its full
name. -/
structure ExecCall where
  buffer : CStr
  command : CStr
  deriving DecidableEq, Repr

/-- What `irc_command_exec_all_servers` and `irc_command_exec_all_channels` do: the
list `list_buffers` of the names of the buffers selected, and the calls of
`weechat_command`. -/
structure ExecAllResult where
  list_buffers : List CStr
  commands : List ExecCall
  deriving DecidableEq, Repr

/-- The loop `for (i = 0; i < num; i++)` on the masks, left at the first mask that
matches the name: the value tells whether a mask matched. -/
def exec_all_matches (string_match : CStr → CStr → Bool) (name : CStr) : List CStr → Bool
  | [] => false
  | mask :: rest => if string_match name mask then true else exec_all_matches string_match name rest

/-- The variable `picked` for one name: `(inclusive) ? 0 : 1` at first, changed to
`(inclusive) ? 1 : 0` when there is a list of masks and a mask matches. -/
def exec_all_picked (string_match : CStr → CStr → Bool) (inclusive : Int)
    (masks : Option (List CStr)) (name : CStr) : Int :=
  match masks with
  | some l =>
    if exec_all_matches string_match name l then (if inclusive ≠ 0 then 1 else 0)
    else (if inclusive ≠ 0 then 0 else 1)
  | none => if inclusive ≠ 0 then 0 else 1

/-- The command to execute: a "/" is put before the command when it does not
start with a command char. -/
def exec_all_str_command (env : ExecEnv) (command : CStr) : CStr :=
  if ¬ env.string_is_command_char command then '/' :: command else command

/-- The list of masks: `weechat_string_split` of the string when it is neither
NULL nor empty, else NULL. -/
def exec_all_split (env : ExecEnv) (str : Option CStr) : Option (List CStr) :=
  match str with
  | some (c :: cs) => env.string_split (c :: cs)
  | _ => none

/-- The first loop of `irc_command_exec_all_servers` on the servers that remain:
the names of the buffers of the connected servers that are picked. -/
def exec_all_servers_buffers (env : ExecEnv) (inclusive : Int) (servers : Option (List CStr)) :
    List t_irc_server → List CStr
  | [] => []
  | ptr_server :: next_server =>
    if ptr_server.is_connected ≠ 0 then
      if exec_all_picked env.string_match inclusive servers ptr_server.name ≠ 0 then
        env.server_full_name ptr_server
          :: exec_all_servers_buffers env inclusive servers next_server
      else exec_all_servers_buffers env inclusive servers next_server
    else exec_all_servers_buffers env inclusive servers next_server

/-- The second loop of `irc_command_exec_all_servers`: the command is executed on
every buffer of the list that still exists and is the buffer of a server. -/
def exec_all_servers_run (env : ExecEnv) (str_command : CStr) : List CStr → List ExecCall
  | [] => []
  | ptr_buffer_name :: rest =>
    match env.buffer_server_and_channel ptr_buffer_name with
    | some (some ptr_server, none) =>
      ⟨env.server_full_name ptr_server,
        (env.irc_message_replace_vars ptr_server none str_command).getD str_command⟩
        :: exec_all_servers_run env str_command rest
    | _ => exec_all_servers_run env str_command rest

/-- The function `irc_command_exec_all_servers` (`none` is NULL). -/
def irc_command_exec_all_servers (env : ExecEnv) (irc_servers : List t_irc_server)
    (inclusive : Int) (str_servers : Option CStr) (command : Option CStr) : ExecAllResult :=
  match command with
  | some (c :: cs) =>
    let list_buffers := exec_all_servers_buffers env inclusive (exec_all_split env str_servers)
      irc_servers
    ⟨list_buffers,
      exec_all_servers_run env (exec_all_str_command env (c :: cs)) list_buffers⟩
  | _ => ⟨[], []⟩

/-- The loop on the channels of one server in `irc_command_exec_all_channels`: the
names of the buffers of the channels of the type asked that are picked. -/
def exec_all_channels_of (env : ExecEnv) (channel_type inclusive : Int)
    (channels : Option (List CStr)) (ptr_server : t_irc_server) :
    List t_irc_channel → List CStr
  | [] => []
  | ptr_channel :: next_channel =>
    if ptr_channel.type = channel_type then
      if exec_all_picked env.string_match inclusive channels ptr_channel.name ≠ 0 then
        env.channel_full_name ptr_server ptr_channel
          :: exec_all_channels_of env channel_type inclusive channels ptr_server next_channel
      else exec_all_channels_of env channel_type inclusive channels ptr_server next_channel
    else exec_all_channels_of env channel_type inclusive channels ptr_server next_channel

/-- The first loop of `irc_command_exec_all_channels` on the servers that remain.
The test `ptr_server == server` compares pointers; the entries of the registry are
different servers (their names differ), so the model compares the servers. -/
def exec_all_channels_buffers (env : ExecEnv) (server : Option t_irc_server)
    (channel_type inclusive : Int) (channels : Option (List CStr)) :
    List t_irc_server → List CStr
  | [] => []
  | ptr_server :: next_server =>
    if server = none ∨ server = some ptr_server then
      if ptr_server.is_connected ≠ 0 then
        exec_all_channels_of env channel_type inclusive channels ptr_server ptr_server.channels
          ++ exec_all_channels_buffers env server channel_type inclusive channels next_server
      else exec_all_channels_buffers env server channel_type inclusive channels next_server
    else exec_all_channels_buffers env server channel_type inclusive channels next_server

/-- The second loop of `irc_command_exec_all_channels`: the command is executed on
every buffer of the list that still exists and is the buffer of a channel. -/
def exec_all_channels_run (env : ExecEnv) (str_command : CStr) : List CStr → List ExecCall
  | [] => []
  | ptr_buffer_name :: rest =>
    match env.buffer_server_and_channel ptr_buffer_name with
    | some (some ptr_server, some ptr_channel) =>
      ⟨env.channel_full_name ptr_server ptr_channel,
        (env.irc_message_replace_vars ptr_server (some ptr_channel.name) str_command).getD
          str_command⟩
        :: exec_all_channels_run env str_command rest
    | _ => exec_all_channels_run env str_command rest

/-- The function `irc_command_exec_all_channels` (`none` is NULL). -/
def irc_command_exec_all_channels (env : ExecEnv) (irc_servers : List t_irc_server)
    (server : Option t_irc_server) (channel_type inclusive : Int)
    (str_channels : Option CStr) (command : Option CStr) : ExecAllResult :=
  match command with
  | some (c :: cs) =>
    let list_buffers := exec_all_channels_buffers env server channel_type inclusive
      (exec_all_split env str_channels) irc_servers
    ⟨list_buffers,
      exec_all_channels_run env (exec_all_str_command env (c :: cs)) list_buffers⟩
  | _ => ⟨[], []⟩

/-- Modelled from the spec: `weechat_strncasecmp (a, b, n) == 0` of the WeeChat core
(absent from src): the first `n` chars of the strings are equal, ignoring case. -/
def string_ncaseeq (a b : CStr) (n : Nat) : Bool :=
  (a.take n).map Char.toLower == (b.take n).map Char.toLower

/-- Modelled from the spec: the constant `IRC_CHANNEL_TYPE_CHANNEL` of irc-channel.h
(absent from src), the type of a channel that is not a private buffer. -/
def IRC_CHANNEL_TYPE_CHANNEL : Int := 0

/-- Modelled from the spec: the constant `IRC_CHANNEL_TYPE_PRIVATE` of irc-channel.h
(absent from src), the type of a private buffer. -/
def IRC_CHANNEL_TYPE_PRIVATE : Int := 1

/-- The variables set by the options of /allserv and /allchan. -/
structure AllOptions where
  current_server : Int
  inclusive : Int
  ptr_names : Option CStr
  ptr_command : Option CStr
  deriving DecidableEq, Repr

/-- The loop on the options of /allserv from `argv[i]` on; `eol` is `argv_eol` from
`argv_eol[i + 1]` on (`argv_eol[argc]` is NULL). The loop is left at the first
argument that is not an option. -/
def allserv_options : List CStr → List CStr → AllOptions → AllOptions
  | [], _, st => st
  | a :: rest, eol, st =>
    if string_ncaseeq a "-exclude=".toList 9 then
      allserv_options rest eol.tail
        { st with ptr_names := some (a.drop 9), ptr_command := eol.head?, inclusive := 0 }
    else if string_ncaseeq a "-include=".toList 9 then
      allserv_options rest eol.tail
        { st with ptr_names := some (a.drop 9), ptr_command := eol.head?, inclusive := 1 }
    else st

/-- The loop on the options of /allchan, which also has the option "-current". -/
def allchan_options : List CStr → List CStr → AllOptions → AllOptions
  | [], _, st => st
  | a :: rest, eol, st =>
    if string_caseeq a "-current".toList then
      allchan_options rest eol.tail { st with current_server := 1, ptr_command := eol.head? }
    else if string_ncaseeq a "-exclude=".toList 9 then
      allchan_options rest eol.tail
        { st with ptr_names := some (a.drop 9), ptr_command := eol.head?, inclusive := 0 }
    else if string_ncaseeq a "-include=".toList 9 then
      allchan_options rest eol.tail
        { st with ptr_names := some (a.drop 9), ptr_command := eol.head?, inclusive := 1 }
    else st

/-- Result of the callbacks of /allserv and /allchan: the value returned, the
values given to `weechat_buffer_set (NULL, "hotlist", ...)` and what the function
called did. -/
structure AllResult where
  rc : ReturnCode
  hotlist : List String
  exec : ExecAllResult
  deriving DecidableEq, Repr

/-- The callback of the command /allserv. -/
def irc_command_allserv (env : ExecEnv) (irc_servers : List t_irc_server)
    (argv argv_eol : List CStr) : AllResult :=
  if argv.length < 2 then ⟨ReturnCode.WEECHAT_RC_ERROR, [], ⟨[], []⟩⟩
  else
    let o := allserv_options (argv.drop 1) (argv_eol.drop 2) ⟨0, 0, none, argv_eol[1]?⟩
    match o.ptr_command with
    | some (c :: cs) =>
      ⟨ReturnCode.WEECHAT_RC_OK, ["-", "+"],
        irc_command_exec_all_servers env irc_servers o.inclusive o.ptr_names (some (c :: cs))⟩
    | _ => ⟨ReturnCode.WEECHAT_RC_OK, [], ⟨[], []⟩⟩

/-- The callback of the command /allchan; `ptr_server` is the server of the
buffer. -/
def irc_command_allchan (env : ExecEnv) (ptr_server : Option t_irc_server)
    (irc_servers : List t_irc_server) (argv argv_eol : List CStr) : AllResult :=
  if argv.length < 2 then ⟨ReturnCode.WEECHAT_RC_ERROR, [], ⟨[], []⟩⟩
  else
    let o := allchan_options (argv.drop 1) (argv_eol.drop 2) ⟨0, 0, none, argv_eol[1]?⟩
    match o.ptr_command with
    | some (c :: cs) =>
      ⟨ReturnCode.WEECHAT_RC_OK, ["-", "+"],
        irc_command_exec_all_channels env irc_servers
          (if o.current_server ≠ 0 then ptr_server else none)
          IRC_CHANNEL_TYPE_CHANNEL o.inclusive o.ptr_names (some (c :: cs))⟩
    | _ => ⟨ReturnCode.WEECHAT_RC_OK, [], ⟨[], []⟩⟩

/-- The masks of a call: the list given by `weechat_string_split`, empty when there
is no list. -/
def exec_all_masks (env : ExecEnv) (str : Option CStr) : List CStr :=
  (exec_all_split env str).getD []

/-- The name is selected: with `inclusive` it matches at least one mask, without
`inclusive` it matches no mask. -/
def exec_all_selects (env : ExecEnv) (inclusive : Int) (masks : List CStr) (name : CStr) :
    Prop :=
  if inclusive ≠ 0 then ∃ m ∈ masks, env.string_match name m = true
  else ∀ m ∈ masks, env.string_match name m = false

instance (env : ExecEnv) (inclusive : Int) (masks : List CStr) (name : CStr) :
    Decidable (exec_all_selects env inclusive masks name) := by
  unfold exec_all_selects; infer_instance

/-! ## The commands /kickban and /whois -/

/-- Result of a command callback that sends messages to the server of the buffer:
the value returned, the calls of `irc_server_sendf` in order and the formats of the
messages displayed. -/
structure CommandResult where
  rc : ReturnCode
  sent : List SendfCall
  printed : List String
  deriving DecidableEq, Repr

/-- The function `irc_command_kick_channel`: the KICK message, with the message
given or, when it is NULL or empty, the default kick message of the server.
`irc_server_get_default_msg (msg, server, channel_name)` of irc-server.c is a
parameter. -/
def irc_command_kick_channel
    (irc_server_get_default_msg : CStr → t_irc_server → CStr → CStr)
    (server : t_irc_server) (channel_name nick_name : CStr) (message : Option CStr) :
    List SendfCall :=
  let ptr_msg : Option CStr :=
    match message with
    | some (c :: cs) => some (c :: cs)
    | _ => server.msg_kick
  match ptr_msg with
  | some (c :: cs) =>
    [⟨IRC_SERVER_SEND_OUTQ_PRIO_HIGH, "KICK %s %s :%s".toList,
      [channel_name, nick_name, irc_server_get_default_msg (c :: cs) server channel_name]⟩]
  | _ => [⟨IRC_SERVER_SEND_OUTQ_PRIO_HIGH, "KICK %s %s".toList, [channel_name, nick_name]⟩]

/-- The function `irc_command_send_ban`: "MODE channel mode nick", with the default
ban mask of the nick when the argument has neither '!' nor '@' and names a nick of
the channel. `irc_channel_search`, `irc_nick_search` and
`irc_nick_default_ban_mask` are parameters. -/
def irc_command_send_ban (irc_channel_search : t_irc_server → CStr → Option t_irc_channel)
    (irc_nick_search : t_irc_channel → CStr → Option t_irc_nick)
    (irc_nick_default_ban_mask : t_irc_nick → Option CStr)
    (server : t_irc_server) (channel_name mode nick : CStr) : List SendfCall :=
  let mask : Option CStr :=
    if '!' ∉ nick ∧ '@' ∉ nick then
      match irc_channel_search server channel_name with
      | some ptr_channel =>
        match irc_nick_search ptr_channel nick with
        | some ptr_nick => irc_nick_default_ban_mask ptr_nick
        | none => none
      | none => none
    else none
  [⟨IRC_SERVER_SEND_OUTQ_PRIO_HIGH, "MODE %s %s %s".toList,
    [channel_name, mode, mask.getD nick]⟩]

/-- The string before the first char `c`, the whole string when it has no `c`:
`pos = strchr (s, c); if (pos) pos[0] = 0`. -/
def cut_at (c : Char) (s : CStr) : CStr := s.takeWhile fun x => x != c

/-- The string after the first char `c`: `strchr (s, c) + 1`. -/
def after_first (c : Char) (s : CStr) : CStr := (s.dropWhile fun x => x != c).drop 1

/-- The arguments of /kickban (and /kick): the channel, the nick or mask and the
comment (`none` for NULL), or the value returned and the message displayed when
they are refused. `irc_channel_is_channel` of irc-channel.c is a parameter. -/
def kickban_args (irc_channel_is_channel : t_irc_server → CStr → Bool)
    (server : t_irc_server) (ptr_channel : Option t_irc_channel)
    (argv argv_eol : List CStr) : Except (ReturnCode × String) (CStr × CStr × Option CStr) :=
  if argv.length < 2 then
    Except.error (ReturnCode.WEECHAT_RC_ERROR,
      "%sToo few arguments for command \"%s%s%s\" (help on command: /help %s)")
  else if irc_channel_is_channel server (argv.getD 1 []) then
    if argv.length < 3 then
      Except.error (ReturnCode.WEECHAT_RC_ERROR,
        "%sToo few arguments for command \"%s%s%s\" (help on command: /help %s)")
    else Except.ok (argv.getD 1 [], argv.getD 2 [], argv_eol[3]?)
  else
    match ptr_channel with
    | some channel =>
      if channel.type ≠ IRC_CHANNEL_TYPE_CHANNEL then
        Except.error (ReturnCode.WEECHAT_RC_OK,
          "%s%s: \"%s\" command can only be executed in a channel buffer")
      else Except.ok (channel.name, argv.getD 1 [], argv_eol[2]?)
    | none =>
      Except.error (ReturnCode.WEECHAT_RC_OK,
        "%s%s: \"%s\" command can only be executed in a channel buffer")

/-- The end of `irc_command_kickban`, once the channel, the nick or mask `pos_nick`
and the comment are known: the nick is cut at the first '@' and at the first '!',
the ban is sent, then the kick. -/
def kickban_send (irc_server_get_default_msg : CStr → t_irc_server → CStr → CStr)
    (irc_channel_search : t_irc_server → CStr → Option t_irc_channel)
    (irc_nick_search : t_irc_channel → CStr → Option t_irc_nick)
    (irc_nick_default_ban_mask : t_irc_nick → Option CStr)
    (server : t_irc_server) (pos_channel pos_nick : CStr) (pos_comment : Option CStr) :
    CommandResult :=
  let nick_only := cut_at '!' (cut_at '@' pos_nick)
  if nick_only = "*".toList then
    ⟨ReturnCode.WEECHAT_RC_OK, [], ["%s%s: mask must begin with nick"]⟩
  else
    let ban :=
      if '@' ∈ pos_nick then
        [⟨IRC_SERVER_SEND_OUTQ_PRIO_HIGH, "MODE %s +b %s".toList,
          [pos_channel,
            "*!".toList ++ (if '!' ∈ pos_nick then after_first '!' pos_nick else pos_nick)]⟩]
      else
        irc_command_send_ban irc_channel_search irc_nick_search irc_nick_default_ban_mask
          server pos_channel "+b".toList pos_nick
    ⟨ReturnCode.WEECHAT_RC_OK,
      ban ++ irc_command_kick_channel irc_server_get_default_msg server pos_channel nick_only
        pos_comment, []⟩

/-- The callback of the command /kickban; `ptr_server` and `ptr_channel` are the
server and the channel of the buffer. -/
def irc_command_kickban (irc_server_get_default_msg : CStr → t_irc_server → CStr → CStr)
    (irc_channel_is_channel : t_irc_server → CStr → Bool)
    (irc_channel_search : t_irc_server → CStr → Option t_irc_channel)
    (irc_nick_search : t_irc_channel → CStr → Option t_irc_nick)
    (irc_nick_default_ban_mask : t_irc_nick → Option CStr)
    (ptr_server : Option t_irc_server) (ptr_channel : Option t_irc_channel)
    (argv argv_eol : List CStr) : CommandResult :=
  match ptr_server with
  | none =>
    ⟨ReturnCode.WEECHAT_RC_OK, [],
      ["%s%s: command \"%s\" must be executed on irc buffer (server, channel or private)"]⟩
  | some server =>
    if server.is_connected = 0 then
      ⟨ReturnCode.WEECHAT_RC_OK, [],
        ["%s%s: command \"%s\" must be executed on connected irc server"]⟩
    else
      match kickban_args irc_channel_is_channel server ptr_channel argv argv_eol with
      | Except.error (rc, message) => ⟨rc, [], [message]⟩
      | Except.ok (pos_channel, pos_nick, pos_comment) =>
        kickban_send irc_server_get_default_msg irc_channel_search irc_nick_search
          irc_nick_default_ban_mask server pos_channel pos_nick pos_comment

/-- The text chosen for the KICK message: the comment given when it is neither NULL
nor empty, else the default kick message of the server (empty when the option is
NULL). -/
def kick_text (server : t_irc_server) (message : Option CStr) : CStr :=
  match message with
  | some (c :: cs) => c :: cs
  | _ => server.msg_kick.getD []

/-- The mask with its nick part replaced by "*". -/
def mask_nick_replaced (mask nick : CStr) : CStr := '*' :: mask.drop nick.length

/-- The callback of the command /whois; `double_nick` is the value of the option
irc.network.whois_double_nick, `ptr_server` and `ptr_channel` are the server and the
channel of the buffer. `server->nick` is never NULL in the model. -/
def irc_command_whois (double_nick : Int) (ptr_server : Option t_irc_server)
    (ptr_channel : Option t_irc_channel) (argv argv_eol : List CStr) : CommandResult :=
  match ptr_server with
  | none =>
    ⟨ReturnCode.WEECHAT_RC_OK, [],
      ["%s%s: command \"%s\" must be executed on irc buffer (server, channel or private)"]⟩
  | some server =>
    if server.is_connected = 0 then
      ⟨ReturnCode.WEECHAT_RC_OK, [],
        ["%s%s: command \"%s\" must be executed on connected irc server"]⟩
    else
      let r : Int × CStr :=
        if 1 < argv.length then
          if 2 < argv.length ∨ ',' ∈ argv_eol.getD 1 [] then (0, argv_eol.getD 1 [])
          else (double_nick, argv.getD 1 [])
        else
          match ptr_channel with
          | some channel =>
            if channel.type = IRC_CHANNEL_TYPE_PRIVATE then (double_nick, channel.name)
            else (double_nick, server.nick)
          | none => (double_nick, server.nick)
      ⟨ReturnCode.WEECHAT_RC_OK,
        [⟨IRC_SERVER_SEND_OUTQ_PRIO_HIGH, "WHOIS %s%s%s".toList,
          [r.2, if r.1 ≠ 0 then " ".toList else [], if r.1 ≠ 0 then r.2 else []]⟩], []⟩

/-! ## The command /away -/

/-- The values of the option irc.look.display_away, an enum of irc-config.h. -/
inductive t_irc_config_display_away where
  | IRC_CONFIG_DISPLAY_AWAY_OFF
  | IRC_CONFIG_DISPLAY_AWAY_LOCAL
  | IRC_CONFIG_DISPLAY_AWAY_CHANNEL
  deriving DecidableEq, Repr

/-- What `irc_command_away_server` reads outside of the server: `time_now` is the
value of `time (NULL)`, `display_away` the option irc.look.display_away,
`irc_color_decode` the function of irc-color.c with the option
irc.network.colors_send (`none` for NULL), `sendf_hashtable` the values "args1",
"args2", ... of the hashtable returned by `irc_server_sendf` for a call on the
server of this name, `irc_server_set_away` the function of irc-server.c (it gives
the server after the call), `num_displayed_server` and `num_displayed` the
integer "num_displayed" of the buffer of the server and of a channel. -/
structure AwayEnv where
  time_now : Int
  display_away : t_irc_config_display_away
  irc_color_decode : CStr → Option CStr
  sendf_hashtable : CStr → SendfCall → List CStr
  irc_server_set_away : t_irc_server → CStr → Int → t_irc_server
  num_displayed_server : Int
  num_displayed : t_irc_channel → Int

/-- The function `irc_command_me_channel_display`: one line on the buffer of the
channel. Of the seven arguments of the format, the nick and the two that depend on
the text are recorded; the prefix, the nick mode and the colors come from other
files. -/
def irc_command_me_channel_display (env : AwayEnv) (server : t_irc_server)
    (channel : t_irc_channel) (arguments : Option CStr) : List Effect :=
  let string :=
    match arguments with
    | some (c :: cs) => env.irc_color_decode (c :: cs)
    | _ => none
  [Effect.printf_date_tags channel.name "%s%s%s%s%s%s%s"
    [server.nick, if string.isSome then " ".toList else [], string.getD []]]

/-- The function `irc_command_me_channel`: sends a CTCP action to a channel and
displays every part of the message that was sent. -/
def irc_command_me_channel (env : AwayEnv) (server : t_irc_server)
    (channel : t_irc_channel) (arguments : Option CStr) : List Effect :=
  let call : SendfCall :=
    ⟨SendFlags.outq_prio_high_return_hashtable, "PRIVMSG %s :\x01ACTION %s\x01".toList,
      [channel.name,
        match arguments with
        | some (c :: cs) => c :: cs
        | _ => []]⟩
  Effect.sendf server.name call ::
    ((env.sendf_hashtable server.name call).map fun str_args =>
      irc_command_me_channel_display env server channel (some str_args)).flatten

/-- The function `irc_command_me_all_channels`: a CTCP action to all channels of a
server (the buffers of type `IRC_CHANNEL_TYPE_CHANNEL`). -/
def irc_command_me_all_channels (env : AwayEnv) (server : t_irc_server)
    (arguments : Option CStr) : List Effect :=
  ((server.channels.filter fun ptr_channel =>
      decide (ptr_channel.type = IRC_CHANNEL_TYPE_CHANNEL)).map fun ptr_channel =>
    irc_command_me_channel env server ptr_channel arguments).flatten

/-- The function `irc_command_display_away`: one line on every channel and private
buffer of the server; the nick and the two strings are recorded. -/
def irc_command_display_away (server : t_irc_server) (string1 string2 : CStr) :
    List Effect :=
  (server.channels.filter fun ptr_channel =>
      decide (ptr_channel.type = IRC_CHANNEL_TYPE_CHANNEL
        ∨ ptr_channel.type = IRC_CHANNEL_TYPE_PRIVATE)).map fun ptr_channel =>
    Effect.printf_date_tags ptr_channel.name "%s[%s%s%s %s: %s%s]"
      [server.nick, string1, string2]

/-- The conversion "%.2ld" of a number that is not negative: at least two
digits. -/
def format_2ld (n : Int) : CStr :=
  let digits := Nat.toDigits 10 n.toNat
  if digits.length < 2 then '0' :: digits else digits

/-- The text "hh:mm:ss" of the formats "gone %.2ld:%.2ld:%.2ld" and
"is back (gone %.2ld:%.2ld:%.2ld)" for a number of seconds. -/
def away_elapsed_text (elapsed : Int) : CStr :=
  format_2ld (elapsed / 3600) ++ ':' :: format_2ld ((elapsed / 60) % 60)
    ++ ':' :: format_2ld (elapsed % 60)

/-- What `snprintf (buffer, sizeof (buffer), ...)` leaves in `char buffer[4096]`. -/
def away_buffer (text : CStr) : CStr := text.take 4095

/-- The messages displayed by `irc_command_away_server` when the away status is
set on a connected server. -/
def away_server_display_set (env : AwayEnv) (server : t_irc_server) (arguments : CStr) :
    List Effect :=
  if env.display_away ≠ t_irc_config_display_away.IRC_CONFIG_DISPLAY_AWAY_OFF then
    let string := (env.irc_color_decode arguments).getD arguments
    if env.display_away = t_irc_config_display_away.IRC_CONFIG_DISPLAY_AWAY_LOCAL then
      irc_command_display_away server "away".toList string
    else
      irc_command_me_all_channels env server (some (away_buffer ("is away: ".toList ++ string)))
  else []

/-- The messages displayed by `irc_command_away_server` when the away status is
removed on a connected server that was away for `elapsed` seconds. -/
def away_server_display_back (env : AwayEnv) (server : t_irc_server) (elapsed : Int) :
    List Effect :=
  if env.display_away ≠ t_irc_config_display_away.IRC_CONFIG_DISPLAY_AWAY_OFF then
    if env.display_away = t_irc_config_display_away.IRC_CONFIG_DISPLAY_AWAY_LOCAL then
      irc_command_display_away server "back".toList
        (away_buffer ("gone ".toList ++ away_elapsed_text elapsed))
    else
      irc_command_me_all_channels env server
        (some (away_buffer ("is back (gone ".toList ++ away_elapsed_text elapsed ++ [')'])))
  else []

/-- The reset of the "unread" indicator on the buffers of the server and of its
channels. -/
def away_server_reset_unread (env : AwayEnv) (server : t_irc_server) : List Effect :=
  (if 0 < env.num_displayed_server then [Effect.buffer_set server.name "unread" ""] else [])
    ++ (server.channels.filter fun ptr_channel =>
          decide (0 < env.num_displayed ptr_channel)).map fun ptr_channel =>
        Effect.buffer_set ptr_channel.name "unread" ""

/-- The function `irc_command_away_server`: the server after the call and the
effects. `arguments` is `none` for NULL; `strdup` does not fail. -/
def irc_command_away_server (env : AwayEnv) (server : Option t_irc_server)
    (arguments : Option CStr) (reset_unread_marker : Int) :
    Option t_irc_server × List Effect :=
  match server with
  | none => (none, [])
  | some server =>
    match arguments with
    | some arguments =>
      let server := { server with away_message := some arguments }
      if server.is_connected ≠ 0 then
        let server :=
          { server with
            is_away := 1
            away_time := env.time_now }
        let sent := [Effect.sendf server.name
          ⟨IRC_SERVER_SEND_OUTQ_PRIO_HIGH, "AWAY :%s".toList, [arguments]⟩]
        let displayed := away_server_display_set env server arguments
        let server_set := env.irc_server_set_away server server.nick 1
        let unread :=
          if reset_unread_marker ≠ 0 then away_server_reset_unread env server_set else []
        (some server_set,
          sent ++ displayed ++ [Effect.server_set_away server.name server.nick 1] ++ unread
            ++ [Effect.bar_item_update "away"])
      else
        (some server, [Effect.printf "%s: future away: %s"])
    | none =>
      let server := { server with away_message := none }
      if server.is_connected ≠ 0 then
        let sent := [Effect.sendf server.name
          ⟨IRC_SERVER_SEND_OUTQ_PRIO_HIGH, "AWAY".toList, []⟩]
        let server := { server with is_away := 0 }
        let back : t_irc_server × List Effect :=
          if server.away_time ≠ 0 then
            let elapsed :=
              if env.time_now ≥ server.away_time then env.time_now - server.away_time else 0
            let server := { server with away_time := 0 }
            (server, away_server_display_back env server elapsed)
          else (server, [])
        (some (env.irc_server_set_away back.1 back.1.nick 0),
          sent ++ back.2 ++ [Effect.server_set_away back.1.name back.1.nick 0,
            Effect.bar_item_update "away"])
      else
        (some server, [Effect.printf "%s: future away removed", Effect.bar_item_update "away"])

/-! ## The command /join -/

/-- Modelled from the spec: `weechat_hashtable_set` of the core is not part of
irc-command.c. A hashtable is the list of its entries, the newest first; setting a
key replaces the entry of the key. -/
def weechat_hashtable_set {α β : Type} [DecidableEq α] (hashtable : List (α × β))
    (key : α) (value : β) : List (α × β) :=
  (key, value) :: hashtable.filter fun entry => decide (entry.1 ≠ key)

/-- Modelled from the spec: `weechat_hashtable_get` of the core is not part of
irc-command.c. The value of a key is the value of its entry, `none` for NULL. -/
def weechat_hashtable_get {α β : Type} [DecidableEq α] (hashtable : List (α × β))
    (key : α) : Option β :=
  (hashtable.find? fun entry => decide (entry.1 = key)).map Prod.snd

/-- What `irc_command_join_server` reads outside of the fields of the server:
`weechat_string_split` is the split of the core with the separators "," (`none`
for NULL, it never gives an empty array), `irc_channel_get_auto_chantype` and
`irc_channel_search` are the functions of irc-channel.c for this server (the
search gives the position of the channel found in `server->channels`),
`weechat_string_tolower` is the function of the core, `buffer_open_before_join`
the option irc.look.buffer_open_before_join and `time_now` the value of
`time (NULL)`. -/
structure JoinEnv where
  weechat_string_split : CStr → Option (List CStr)
  irc_channel_get_auto_chantype : CStr → CStr
  irc_channel_search : List t_irc_channel → CStr → Option Nat
  weechat_string_tolower : CStr → CStr
  buffer_open_before_join : Bool
  time_now : Int

/-- The local variable `new_args` of `irc_command_join_server` in its loop, the
server and the effects so far. -/
structure JoinState where
  new_args : CStr
  server : t_irc_server
  effects : List Effect
  deriving DecidableEq, Repr

/-- The block of `irc_command_join_server` that records a key for a channel: in
the channel when the server has it, else in the hashtable `join_channel_key`. -/
def join_server_set_key (env : JoinEnv) (server : t_irc_server) (pos_channel key : CStr) :
    t_irc_server :=
  match env.irc_channel_search server.channels pos_channel with
  | some position =>
    match server.channels[position]? with
    | some ptr_channel =>
      { server with channels := server.channels.set position { ptr_channel with key := some key } }
    | none => server
  | none =>
    { server with
      join_channel_key := weechat_hashtable_set server.join_channel_key pos_channel key }

/-- The block of `irc_command_join_server` that notes a manual join and a join
without switch of the channel, by its name in lower case. -/
def join_server_set_manual (env : JoinEnv) (manual_join noswitch : Int)
    (server : t_irc_server) (pos_channel : CStr) : t_irc_server :=
  if manual_join ≠ 0 ∨ noswitch ≠ 0 then
    let channel_name := env.weechat_string_tolower pos_channel
    let server_manual :=
      if manual_join ≠ 0 then
        { server with
          join_manual := weechat_hashtable_set server.join_manual channel_name env.time_now }
      else server
    if noswitch ≠ 0 then
      { server_manual with
        join_noswitch :=
          weechat_hashtable_set server_manual.join_noswitch channel_name env.time_now }
    else server_manual
  else server

/-- The body of the loop of `irc_command_join_server` for the channel of index
`i`; `keys` is `none` for NULL and `num_keys` is the length of `keys`. `length` is
the size of `new_args`: the source appends the comma, the channel type and the
channel with `strcat`, without a test; when the string and its final NUL do not
fit in `length` bytes, the source writes past the end of `new_args`, its behaviour
is undefined and the value is `none`. -/
def join_server_body (env : JoinEnv) (manual_join noswitch : Int) (channels : List CStr)
    (keys : Option (List CStr)) (length : Nat) (i : Nat) (st : JoinState) :
    Option JoinState :=
  let new_args := if 0 < i then st.new_args ++ [','] else st.new_args
  let pos_channel :=
    env.irc_channel_get_auto_chantype (channels.getD i []) ++ channels.getD i []
  if (new_args ++ pos_channel).length < length then
    let server_manual := join_server_set_manual env manual_join noswitch st.server pos_channel
    let server_key :=
      match keys with
      | some keys =>
        if i < keys.length then
          join_server_set_key env server_manual pos_channel (keys.getD i [])
        else server_manual
      | none => server_manual
    let effects :=
      if manual_join ≠ 0 ∧ env.buffer_open_before_join = true then
        st.effects ++ [Effect.channel_create_buffer server_key.name IRC_CHANNEL_TYPE_CHANNEL
          pos_channel 1 1]
      else st.effects
    some ⟨new_args ++ pos_channel, server_key, effects⟩
  else none

/-- The loop `for (i = 0; i < num_channels; i++)` of `irc_command_join_server`
from the index `i`, with `todo` channels left. -/
def join_server_loop (env : JoinEnv) (manual_join noswitch : Int) (channels : List CStr)
    (keys : Option (List CStr)) (length : Nat) : Nat → Nat → JoinState → Option JoinState
  | 0, _, st => some st
  | todo + 1, i, st =>
    match join_server_body env manual_join noswitch channels keys length i st with
    | some st1 => join_server_loop env manual_join noswitch channels keys length todo (i + 1) st1
    | none => none

/-- The block of `irc_command_join_server` before its loop: on a manual join, the
buffer of the first channel is displayed when the server has the channel and
`noswitch` is not set. `length` is the size of `new_args`, that `snprintf` does not
exceed. -/
def join_server_display (env : JoinEnv) (server : t_irc_server) (channels : List CStr)
    (length : Nat) (manual_join noswitch : Int) : List Effect :=
  if manual_join ≠ 0 then
    let new_args :=
      (env.irc_channel_get_auto_chantype (channels.getD 0 []) ++ channels.getD 0 []).take
        (length - 1)
    match (env.irc_channel_search server.channels new_args).bind
        fun position => server.channels[position]? with
    | some ptr_channel =>
      if noswitch = 0 then [Effect.buffer_set ptr_channel.name "display" "1"] else []
    | none => []
  else []

/-- The function `irc_command_join_server`: the server after the call and the
effects. `strdup` and `malloc` do not fail. `new_args` has
`strlen (arguments) + num_channels + 1` bytes; the value is `none` when the source
writes past its end, which does not happen when the split gives the channels as
they are typed and `irc_channel_get_auto_chantype` gives at most one char. -/
def irc_command_join_server (env : JoinEnv) (server : t_irc_server) (arguments : CStr)
    (manual_join noswitch : Int) : Option (t_irc_server × List Effect) :=
  if server.sock < 0 then
    some (server,
      [Effect.printf "%s%s: command \"%s\" must be executed on connected irc server"])
  else
    let pos_space : Option CStr :=
      if ' ' ∈ arguments then some (' ' :: after_first ' ' arguments) else none
    let keys : Option (List CStr) :=
      match pos_space with
      | some _ =>
        let pos_keys := (after_first ' ' arguments).dropWhile fun c => c == ' '
        if pos_keys ≠ [] then env.weechat_string_split pos_keys else none
      | none => none
    match env.weechat_string_split (cut_at ' ' arguments) with
    | none => some (server, [])
    | some channels =>
      let length := arguments.length + channels.length + 1
      match join_server_loop env manual_join noswitch channels keys length channels.length 0
          ⟨[], server, join_server_display env server channels length manual_join noswitch⟩ with
      | none => none
      | some st =>
        let new_args :=
          match pos_space with
          | some pos_space => st.new_args ++ pos_space
          | none => st.new_args
        if new_args.length < length then
          some (st.server,
            st.effects ++ [Effect.sendf server.name
              ⟨IRC_SERVER_SEND_OUTQ_PRIO_HIGH, "JOIN %s".toList, [new_args]⟩])
        else none

/-! ## irc_command_join_server without the bound of `new_args` -/

/-- The function `join_server_body` on a string `new_args` without bound. This
function and the two that follow are used in the proofs only: they give the values
of `join_server_body`, `join_server_loop` and `irc_command_join_server` whenever
these are not `none`. -/
def join_server_body_unbounded (env : JoinEnv) (manual_join noswitch : Int) (channels : List CStr)
    (keys : Option (List CStr)) (i : Nat) (st : JoinState) : JoinState :=
  let new_args := if 0 < i then st.new_args ++ [','] else st.new_args
  let pos_channel :=
    env.irc_channel_get_auto_chantype (channels.getD i []) ++ channels.getD i []
  let server_manual := join_server_set_manual env manual_join noswitch st.server pos_channel
  let server_key :=
    match keys with
    | some keys =>
      if i < keys.length then join_server_set_key env server_manual pos_channel (keys.getD i [])
      else server_manual
    | none => server_manual
  let effects :=
    if manual_join ≠ 0 ∧ env.buffer_open_before_join = true then
      st.effects ++ [Effect.channel_create_buffer server_key.name IRC_CHANNEL_TYPE_CHANNEL
        pos_channel 1 1]
    else st.effects
  ⟨new_args ++ pos_channel, server_key, effects⟩

/-- The function `join_server_loop` without the bound of `new_args`. -/
def join_server_loop_unbounded (env : JoinEnv) (manual_join noswitch : Int) (channels : List CStr)
    (keys : Option (List CStr)) : Nat → Nat → JoinState → JoinState
  | 0, _, st => st
  | todo + 1, i, st =>
    join_server_loop_unbounded env manual_join noswitch channels keys todo (i + 1)
      (join_server_body_unbounded env manual_join noswitch channels keys i st)

/-- The function `irc_command_join_server` without the bound of `new_args`. -/
def irc_command_join_server_unbounded (env : JoinEnv) (server : t_irc_server) (arguments : CStr)
    (manual_join noswitch : Int) : t_irc_server × List Effect :=
  if server.sock < 0 then
    (server, [Effect.printf "%s%s: command \"%s\" must be executed on connected irc server"])
  else
    let pos_space : Option CStr :=
      if ' ' ∈ arguments then some (' ' :: after_first ' ' arguments) else none
    let keys : Option (List CStr) :=
      match pos_space with
      | some _ =>
        let pos_keys := (after_first ' ' arguments).dropWhile fun c => c == ' '
        if pos_keys ≠ [] then env.weechat_string_split pos_keys else none
      | none => none
    match env.weechat_string_split (cut_at ' ' arguments) with
    | none => (server, [])
    | some channels =>
      let length := arguments.length + channels.length + 1
      let st := join_server_loop_unbounded env manual_join noswitch channels keys channels.length 0
        ⟨[], server, join_server_display env server channels length manual_join noswitch⟩
      let new_args :=
        match pos_space with
        | some pos_space => st.new_args ++ pos_space
        | none => st.new_args
      (st.server,
        st.effects ++ [Effect.sendf server.name
          ⟨IRC_SERVER_SEND_OUTQ_PRIO_HIGH, "JOIN %s".toList, [new_args]⟩])

/-! ## The send queue of a server -/

/-- Modelled from the spec: the priority tag of an outbound message (section 3,
OutboundMessage). The queue that `irc_server_sendf` feeds is in irc-server.c,
which is not among the sources. -/
inductive Lane where
  | high
  | low
  deriving DecidableEq, Repr

/-- Modelled from the spec: the send queue of one server (sections 3 and 4.1),
which is in irc-server.c, not among the sources. The two lanes hold the lines, the
oldest first; `last_send_high` and `last_send_low` are the instants of the last
send from each lane (`none` after a flush or a reconnection); the two intervals
are those of flood control, in seconds. -/
structure SendQueue where
  high : List CStr
  low : List CStr
  last_send_high : Option Int
  last_send_low : Option Int
  anti_flood_prio_high : Int
  anti_flood_prio_low : Int
  deriving DecidableEq, Repr

/-- Modelled from the spec: `enqueue` of section 4.1 (irc-server.c is not among
the sources) appends the line to the tail of the named priority lane. -/
def enqueue (q : SendQueue) (priority : Lane) (line : CStr) : SendQueue :=
  match priority with
  | Lane.high => { q with high := q.high ++ [line] }
  | Lane.low => { q with low := q.low ++ [line] }

/-- Modelled from the spec: flood control of one lane (section 4.1, irc-server.c
is not among the sources). A lane may send at the instant `now` when nothing was
sent from it since the last flush or reconnection, or when the interval has
elapsed since its last send; else the lane is skipped. -/
def lane_ready (last_send : Option Int) (anti_flood now : Int) : Bool :=
  match last_send with
  | none => true
  | some last => decide (last + anti_flood ≤ now)

/-- Modelled from the spec: the drain of one lane in a tick (section 4.1,
irc-server.c is not among the sources): messages are popped from the head of the
lane as long as flood control allows. The result has the messages transmitted, the
lane left and the instant of the last send. -/
def drain_lane (anti_flood now : Int) : List CStr → Option Int →
    List CStr × List CStr × Option Int
  | [], last_send => ([], [], last_send)
  | line :: rest, last_send =>
    if lane_ready last_send anti_flood now = true then
      ((line :: (drain_lane anti_flood now rest (some now)).1),
        (drain_lane anti_flood now rest (some now)).2.1,
        (drain_lane anti_flood now rest (some now)).2.2)
    else ([], line :: rest, last_send)

/-- Modelled from the spec: `drain_ready` of section 4.1 (irc-server.c is not
among the sources) at the instant `now`: pops and transmits as many messages as
flood control allows for this tick, high lane first. The result has the queue
after the tick and the messages transmitted, in order, with their lane. -/
def drain_ready (q : SendQueue) (now : Int) : SendQueue × List (Lane × CStr) :=
  let drained_high := drain_lane q.anti_flood_prio_high now q.high q.last_send_high
  let drained_low := drain_lane q.anti_flood_prio_low now q.low q.last_send_low
  ({ q with
      high := drained_high.2.1
      last_send_high := drained_high.2.2
      low := drained_low.2.1
      last_send_low := drained_low.2.2 },
    drained_high.1.map (fun line => (Lane.high, line))
      ++ drained_low.1.map (fun line => (Lane.low, line)))

/-! ## The messages of a list of groups -/

/-- The MODE call for the group `g` of names: one copy of `mode` per name and the
names separated by spaces. -/
def mode_call (channel_name set mode : CStr) (flags : SendFlags) (g : List CStr) : SendfCall :=
  ⟨flags, mode_format, [channel_name, set, (List.replicate g.length mode).flatten, join_sp g]⟩

/-- The MODE calls for a list of groups: the first one with the flags given, the
following ones with low priority. -/
def mode_calls (channel_name set mode : CStr) (flags : SendFlags) :
    List (List CStr) → List SendfCall
  | [] => []
  | g :: gs =>
    mode_call channel_name set mode flags g
      :: gs.map (mode_call channel_name set mode IRC_SERVER_SEND_OUTQ_PRIO_LOW)

/-- The relation between the buffers of `irc_command_mode_nicks` and the group of
names being filled. -/
def ModeNicksInv (mode : CStr) (max_modes : Nat) (st : ModeNicksState) (cur : List CStr) :
    Prop :=
  st.nicks = join_sp cur ∧ st.modes = (List.replicate cur.length mode).flatten
    ∧ st.modes_added = cur.length ∧ cur.length ≤ max_modes ∧ ∀ x ∈ cur, x ≠ []

/-- The relation between the buffers of `irc_command_mode_masks` and the group of
masks being filled, for the mode letter `c`. -/
def ModeMasksInv (c : Char) (max_modes : Nat) (st : ModeMasksState) (cur : List CStr) : Prop :=
  st.masks = join_sp cur ∧ st.modes = List.replicate cur.length c
    ∧ st.modes_added = cur.length ∧ cur.length ≤ max_modes
    ∧ ∀ x ∈ cur, x ≠ [] ∧ ' ' ∉ x

/-- A MODE call for a group of 1 to `max_modes` masks, not empty and without space,
with one letter `c` per mask. -/
def mode_masks_good (c : Char) (max_modes : Nat) (channel_name set : CStr) (m : SendfCall) :
    Prop :=
  ∃ (g : List CStr) (q : SendFlags), m = mode_call channel_name set [c] q g
    ∧ 1 ≤ g.length ∧ g.length ≤ max_modes ∧ ∀ x ∈ g, x ≠ [] ∧ ' ' ∉ x

/-- The state of the priorities: nothing is sent yet and the next message has high
priority, or the first message sent has high priority, the following ones low
priority, and the next message has low priority. -/
def prio_ok (sent : List SendfCall) (p : SendFlags) : Prop :=
  (sent = [] ∧ p = IRC_SERVER_SEND_OUTQ_PRIO_HIGH)
    ∨ (sent ≠ []
      ∧ sent.map SendfCall.flags
        = IRC_SERVER_SEND_OUTQ_PRIO_HIGH
          :: List.replicate (sent.length - 1) IRC_SERVER_SEND_OUTQ_PRIO_LOW
      ∧ p = IRC_SERVER_SEND_OUTQ_PRIO_LOW)

/-- The round trip of the function without the bound of `modes`: with `S` the
selected nicks and `N` their number, `ceil(N / max_modes)` messages are sent, and
their lists of nicks, one after the other, are `S`, which has no duplicates. -/
def mode_nicks_roundtrip_unbounded (string_match : CStr → CStr → Bool) (server_nick : CStr)
    (max_modes : Nat) (prefix_chr : Char) (channel : t_irc_channel) (set mode : CStr)
    (argv : List CStr) : Prop :=
  (irc_command_mode_nicks_unbounded string_match server_nick max_modes prefix_chr channel set mode
      argv).sent.length
    = ((selected_nicks string_match server_nick prefix_chr channel set mode
        (mode_nicks_arguments argv).1).length + max_modes - 1) / max_modes
  ∧ ((irc_command_mode_nicks_unbounded string_match server_nick max_modes prefix_chr channel set mode
      argv).sent.map SendfCall.target_list).flatten
    = selected_nicks string_match server_nick prefix_chr channel set mode
        (mode_nicks_arguments argv).1
  ∧ (selected_nicks string_match server_nick prefix_chr channel set mode
      (mode_nicks_arguments argv).1).Nodup

instance (string_match : CStr → CStr → Bool) (server_nick : CStr)
    (max_modes : Nat) (prefix_chr : Char) (channel : t_irc_channel) (set mode : CStr)
    (argv : List CStr) :
    Decidable (mode_nicks_roundtrip_unbounded string_match server_nick max_modes prefix_chr channel set
      mode argv) := by
  unfold mode_nicks_roundtrip_unbounded; infer_instance

/-- The names of the nicks in the MODE messages of the function without the bound
of `modes`, in emission order. -/
def mode_nicks_names_unbounded (string_match : CStr → CStr → Bool) (server_nick : CStr)
    (max_modes : Nat) (prefix_chr : Char) (channel : t_irc_channel) (set mode : CStr)
    (argv : List CStr) : List CStr :=
  ((irc_command_mode_nicks_unbounded string_match server_nick max_modes prefix_chr channel set mode
    argv).sent.map SendfCall.target_list).flatten

/-- Every channel nick other than the own nick that matches an argument and whose
mode is not already as asked is in a MODE message of the function without the bound
of `modes`. -/
def mode_nicks_others_included_unbounded (string_match : CStr → CStr → Bool) (server_nick : CStr)
    (max_modes : Nat) (prefix_chr : Char) (channel : t_irc_channel) (set mode : CStr)
    (argv : List CStr) : Prop :=
  ∀ n ∈ channel.nicks, n.name ≠ server_nick →
    (∃ arg ∈ (mode_nicks_arguments argv).1, string_match n.name arg = true) →
    ¬ mode_nicks_already_ok prefix_chr set n →
    n.name ∈ mode_nicks_names_unbounded string_match server_nick max_modes prefix_chr channel set mode
      argv

instance (string_match : CStr → CStr → Bool) (server_nick : CStr)
    (max_modes : Nat) (prefix_chr : Char) (channel : t_irc_channel) (set mode : CStr)
    (argv : List CStr) :
    Decidable (mode_nicks_others_included_unbounded string_match server_nick max_modes prefix_chr
      channel set mode argv) := by
  unfold mode_nicks_others_included_unbounded; infer_instance

/-- The names of the nicks (or the masks) in the MODE messages of a result, in
emission order. -/
def ModeResult.names (r : ModeResult) : List CStr :=
  (r.sent.map SendfCall.target_list).flatten

/-- The round trip of a mode change: `irc_command_mode_nicks` has a result and, with
`S` the selected nicks and `N` their number, `ceil(N / max_modes)` messages are
sent, and their lists of nicks, one after the other, are `S`, which has no
duplicates. -/
def mode_nicks_roundtrip (string_match : CStr → CStr → Bool) (server_nick : CStr)
    (max_modes : Nat) (prefix_chr : Char) (channel : t_irc_channel) (set mode : CStr)
    (argv : List CStr) : Prop :=
  match irc_command_mode_nicks string_match server_nick max_modes prefix_chr channel set mode
      argv with
  | some r =>
    r.sent.length
      = ((selected_nicks string_match server_nick prefix_chr channel set mode
          (mode_nicks_arguments argv).1).length + max_modes - 1) / max_modes
    ∧ r.names = selected_nicks string_match server_nick prefix_chr channel set mode
        (mode_nicks_arguments argv).1
    ∧ (selected_nicks string_match server_nick prefix_chr channel set mode
        (mode_nicks_arguments argv).1).Nodup
  | none => False

instance (string_match : CStr → CStr → Bool) (server_nick : CStr)
    (max_modes : Nat) (prefix_chr : Char) (channel : t_irc_channel) (set mode : CStr)
    (argv : List CStr) :
    Decidable (mode_nicks_roundtrip string_match server_nick max_modes prefix_chr channel set
      mode argv) := by
  unfold mode_nicks_roundtrip; split <;> infer_instance

/-- The function `irc_command_mode_nicks` has a result, and every channel nick other
than the own nick that matches an argument and whose mode is not already as asked
is in a MODE message. -/
def mode_nicks_others_included (string_match : CStr → CStr → Bool) (server_nick : CStr)
    (max_modes : Nat) (prefix_chr : Char) (channel : t_irc_channel) (set mode : CStr)
    (argv : List CStr) : Prop :=
  match irc_command_mode_nicks string_match server_nick max_modes prefix_chr channel set mode
      argv with
  | some r =>
    ∀ n ∈ channel.nicks, n.name ≠ server_nick →
      (∃ arg ∈ (mode_nicks_arguments argv).1, string_match n.name arg = true) →
      ¬ mode_nicks_already_ok prefix_chr set n → n.name ∈ r.names
  | none => False

instance (string_match : CStr → CStr → Bool) (server_nick : CStr)
    (max_modes : Nat) (prefix_chr : Char) (channel : t_irc_channel) (set mode : CStr)
    (argv : List CStr) :
    Decidable (mode_nicks_others_included string_match server_nick max_modes prefix_chr
      channel set mode argv) := by
  unfold mode_nicks_others_included; split <;> infer_instance

/-- Items separated by one comma, as the lists of channels and of keys of /join
are typed. -/
def join_comma : List CStr → CStr
  | [] => []
  | [a] => a
  | a :: b :: rest => a ++ ',' :: join_comma (b :: rest)

/-- The argument "<chan1>,...,<chanN> <key1>,...,<keyK>" of /join; without key
it is "<chan1>,...,<chanN>". -/
def join_arguments (channels keys : List CStr) : CStr :=
  join_comma channels ++ if keys = [] then [] else ' ' :: join_comma keys

/-- The channels of /join as they are sent: each name after its automatic
channel type. -/
def join_named (env : JoinEnv) (channels : List CStr) : List CStr :=
  channels.map fun channel => env.irc_channel_get_auto_chantype channel ++ channel

/-- The server after key i is recorded for channel i, for every i below the
number of channels and below the number of keys, in the order of the list. -/
def join_recorded (env : JoinEnv) (server : t_irc_server) (channels keys : List CStr) :
    t_irc_server :=
  (List.zip (join_named env channels) keys).foldl
    (fun s entry => join_server_set_key env s entry.1 entry.2) server

/-- Two servers have the same channels and the same table of keys. -/
def same_keys (a b : t_irc_server) : Prop :=
  a.channels = b.channels ∧ a.join_channel_key = b.join_channel_key

/-- What happens to the send queue of one server: a call of `enqueue` or a tick
of `drain_ready` at an instant. -/
inductive QueueEvent where
  | enqueue (priority : Lane) (line : CStr)
  | drain_ready (now : Int)
  deriving DecidableEq, Repr

/-- The queue after a sequence of events and the messages transmitted, in order,
with their lane. -/
def queue_run : SendQueue → List QueueEvent → SendQueue × List (Lane × CStr)
  | q, [] => (q, [])
  | q, QueueEvent.enqueue priority line :: events => queue_run (enqueue q priority line) events
  | q, QueueEvent.drain_ready now :: events =>
    ((queue_run (drain_ready q now).1 events).1,
      (drain_ready q now).2 ++ (queue_run (drain_ready q now).1 events).2)

/-- The lines enqueued in a lane by a sequence of events, in the order of the
calls. -/
def enqueued_lines (priority : Lane) : List QueueEvent → List CStr
  | [] => []
  | QueueEvent.enqueue p line :: events =>
    if p = priority then line :: enqueued_lines priority events
    else enqueued_lines priority events
  | QueueEvent.drain_ready _ :: events => enqueued_lines priority events

/-- The lines of a lane among the messages transmitted, in order. -/
def transmitted_lines (priority : Lane) (out : List (Lane × CStr)) : List CStr :=
  (out.filter fun message => decide (message.1 = priority)).map Prod.snd

/-- The lane of a queue. -/
def SendQueue.lane (q : SendQueue) : Lane → List CStr
  | Lane.high => q.high
  | Lane.low => q.low

/-- The lane is eligible at the instant `now`: it is not empty and flood control
lets it send. -/
def lane_eligible (q : SendQueue) (priority : Lane) (now : Int) : Prop :=
  match priority with
  | Lane.high => q.high ≠ [] ∧ lane_ready q.last_send_high q.anti_flood_prio_high now = true
  | Lane.low => q.low ≠ [] ∧ lane_ready q.last_send_low q.anti_flood_prio_low now = true

instance (q : SendQueue) (priority : Lane) (now : Int) :
    Decidable (lane_eligible q priority now) := by
  unfold lane_eligible; cases priority <;> infer_instance

/-- The key that the server holds for a channel: the key of the channel when
`irc_channel_search` finds the channel in the server, else the value of the name
in the hashtable `join_channel_key`; `none` when there is no key. -/
def join_stored_key (env : JoinEnv) (server : t_irc_server) (channel_name : CStr) :
    Option CStr :=
  match env.irc_channel_search server.channels channel_name with
  | some position => (server.channels[position]?).bind t_irc_channel.key
  | none => weechat_hashtable_get server.join_channel_key channel_name

/-- Two channel names are distinct for the server: they are different and
`irc_channel_search` does not find the same channel of the server for both. -/
def join_distinct (env : JoinEnv) (server : t_irc_server) (a b : CStr) : Prop :=
  a ≠ b
    ∧ (env.irc_channel_search server.channels a = none
      ∨ env.irc_channel_search server.channels a ≠ env.irc_channel_search server.channels b)

instance (env : JoinEnv) (server : t_irc_server) (a b : CStr) :
    Decidable (join_distinct env server a b) := by
  unfold join_distinct; infer_instance

/-! ## Examples -/

/-- A matcher for the examples: the mask "*" matches every name, a mask ending in
"*" matches the names that start with what precedes it, and any other mask matches
itself. The examples only use the mask "*". -/
def star_match (name mask : CStr) : Bool :=
  if mask.getLast? = some '*' then mask.dropLast.isPrefixOf name else name == mask

/-- A nick without prefix. -/
def nick_of (s : String) : t_irc_nick := ⟨s.toList, []⟩

/-- A channel with seven nicks, none of them operator. -/
def channel_seven : t_irc_channel :=
  { name := "#weechat".toList
    nicks := ["alice", "bob", "carol", "dave", "erin", "frank", "grace"].map nick_of }

/-- A nick of 30 chars: 29 times 'n' and one char that depends on `i`. -/
def long_nick (i : Nat) : t_irc_nick := ⟨List.replicate 29 'n' ++ [Char.ofNat (65 + i)], []⟩

/-- A channel with 35 nicks of 30 chars, none of them operator. -/
def channel_long : t_irc_channel :=
  { name := "#weechat".toList, nicks := (List.range 35).map long_nick }

/-- A connected server whose nick is "me". -/
def server_me : t_irc_server :=
  { name := "libera".toList, nick := "me".toList, temp_server := 0, is_connected := 1,
    hook_connect := false, hook_fd := true, reconnect_delay := 0, reconnect_start := 0,
    reconnect_join := 0, disable_autojoin := 0, channels := [channel_seven],
    msg_quit := some "bye".toList }

/-- A ban mask of 100 chars that depends on `i`. -/
def long_mask (i : Nat) : CStr :=
  List.replicate 95 'x' ++ "!*@h".toList ++ [Char.ofNat (97 + i)]

/-- The arguments of "/ban" followed by eleven masks of 100 chars. -/
def argv_ban_eleven : List CStr := "ban".toList :: (List.range 11).map long_mask

/-- The arguments of "/ban" followed by three masks and two nicks. -/
def argv_ban_five : List CStr :=
  ["ban".toList, "a!*@*".toList, "b!*@*".toList, "*!*@c.example".toList, "dave".toList,
    "erin".toList]

/-- A server in the registration handshake: the socket is open (`hook_fd` set), the
connection hook is gone and the server is not connected yet. -/
def server_registering : t_irc_server :=
  { server_me with is_connected := 0, hook_connect := false, hook_fd := true }

/-- A server that only has a reconnection scheduled. -/
def server_pending : t_irc_server :=
  { server_me with
    is_connected := 0
    hook_connect := false
    hook_fd := false
    reconnect_start := 1500000000 }

/-- A new server named `name`, not connected. -/
def server_new (name : CStr) : t_irc_server :=
  { name := name, nick := [], temp_server := 0, is_connected := 0, hook_connect := false,
    hook_fd := false, reconnect_delay := 0, reconnect_start := 0, reconnect_join := 0,
    disable_autojoin := 0, channels := [], msg_quit := none }

/-- The server with another name. -/
def server_renamed (s : t_irc_server) (name : CStr) : t_irc_server :=
  { s with name := name }

/-- Functions on the registry for the examples: a new server and a copy are put at
the end of the registry, a rename changes the name, the options change nothing. -/
def ops_example : ServerOps :=
  { irc_server_alloc := fun l name => some (server_new name, l ++ [server_new name])
    set_addresses := fun l _ _ => l
    irc_server_apply_command_line_options := fun l _ _ => l
    irc_server_copy := fun l s name => some (server_renamed s name, l ++ [server_renamed s name])
    irc_server_rename := fun l s name =>
      some (update_found s.name (fun t => server_renamed t name) l)
    irc_server_free := fun l s => l.filter fun t => t.name != s.name
    irc_server_reorder := fun l _ => (0, l) }

/-- A registry with a connected server, a server in the registration handshake, a
server that waits for a reconnection and a disconnected server. -/
def registry_four : List t_irc_server :=
  [server_me, server_renamed server_registering "oftc".toList,
    server_renamed server_pending "efnet".toList, server_new "ircnet".toList]

/-- A channel where "me", "alice" and "carol" are operators and "bob" is not. -/
def channel_ops : t_irc_channel :=
  { name := "#weechat".toList
    nicks := [⟨"me".toList, "@".toList⟩, ⟨"alice".toList, "@".toList⟩, ⟨"bob".toList, []⟩,
      ⟨"carol".toList, "@+".toList⟩] }

/-- A channel with 35 operators whose nicks have 30 chars. -/
def channel_long_ops : t_irc_channel :=
  { name := "#weechat".toList
    nicks := (List.range 35).map fun i => ⟨(long_nick i).name, "@".toList⟩ }

/-- The arguments of "/deop * -yes". -/
def argv_deop_all : List CStr := ["deop".toList, "*".toList, "-yes".toList]

/-- The items of a list separated by commas, without the empty items. -/
def split_comma_aux : CStr → CStr → List CStr
  | cur, [] => if cur = [] then [] else [cur]
  | cur, c :: rest =>
    if c = ',' then (if cur = [] then [] else [cur]) ++ split_comma_aux [] rest
    else split_comma_aux (cur ++ [c]) rest

/-- The functions of the core for the examples: masks with a final "*", a command
char "/", lists separated by commas, buffers named "irc.server.name" and
"irc.name.channel"; the second loop finds no buffer. -/
def env_example : ExecEnv :=
  { string_match := star_match
    string_is_command_char := fun c => c.head? == some '/'
    string_split := fun str => some (split_comma_aux [] str)
    server_full_name := fun s => "irc.server.".toList ++ s.name
    channel_full_name := fun s c => "irc.".toList ++ s.name ++ '.' :: c.name
    buffer_server_and_channel := fun _ => none
    irc_message_replace_vars := fun _ _ _ => none }

/-- A private buffer with the nick `name`. -/
def private_of (name : String) : t_irc_channel :=
  { name := name.toList, nicks := [], type := IRC_CHANNEL_TYPE_PRIVATE }

/-- A channel named `name` without nicks. -/
def channel_of (name : String) : t_irc_channel :=
  { name := name.toList, nicks := [] }

/-- A server named `name`, connected or not, with its channels. -/
def server_with (name : String) (is_connected : Int) (channels : List t_irc_channel) :
    t_irc_server :=
  { server_new name.toList with is_connected := is_connected, channels := channels }

/-- A registry with three connected servers and a server that is not connected. -/
def registry_all : List t_irc_server :=
  [server_with "libera" 1 [channel_of "#weechat", private_of "alice", channel_of "#linux"],
    server_with "oftc" 1 [channel_of "#debian", channel_of "#linux-kernel"],
    server_with "ircnet" 0 [channel_of "#linux"],
    server_with "liberty" 1 [channel_of "#lean"]]

/-- A registry with the servers "libera", "MyList" and "liberty". -/
def registry_list : List t_irc_server :=
  [server_new "libera".toList, server_new "MyList".toList, server_new "liberty".toList]

/-- A connected server that is away since the instant 100, with one channel. -/
def server_away : t_irc_server :=
  { server_me with
    channels := [channel_ops]
    is_away := 1
    away_time := 100
    away_message := some "lunch".toList }

/-- An environment of /away: the instant is 4000, the away changes are displayed
on the channels, nothing was displayed on the buffers, and `irc_server_set_away`
leaves the fields of the server as they are. -/
def env_away : AwayEnv :=
  { time_now := 4000
    display_away := t_irc_config_display_away.IRC_CONFIG_DISPLAY_AWAY_CHANNEL
    irc_color_decode := fun _ => none
    sendf_hashtable := fun _ _ => []
    irc_server_set_away := fun server _ _ => server
    num_displayed_server := 0
    num_displayed := fun _ => 0 }

/-- An environment of /join: lists separated by commas, "#" put before a name
that does not start with '#' or '&', a channel found by its exact name, no change
of case, no buffer opened before the join, at the instant 4000. -/
def env_join : JoinEnv :=
  { weechat_string_split := fun str =>
      if split_comma_aux [] str = [] then none else some (split_comma_aux [] str)
    irc_channel_get_auto_chantype := fun name =>
      if name.head? = some '#' ∨ name.head? = some '&' then [] else ['#']
    irc_channel_search := fun channels name =>
      if (channels.map t_irc_channel.name).indexOf name
          < (channels.map t_irc_channel.name).length then
        some ((channels.map t_irc_channel.name).indexOf name)
      else none
    weechat_string_tolower := fun name => name
    buffer_open_before_join := false
    time_now := 4000 }

/-- A server with an open socket and the channel "#weechat". -/
def server_joined : t_irc_server :=
  { server_me with
    channels := [channel_ops]
    sock := 5 }

/-- A queue after a reconnection: empty lanes, high lane paced at 2 seconds and
low lane at 3 seconds. -/
def queue_new : SendQueue :=
  { high := []
    low := []
    last_send_high := none
    last_send_low := none
    anti_flood_prio_high := 2
    anti_flood_prio_low := 3 }

/-- Two low messages and two high messages are enqueued, then the queue is drained
at the instants 10, 11, 12 and 13. -/
def events_example : List QueueEvent :=
  [QueueEvent.enqueue Lane.low "MODE #c +o c".toList,
    QueueEvent.enqueue Lane.high "MODE #c +o a".toList,
    QueueEvent.enqueue Lane.low "MODE #c +o d".toList,
    QueueEvent.enqueue Lane.high "MODE #c +o b".toList,
    QueueEvent.drain_ready 10, QueueEvent.drain_ready 11, QueueEvent.drain_ready 12,
    QueueEvent.drain_ready 13]

/-- The queue after the four calls of `enqueue` of the example: two messages in
each lane, nothing sent yet. -/
def queue_filled : SendQueue := (queue_run queue_new (events_example.take 4)).1

/-- A channel with 150 nicks of one char, none of them operator. -/
def channel_many : t_irc_channel :=
  { name := "#weechat".toList
    nicks := (List.range 150).map fun i => ⟨[Char.ofNat (256 + i)], []⟩ }

/-- A channel with 150 operators whose nicks have one char. -/
def channel_many_ops : t_irc_channel :=
  { name := "#weechat".toList
    nicks := (List.range 150).map fun i => ⟨[Char.ofNat (256 + i)], "@".toList⟩ }

/-- The arguments of "/ban" with 150 masks of one char. -/
def argv_ban_many : List CStr :=
  "ban".toList :: (List.range 150).map fun i => [Char.ofNat (256 + i)]

/-- The result of "/op * -yes" on the channel with seven nicks, with 3 modes per
message: three messages. -/
def result_op_seven : ModeResult :=
  ⟨[mode_call "#weechat".toList "+".toList "o".toList IRC_SERVER_SEND_OUTQ_PRIO_HIGH
      ["alice".toList, "bob".toList, "carol".toList],
    mode_call "#weechat".toList "+".toList "o".toList IRC_SERVER_SEND_OUTQ_PRIO_LOW
      ["dave".toList, "erin".toList, "frank".toList],
    mode_call "#weechat".toList "+".toList "o".toList IRC_SERVER_SEND_OUTQ_PRIO_LOW
      ["grace".toList]], []⟩

/-- The arguments of "/op * -yes". -/
def argv_op_all : List CStr := ["op".toList, "*".toList, "-yes".toList]

/-! ## Lemmas on the buffers -/

theorem format_s_mode (a b c d : CStr) :
    format_s mode_format [a, b, c, d]
      = "MODE ".toList ++ a ++ " ".toList ++ b ++ c ++ " ".toList ++ d := by
  simp [mode_format, format_s]

theorem join_sp_append_singleton (g : List CStr) (x : CStr) (hg : g ≠ []) :
    join_sp (g ++ [x]) = join_sp g ++ ' ' :: x := by
  induction g with
  | nil => exact absurd rfl hg
  | cons a t ih =>
    cases t with
    | nil => simp [join_sp]
    | cons b t2 =>
      have := ih (by simp)
      simp only [List.cons_append] at this ⊢
      simp [join_sp, this]

theorem join_sp_eq_nil (g : List CStr) (hne : ∀ x ∈ g, x ≠ []) :
    join_sp g = [] ↔ g = [] := by
  cases g with
  | nil => simp [join_sp]
  | cons a t =>
    cases t with
    | nil => simpa [join_sp] using hne
    | cons b t2 => simp [join_sp]

theorem join_sp_length (g : List CStr) (hg : g ≠ []) :
    (join_sp g).length + 1 = (g.map fun x => x.length + 1).sum := by
  induction g with
  | nil => exact absurd rfl hg
  | cons a t ih =>
    cases t with
    | nil => simp [join_sp]
    | cons b t2 =>
      have := ih (by simp)
      simp only [join_sp, List.length_append, List.length_cons, List.map_cons, List.sum_cons] at this ⊢
      omega

theorem join_sp_length_le_of_prefix (g h : List CStr) (hp : g <+: h) :
    (join_sp g).length ≤ (join_sp h).length := by
  obtain ⟨t, rfl⟩ := hp
  by_cases hg : g = []
  · subst hg; simp [join_sp]
  · have h1 := join_sp_length g hg
    have h2 := join_sp_length (g ++ t) (by simp [hg])
    simp only [List.map_append, List.sum_append] at h2
    omega

theorem split_sp_aux_word (cur w : CStr) (hw : ' ' ∉ w) :
    split_sp_aux cur w = [cur ++ w] := by
  induction w generalizing cur with
  | nil => simp [split_sp_aux]
  | cons c t ih =>
    have hc : c ≠ ' ' := fun h => hw (by simp [h])
    have ht : ' ' ∉ t := fun h => hw (by simp [h])
    simp [split_sp_aux, hc, ih _ ht]

theorem split_sp_aux_word_space (cur w rest : CStr) (hw : ' ' ∉ w) :
    split_sp_aux cur (w ++ ' ' :: rest) = (cur ++ w) :: split_sp_aux [] rest := by
  induction w generalizing cur with
  | nil => simp [split_sp_aux]
  | cons c t ih =>
    have hc : c ≠ ' ' := fun h => hw (by simp [h])
    have ht : ' ' ∉ t := fun h => hw (by simp [h])
    simp [split_sp_aux, hc, ih _ ht]

/-- Cutting at the spaces a buffer made of names without space gives the names. -/
theorem split_sp_join_sp (g : List CStr) (hg : g ≠ []) (hsp : ∀ x ∈ g, ' ' ∉ x) :
    split_sp (join_sp g) = g := by
  induction g with
  | nil => exact absurd rfl hg
  | cons a t ih =>
    cases t with
    | nil =>
      have := split_sp_aux_word [] a (hsp a (by simp))
      simpa [split_sp, join_sp] using this
    | cons b t2 =>
      have h1 := ih (by simp) (fun x hx => hsp x (by simp [hx]))
      have h2 := split_sp_aux_word_space [] a (join_sp (b :: t2)) (hsp a (by simp))
      simp only [split_sp] at h1
      simp [split_sp, join_sp, h2, h1]

/-! ## Lemmas on the groups of names -/

theorem batch_aux_cons (M : Nat) (cur : List CStr) (x : CStr) (xs : List CStr) :
    batch_aux M cur (x :: xs)
      = if cur.length = M then cur :: batch_aux M [x] xs else batch_aux M (cur ++ [x]) xs := by
  cases cur <;> simp [batch_aux]

theorem batch_aux_nil_cons (M : Nat) (x : CStr) (xs : List CStr) (hM : 1 ≤ M) :
    batch_aux M [] (x :: xs) = batch_aux M [x] xs := by
  have : ¬ (([] : List CStr).length = M) := by simp; omega
  rw [batch_aux_cons, if_neg this]; rfl

theorem batch_aux_full (M : Nat) (cur l : List CStr) (hM : 1 ≤ M) (hc : cur.length = M) :
    batch_aux M cur l = cur :: batch_aux M [] l := by
  cases l with
  | nil =>
    cases cur with
    | nil => simp at hc; omega
    | cons c cs => simp [batch_aux]
  | cons x xs =>
    rw [batch_aux_nil_cons M x xs hM]
    cases cur with
    | nil => simp at hc; omega
    | cons c cs => rw [batch_aux_cons, if_pos hc]

theorem batch_aux_flatten (M : Nat) (cur l : List CStr) :
    (batch_aux M cur l).flatten = cur ++ l := by
  induction l generalizing cur with
  | nil => cases cur <;> simp [batch_aux]
  | cons x xs ih =>
    by_cases hc : cur.length = M
    · rw [batch_aux_cons, if_pos hc]; simp [ih]
    · rw [batch_aux_cons, if_neg hc]; simp [ih]

theorem batch_aux_length (M : Nat) (cur l : List CStr) (hM : 1 ≤ M) (hc : cur.length ≤ M) :
    (batch_aux M cur l).length = (cur.length + l.length + M - 1) / M := by
  induction l generalizing cur with
  | nil =>
    cases cur with
    | nil =>
      simp only [batch_aux, List.length_nil]
      rw [Nat.div_eq_of_lt]; omega
    | cons c cs =>
      simp only [batch_aux, List.length_cons, List.length_nil] at hc ⊢
      have h1 : cs.length + 1 + 0 + M - 1 = cs.length + 1 * M := by omega
      rw [h1, Nat.add_mul_div_right _ _ (by omega), Nat.div_eq_of_lt (by omega)]
  | cons x xs ih =>
    by_cases hc2 : cur.length = M
    · have : batch_aux M cur (x :: xs) = cur :: batch_aux M [x] xs := by
        rw [batch_aux_cons, if_pos hc2]
      rw [this, List.length_cons, ih [x] (by simpa using hM)]
      simp only [List.length_cons, List.length_nil]
      have h1 : cur.length + (xs.length + 1) + M - 1 = (0 + 1 + xs.length + M - 1) + 1 * M := by
        omega
      rw [h1, Nat.add_mul_div_right _ _ (by omega)]
    · have : batch_aux M cur (x :: xs) = batch_aux M (cur ++ [x]) xs := by
        rw [batch_aux_cons, if_neg hc2]
      rw [this, ih (cur ++ [x]) (by simp; omega)]
      simp only [List.length_append, List.length_cons, List.length_nil]
      congr 1
      omega

theorem batch_aux_sizes (M : Nat) (cur l : List CStr) (hM : 1 ≤ M) (hc : cur.length ≤ M) :
    ∀ g ∈ batch_aux M cur l, 1 ≤ g.length ∧ g.length ≤ M := by
  induction l generalizing cur with
  | nil =>
    cases cur with
    | nil => simp [batch_aux]
    | cons c cs => simpa [batch_aux] using hc
  | cons x xs ih =>
    by_cases hc2 : cur.length = M
    · have : batch_aux M cur (x :: xs) = cur :: batch_aux M [x] xs := by
        rw [batch_aux_cons, if_pos hc2]
      rw [this]
      intro g hg
      rcases List.mem_cons.1 hg with rfl | hg
      · omega
      · exact ih [x] (by simpa using hM) g hg
    · have : batch_aux M cur (x :: xs) = batch_aux M (cur ++ [x]) xs := by
        rw [batch_aux_cons, if_neg hc2]
      rw [this]
      exact ih (cur ++ [x]) (by simp; omega)

theorem batch_aux_ne_nil (M : Nat) (cur l : List CStr) (h : cur ≠ [] ∨ l ≠ []) :
    batch_aux M cur l ≠ [] := by
  induction l generalizing cur with
  | nil =>
    cases cur with
    | nil => simp at h
    | cons c cs => simp [batch_aux]
  | cons x xs ih =>
    by_cases hc2 : cur.length = M
    · rw [batch_aux_cons, if_pos hc2]; simp
    · have : batch_aux M cur (x :: xs) = batch_aux M (cur ++ [x]) xs := by
        rw [batch_aux_cons, if_neg hc2]
      rw [this]
      exact ih (cur ++ [x]) (by simp)

theorem batch_aux_dropLast (M : Nat) (cur l : List CStr) :
    ∀ g ∈ (batch_aux M cur l).dropLast, g.length = M := by
  induction l generalizing cur with
  | nil => cases cur <;> simp [batch_aux]
  | cons x xs ih =>
    by_cases hc2 : cur.length = M
    · have : batch_aux M cur (x :: xs) = cur :: batch_aux M [x] xs := by
        rw [batch_aux_cons, if_pos hc2]
      rw [this, List.dropLast_cons_of_ne_nil (batch_aux_ne_nil M [x] xs (by simp))]
      intro g hg
      rcases List.mem_cons.1 hg with rfl | hg
      · exact hc2
      · exact ih [x] g hg
    · have : batch_aux M cur (x :: xs) = batch_aux M (cur ++ [x]) xs := by
        rw [batch_aux_cons, if_neg hc2]
      rw [this]
      exact ih (cur ++ [x])

theorem batch_aux_mem (M : Nat) (cur l : List CStr) :
    ∀ g ∈ batch_aux M cur l, ∀ x ∈ g, x ∈ cur ++ l := by
  intro g hg x hx
  rw [← batch_aux_flatten M cur l]
  exact List.mem_flatten.2 ⟨g, hg, hx⟩

/-- The group being filled is the beginning of one of the groups. -/
theorem batch_aux_prefix (M : Nat) (cur l : List CStr) (h : cur ≠ []) :
    ∃ g ∈ batch_aux M cur l, cur <+: g := by
  induction l generalizing cur with
  | nil =>
    cases cur with
    | nil => exact absurd rfl h
    | cons c cs => exact ⟨c :: cs, by simp [batch_aux], List.prefix_refl _⟩
  | cons x xs ih =>
    by_cases hc2 : cur.length = M
    · have : batch_aux M cur (x :: xs) = cur :: batch_aux M [x] xs := by
        rw [batch_aux_cons, if_pos hc2]
      rw [this]
      exact ⟨cur, by simp, List.prefix_refl _⟩
    · have : batch_aux M cur (x :: xs) = batch_aux M (cur ++ [x]) xs := by
        rw [batch_aux_cons, if_neg hc2]
      rw [this]
      obtain ⟨g, hg, hp⟩ := ih (cur ++ [x]) (by simp)
      exact ⟨g, hg, (List.prefix_append cur [x]).trans hp⟩

/-! ## Lemmas on irc_command_mode_nicks -/

theorem mem_keep_first (seen l : List CStr) (y : CStr) :
    y ∈ keep_first seen l ↔ y ∈ l ∧ y ∉ seen := by
  induction l generalizing seen with
  | nil => simp [keep_first]
  | cons x xs ih =>
    by_cases hx : x ∈ seen
    · simp only [keep_first, if_pos hx, ih, List.mem_cons]
      constructor
      · rintro ⟨h1, h2⟩; exact ⟨Or.inr h1, h2⟩
      · rintro ⟨h1 | h1, h2⟩
        · subst h1; exact absurd hx h2
        · exact ⟨h1, h2⟩
    · simp only [keep_first, if_neg hx, ih, List.mem_cons]
      constructor
      · rintro (h | ⟨h1, h2⟩)
        · subst h; exact ⟨Or.inl rfl, hx⟩
        · exact ⟨Or.inr h1, fun h => h2 (Or.inr h)⟩
      · rintro ⟨h1 | h1, h2⟩
        · exact Or.inl h1
        · by_cases hyx : y = x
          · exact Or.inl hyx
          · exact Or.inr ⟨h1, fun h => h.elim hyx h2⟩

theorem keep_first_nodup (seen l : List CStr) : (keep_first seen l).Nodup := by
  induction l generalizing seen with
  | nil => simp [keep_first]
  | cons x xs ih =>
    by_cases hx : x ∈ seen
    · simpa [keep_first, hx] using ih seen
    · simp only [keep_first, if_neg hx, List.nodup_cons]
      refine ⟨?_, ih _⟩
      rw [mem_keep_first]
      simp

theorem keep_first_of_nodup (seen l : List CStr) (hl : l.Nodup) (hd : ∀ x ∈ l, x ∉ seen) :
    keep_first seen l = l := by
  induction l generalizing seen with
  | nil => simp [keep_first]
  | cons x xs ih =>
    have hx : x ∉ seen := hd x (by simp)
    rw [List.nodup_cons] at hl
    simp only [keep_first, if_neg hx]
    rw [ih (x :: seen) hl.2]
    intro y hy
    simp only [List.mem_cons, not_or]
    exact ⟨fun h => hl.1 (h ▸ hy), hd y (by simp [hy])⟩

theorem mode_nicks_send_if_full_idem (M : Nat) (hM : 1 ≤ M) (channel : t_irc_channel)
    (set : CStr) (st : ModeNicksState) :
    mode_nicks_send_if_full M channel set (mode_nicks_send_if_full M channel set st)
      = mode_nicks_send_if_full M channel set st := by
  unfold mode_nicks_send_if_full
  by_cases h : st.modes_added = M
  · have : ¬ (0 = M) := by omega
    simp [h, mode_nicks_send, this]
  · simp [h]

/-- The inner loop for one nick: when the arguments select the nick, the MODE
command is sent if the max number of modes is reached, and the nick is added if it
fits in the buffer; else nothing changes. -/
theorem mode_nicks_args_eq (string_match : CStr → CStr → Bool) (server_nick : CStr)
    (M : Nat) (hM : 1 ≤ M) (prefix_chr : Char) (channel : t_irc_channel) (set mode : CStr)
    (n : t_irc_nick) (args : List CStr) (st : ModeNicksState) :
    mode_nicks_args_unbounded string_match server_nick M prefix_chr channel set mode n args st
      = if mode_nicks_selects string_match server_nick prefix_chr set mode args n then
          (if mode_nicks_fits n.name (mode_nicks_send_if_full M channel set st) then
            mode_nicks_add_unbounded mode n.name (mode_nicks_send_if_full M channel set st)
          else mode_nicks_send_if_full M channel set st)
        else st := by
  induction args generalizing st with
  | nil => simp [mode_nicks_args_unbounded, mode_nicks_selects]
  | cons a rest ih =>
    by_cases hgood : string_match n.name a = true
        ∧ ¬ mode_nicks_self_excluded server_nick set mode a n
        ∧ ¬ mode_nicks_already_ok prefix_chr set n
    · obtain ⟨h1, h2, h3⟩ := hgood
      have hsel : mode_nicks_selects string_match server_nick prefix_chr set mode (a :: rest) n :=
        ⟨a, by simp, h1, h2, h3⟩
      rw [if_pos hsel]
      simp only [mode_nicks_args_unbounded, h1, if_true, if_neg h2, if_neg h3]
      by_cases hfit : mode_nicks_fits n.name (mode_nicks_send_if_full M channel set st)
      · simp only [if_pos hfit]
      · simp only [if_neg hfit]
        rw [ih, mode_nicks_send_if_full_idem M hM]
        simp only [if_neg hfit]
        split <;> rfl
    · have hsel : mode_nicks_selects string_match server_nick prefix_chr set mode (a :: rest) n
          ↔ mode_nicks_selects string_match server_nick prefix_chr set mode rest n := by
        unfold mode_nicks_selects
        constructor
        · rintro ⟨b, hb, hb2⟩
          rcases List.mem_cons.1 hb with rfl | hb
          · exact absurd hb2 hgood
          · exact ⟨b, hb, hb2⟩
        · rintro ⟨b, hb, hb2⟩
          exact ⟨b, List.mem_cons_of_mem _ hb, hb2⟩
      have hstep : mode_nicks_args_unbounded string_match server_nick M prefix_chr channel set mode n
          (a :: rest) st
          = mode_nicks_args_unbounded string_match server_nick M prefix_chr channel set mode n rest st := by
        simp only [mode_nicks_args_unbounded]
        by_cases h1 : string_match n.name a = true
        · by_cases h2 : mode_nicks_self_excluded server_nick set mode a n
          · simp [h1, h2]
          · have h3 : mode_nicks_already_ok prefix_chr set n := by
              by_contra h3; exact hgood ⟨h1, h2, h3⟩
            simp [h1, h2, h3]
        · simp [h1]
      rw [hstep, ih]
      simp only [hsel]

theorem mode_calls_low (channel_name set mode : CStr) (B : List (List CStr)) :
    mode_calls channel_name set mode IRC_SERVER_SEND_OUTQ_PRIO_LOW B
      = B.map (mode_call channel_name set mode IRC_SERVER_SEND_OUTQ_PRIO_LOW) := by
  cases B <;> simp [mode_calls]

theorem mode_calls_cons (channel_name set mode : CStr) (p : SendFlags) (g : List CStr)
    (B : List (List CStr)) :
    mode_calls channel_name set mode p (g :: B)
      = mode_call channel_name set mode p g
        :: mode_calls channel_name set mode IRC_SERVER_SEND_OUTQ_PRIO_LOW B := by
  rw [mode_calls_low]; rfl

/-- The group being filled once the MODE command is sent if it is full. -/
theorem batch_aux_split (M : Nat) (hM : 1 ≤ M) (cur l : List CStr) :
    batch_aux M cur l
      = (if cur.length = M then [cur] else [])
        ++ batch_aux M (if cur.length = M then [] else cur) l := by
  by_cases h : cur.length = M
  · simp only [if_pos h]
    rw [batch_aux_full M cur l hM h]; rfl
  · simp [h]

theorem mode_nicks_send_if_full_spec (M : Nat) (hM : 1 ≤ M) (channel : t_irc_channel)
    (set mode : CStr) (st : ModeNicksState) (cur : List CStr)
    (hinv : ModeNicksInv mode M st cur) :
    ModeNicksInv mode M (mode_nicks_send_if_full M channel set st)
        (if cur.length = M then [] else cur)
      ∧ (if cur.length = M then [] else cur).length < M
      ∧ (mode_nicks_send_if_full M channel set st).nicks_sent = st.nicks_sent
      ∧ ∀ B, (mode_nicks_send_if_full M channel set st).sent
            ++ mode_calls channel.name set mode
                (mode_nicks_send_if_full M channel set st).msg_priority B
          = st.sent ++ mode_calls channel.name set mode st.msg_priority
              ((if cur.length = M then [cur] else []) ++ B) := by
  obtain ⟨h1, h2, h3, h4, h5⟩ := hinv
  unfold mode_nicks_send_if_full
  by_cases h : cur.length = M
  · have h3b : st.modes_added = M := by omega
    simp only [if_pos h, if_pos h3b]
    refine ⟨?_, ?_, ?_, ?_⟩
    · simp [ModeNicksInv, mode_nicks_send, join_sp]
    · simpa using hM
    · simp [mode_nicks_send]
    intro B
    simp only [mode_nicks_send, List.singleton_append, mode_calls_cons, List.append_assoc]
    simp [mode_call, h1, h2]
  · have h3b : ¬ st.modes_added = M := by omega
    simp only [if_neg h, if_neg h3b]
    exact ⟨⟨h1, h2, h3, h4, h5⟩, by omega, trivial, fun B => by simp⟩

theorem mode_nicks_add_spec (M : Nat) (mode x : CStr) (st : ModeNicksState)
    (cur : List CStr) (hinv : ModeNicksInv mode M st cur) (hlt : cur.length < M)
    (hx : x ≠ []) :
    ModeNicksInv mode M (mode_nicks_add_unbounded mode x st) (cur ++ [x]) := by
  obtain ⟨h1, h2, h3, _, h5⟩ := hinv
  refine ⟨?_, ?_, ?_, ?_, ?_⟩
  · by_cases hc : cur = []
    · subst hc
      simp [mode_nicks_add_unbounded, h1, join_sp]
    · have hne : join_sp cur ≠ [] := fun h => hc ((join_sp_eq_nil cur h5).1 h)
      rw [join_sp_append_singleton cur x hc]
      simp [mode_nicks_add_unbounded, h1, hne]
  · simp [mode_nicks_add_unbounded, h2, List.replicate_succ', List.flatten_append]
  · simp [mode_nicks_add_unbounded, h3]
  · simp; omega
  · intro y hy
    rcases List.mem_append.1 hy with hy | hy
    · exact h5 y hy
    · simp at hy; subst hy; exact hx

theorem mode_nicks_final_spec (M : Nat) (channel : t_irc_channel) (set mode : CStr)
    (hmode : mode ≠ []) (st : ModeNicksState) (cur : List CStr)
    (hinv : ModeNicksInv mode M st cur) :
    mode_nicks_final channel set st
      = st.sent ++ mode_calls channel.name set mode st.msg_priority (batch_aux M cur []) := by
  obtain ⟨h1, h2, _, _, h5⟩ := hinv
  cases cur with
  | nil =>
    have : st.modes = [] := by simpa using h2
    simp [mode_nicks_final, this, batch_aux, mode_calls]
  | cons c cs =>
    have hn : st.nicks ≠ [] := by
      rw [h1]; intro h; simpa using (join_sp_eq_nil (c :: cs) h5).1 h
    have hm : st.modes ≠ [] := by
      rw [h2]; simp [List.replicate_succ, hmode]
    simp only [mode_nicks_final, hn, hm, ne_eq, not_false_eq_true, and_self, if_true,
      batch_aux, mode_calls, List.map_nil, mode_call]
    rw [h1, h2]

/-- The fit in the buffer of the next name, from the bound on the groups. -/
theorem mode_nicks_fits_of_bound (M : Nat) (mode x : CStr) (st : ModeNicksState)
    (c1 R : List CStr) (hinv : ModeNicksInv mode M st c1)
    (hb : ∀ g ∈ batch_aux M (c1 ++ [x]) R, (join_sp g).length + 2 < sizeof_nicks) :
    mode_nicks_fits x st := by
  obtain ⟨g, hg, hp⟩ := batch_aux_prefix M (c1 ++ [x]) R (by simp)
  have h1 := join_sp_length_le_of_prefix _ _ hp
  have h2 := hb g hg
  unfold mode_nicks_fits
  rw [hinv.1]
  by_cases hc : c1 = []
  · subst hc
    simp only [List.nil_append, join_sp, List.length_nil] at h1 ⊢
    omega
  · rw [join_sp_append_singleton c1 x hc] at h1
    simp only [List.length_append, List.length_cons] at h1
    omega

theorem selected_names_cons (string_match : CStr → CStr → Bool) (server_nick : CStr)
    (prefix_chr : Char) (set mode : CStr) (args : List CStr) (n : t_irc_nick)
    (l : List t_irc_nick) :
    selected_names string_match server_nick prefix_chr set mode args (n :: l)
      = if mode_nicks_selects string_match server_nick prefix_chr set mode args n then
          n.name :: selected_names string_match server_nick prefix_chr set mode args l
        else selected_names string_match server_nick prefix_chr set mode args l := by
  unfold selected_names
  by_cases h : mode_nicks_selects string_match server_nick prefix_chr set mode args n
  · simp [List.filter_cons, h]
  · simp [List.filter_cons, h]

/-- The loop of `irc_command_mode_nicks` and the final MODE command send the
groups of `max_modes` names made of the names added, which are names selected; all
the selected names are added when every group fits in the buffer. -/
theorem mode_nicks_loop_refines (string_match : CStr → CStr → Bool) (server_nick : CStr)
    (M : Nat) (hM : 1 ≤ M) (prefix_chr : Char) (channel : t_irc_channel) (set mode : CStr)
    (hmode : mode ≠ []) (args : List CStr) :
    ∀ (l : List t_irc_nick) (st : ModeNicksState) (cur : List CStr),
      (∀ n ∈ l, n.name ≠ []) → ModeNicksInv mode M st cur →
      ∃ S : List CStr,
        (∀ x ∈ S, x ∈ keep_first st.nicks_sent
          (selected_names string_match server_nick prefix_chr set mode args l))
        ∧ ((∀ g ∈ batch_aux M cur (keep_first st.nicks_sent
              (selected_names string_match server_nick prefix_chr set mode args l)),
              (join_sp g).length + 2 < sizeof_nicks)
            → S = keep_first st.nicks_sent
              (selected_names string_match server_nick prefix_chr set mode args l))
        ∧ mode_nicks_final channel set
            (mode_nicks_loop_unbounded string_match server_nick M prefix_chr channel set mode args l st)
          = st.sent ++ mode_calls channel.name set mode st.msg_priority (batch_aux M cur S) := by
  intro l
  induction l with
  | nil =>
    intro st cur _ hinv
    refine ⟨[], by simp, by simp [selected_names, keep_first], ?_⟩
    simpa [mode_nicks_loop_unbounded] using mode_nicks_final_spec M channel set mode hmode st cur hinv
  | cons n l2 ih =>
    intro st cur hne hinv
    have hne2 : ∀ m ∈ l2, m.name ≠ [] := fun m hm => hne m (List.mem_cons_of_mem _ hm)
    have hnn : n.name ≠ [] := hne n (by simp)
    by_cases hsent : n.name ∈ st.nicks_sent
    · have hK : keep_first st.nicks_sent
          (selected_names string_match server_nick prefix_chr set mode args (n :: l2))
          = keep_first st.nicks_sent
            (selected_names string_match server_nick prefix_chr set mode args l2) := by
        rw [selected_names_cons]
        split
        · simp [keep_first, hsent]
        · rfl
      rw [hK]
      simp only [mode_nicks_loop_unbounded, if_pos hsent]
      exact ih st cur hne2 hinv
    · simp only [mode_nicks_loop_unbounded, if_neg hsent]
      rw [mode_nicks_args_eq string_match server_nick M hM]
      by_cases hsel : mode_nicks_selects string_match server_nick prefix_chr set mode args n
      · have hK : keep_first st.nicks_sent
            (selected_names string_match server_nick prefix_chr set mode args (n :: l2))
            = n.name :: keep_first (n.name :: st.nicks_sent)
              (selected_names string_match server_nick prefix_chr set mode args l2) := by
          rw [selected_names_cons, if_pos hsel]
          simp [keep_first, hsent]
        rw [hK, if_pos hsel]
        obtain ⟨hinv1, hlt1, hns1, hout1⟩ :=
          mode_nicks_send_if_full_spec M hM channel set mode st cur hinv
        have hE2 : ∀ xs, batch_aux M (if cur.length = M then [] else cur) (n.name :: xs)
            = batch_aux M ((if cur.length = M then [] else cur) ++ [n.name]) xs := by
          intro xs
          rw [batch_aux_cons, if_neg (by omega)]
        have hE1 := batch_aux_split M hM cur
        by_cases hfit : mode_nicks_fits n.name (mode_nicks_send_if_full M channel set st)
        · rw [if_pos hfit]
          have hinv2 := mode_nicks_add_spec M mode n.name _ _ hinv1 hlt1 hnn
          obtain ⟨S2, hmem, himp, hout⟩ := ih _ _ hne2 hinv2
          have hns2 : (mode_nicks_add_unbounded mode n.name
              (mode_nicks_send_if_full M channel set st)).nicks_sent
              = n.name :: st.nicks_sent := by
            simp [mode_nicks_add_unbounded, hns1]
          rw [hns2] at hmem himp
          refine ⟨n.name :: S2, ?_, ?_, ?_⟩
          · intro x hx
            rcases List.mem_cons.1 hx with rfl | hx
            · simp
            · exact List.mem_cons_of_mem _ (hmem x hx)
          · intro hb
            rw [himp ?_]
            intro g hg
            apply hb
            rw [hE1, hE2]
            exact List.mem_append_right _ hg
          · rw [hout, hE1 (n.name :: S2), hE2, ← hout1]
            simp [mode_nicks_add_unbounded]
        · rw [if_neg hfit]
          obtain ⟨S2, hmem, himp, hout⟩ := ih _ _ hne2 hinv1
          rw [hns1] at hmem himp
          refine ⟨S2, ?_, ?_, ?_⟩
          · intro x hx
            have h1 := (mem_keep_first _ _ _).1 (hmem x hx)
            by_cases hxn : x = n.name
            · simp [hxn]
            · refine List.mem_cons_of_mem _ ((mem_keep_first _ _ _).2 ⟨h1.1, ?_⟩)
              simp only [List.mem_cons, not_or]
              exact ⟨hxn, h1.2⟩
          · intro hb
            exfalso
            apply hfit
            apply mode_nicks_fits_of_bound M mode n.name _ _
              (keep_first (n.name :: st.nicks_sent)
                (selected_names string_match server_nick prefix_chr set mode args l2)) hinv1
            intro g hg
            apply hb
            rw [hE1, hE2]
            exact List.mem_append_right _ hg
          · rw [hout, hE1 S2, ← hout1]
      · have hK : keep_first st.nicks_sent
            (selected_names string_match server_nick prefix_chr set mode args (n :: l2))
            = keep_first st.nicks_sent
              (selected_names string_match server_nick prefix_chr set mode args l2) := by
          rw [selected_names_cons, if_neg hsel]
        rw [hK, if_neg hsel]
        exact ih st cur hne2 hinv

theorem selected_names_no_args (string_match : CStr → CStr → Bool) (server_nick : CStr)
    (prefix_chr : Char) (set mode : CStr) (l : List t_irc_nick) :
    selected_names string_match server_nick prefix_chr set mode [] l = [] := by
  simp [selected_names, mode_nicks_selects]

theorem selected_names_mem (string_match : CStr → CStr → Bool) (server_nick : CStr)
    (prefix_chr : Char) (set mode : CStr) (args : List CStr) (l : List t_irc_nick) (x : CStr)
    (hx : x ∈ selected_names string_match server_nick prefix_chr set mode args l) :
    ∃ n ∈ l, n.name = x
      ∧ mode_nicks_selects string_match server_nick prefix_chr set mode args n := by
  unfold selected_names at hx
  obtain ⟨n, hn, rfl⟩ := List.mem_map.1 hx
  rw [List.mem_filter] at hn
  exact ⟨n, hn.1, rfl, by simpa using hn.2⟩

theorem selected_nicks_mem (string_match : CStr → CStr → Bool) (server_nick : CStr)
    (prefix_chr : Char) (channel : t_irc_channel) (set mode : CStr) (args : List CStr)
    (x : CStr)
    (hx : x ∈ selected_nicks string_match server_nick prefix_chr channel set mode args) :
    ∃ n ∈ channel.nicks, n.name = x
      ∧ mode_nicks_selects string_match server_nick prefix_chr set mode args n := by
  unfold selected_nicks at hx
  exact selected_names_mem _ _ _ _ _ _ _ _ ((mem_keep_first _ _ _).1 hx).1

/-- On a channel whose nicks have distinct names, the selected nicks are the names
of the nicks that the arguments select, in the order of the channel. -/
theorem selected_nicks_of_nodup (string_match : CStr → CStr → Bool) (server_nick : CStr)
    (prefix_chr : Char) (channel : t_irc_channel) (set mode : CStr) (args : List CStr)
    (hnd : (channel.nicks.map t_irc_nick.name).Nodup) :
    selected_nicks string_match server_nick prefix_chr channel set mode args
      = (channel.nicks.filter fun n =>
          decide (mode_nicks_selects string_match server_nick prefix_chr set mode args n)).map
            t_irc_nick.name := by
  unfold selected_nicks selected_names
  apply keep_first_of_nodup
  · exact hnd.sublist (List.Sublist.map _ (List.filter_sublist _))
  · simp

/-- The messages of `irc_command_mode_nicks` are the MODE calls, the first with high
priority, for the groups of `max_modes` names made of the names added; the names
added are selected nicks, and they are all the selected nicks when the call is not
refused and every group of selected nicks fits in the buffer. -/
theorem mode_nicks_refines (string_match : CStr → CStr → Bool) (server_nick : CStr)
    (M : Nat) (hM : 1 ≤ M) (prefix_chr : Char) (channel : t_irc_channel) (set mode : CStr)
    (hmode : mode ≠ []) (argv : List CStr) (hne : ∀ n ∈ channel.nicks, n.name ≠ []) :
    ∃ S : List CStr,
      (∀ x ∈ S, x ∈ selected_nicks string_match server_nick prefix_chr channel set mode
        (mode_nicks_arguments argv).1)
      ∧ (¬ ((mode_nicks_arguments argv).2 = false ∧ "*".toList ∈ (mode_nicks_arguments argv).1)
          → (∀ g ∈ batches M (selected_nicks string_match server_nick prefix_chr channel set
                mode (mode_nicks_arguments argv).1), (join_sp g).length + 2 < sizeof_nicks)
          → S = selected_nicks string_match server_nick prefix_chr channel set mode
              (mode_nicks_arguments argv).1)
      ∧ (irc_command_mode_nicks_unbounded string_match server_nick M prefix_chr channel set mode
            argv).sent
          = mode_calls channel.name set mode IRC_SERVER_SEND_OUTQ_PRIO_HIGH (batches M S) := by
  by_cases hargc : argv.length < 2
  · refine ⟨[], by simp, ?_, by simp [irc_command_mode_nicks_unbounded, hargc, batches, batch_aux, mode_calls]⟩
    intro _ _
    have h1 : mode_nicks_arguments argv = (argv.drop 1, false) := by
      unfold mode_nicks_arguments
      rw [if_neg (by omega)]
    have h2 : argv.drop 1 = [] := by
      apply List.eq_nil_of_length_eq_zero
      simp; omega
    simp [selected_nicks, h1, h2, selected_names_no_args, keep_first]
  · by_cases hyes : (mode_nicks_arguments argv).2 = false
        ∧ "*".toList ∈ (mode_nicks_arguments argv).1
    · refine ⟨[], by simp, fun h => absurd hyes h, ?_⟩
      simp only [irc_command_mode_nicks_unbounded, if_neg hargc, if_pos hyes]
      simp [batches, batch_aux, mode_calls]
    · have hinv : ModeNicksInv mode M ⟨[], [], 0, IRC_SERVER_SEND_OUTQ_PRIO_HIGH, [], []⟩ [] := by
        simp [ModeNicksInv, join_sp]
      obtain ⟨S, h1, h2, h3⟩ := mode_nicks_loop_refines string_match server_nick M hM
        prefix_chr channel set mode hmode (mode_nicks_arguments argv).1 channel.nicks _ _ hne hinv
      refine ⟨S, h1, fun _ hb => h2 hb, ?_⟩
      simp only [irc_command_mode_nicks_unbounded, if_neg hargc, if_neg hyes]
      simpa [batches] using h3

theorem mode_calls_length (channel_name set mode : CStr) (p : SendFlags)
    (B : List (List CStr)) : (mode_calls channel_name set mode p B).length = B.length := by
  cases B <;> simp [mode_calls]

theorem mode_call_target_list (channel_name set mode : CStr) (p : SendFlags) (g : List CStr)
    (hg : g ≠ []) (hsp : ∀ x ∈ g, ' ' ∉ x) :
    (mode_call channel_name set mode p g).target_list = g := by
  simp [mode_call, SendfCall.target_list, SendfCall.targets, split_sp_join_sp g hg hsp]

theorem mode_calls_mem (channel_name set mode : CStr) (p : SendFlags) (B : List (List CStr))
    (m : SendfCall) (hm : m ∈ mode_calls channel_name set mode p B) :
    ∃ g ∈ B, ∃ q, m = mode_call channel_name set mode q g := by
  cases B with
  | nil => simp [mode_calls] at hm
  | cons g gs =>
    simp only [mode_calls, List.mem_cons, List.mem_map] at hm
    rcases hm with rfl | ⟨g2, hg2, rfl⟩
    · exact ⟨g, by simp, p, rfl⟩
    · exact ⟨g2, by simp [hg2], _, rfl⟩

theorem mode_calls_dropLast_mem (channel_name set mode : CStr) (p : SendFlags)
    (B : List (List CStr)) (m : SendfCall)
    (hm : m ∈ (mode_calls channel_name set mode p B).dropLast) :
    ∃ g ∈ B.dropLast, ∃ q, m = mode_call channel_name set mode q g := by
  induction B generalizing p with
  | nil => simp [mode_calls] at hm
  | cons g gs ih =>
    cases gs with
    | nil => simp [mode_calls] at hm
    | cons g2 gs2 =>
      rw [mode_calls_cons, List.dropLast_cons_of_ne_nil (by simp [mode_calls])] at hm
      rw [List.dropLast_cons_of_ne_nil (by simp)]
      rcases List.mem_cons.1 hm with rfl | hm
      · exact ⟨g, by simp, p, rfl⟩
      · obtain ⟨g3, hg3, q, hq⟩ := ih _ hm
        exact ⟨g3, List.mem_cons_of_mem _ hg3, q, hq⟩

theorem mode_calls_target_lists (channel_name set mode : CStr) (p : SendFlags)
    (B : List (List CStr)) (hB : ∀ g ∈ B, g ≠ [] ∧ ∀ x ∈ g, ' ' ∉ x) :
    (mode_calls channel_name set mode p B).map SendfCall.target_list = B := by
  cases B with
  | nil => simp [mode_calls]
  | cons g gs =>
    simp only [mode_calls, List.map_cons, List.map_map]
    rw [mode_call_target_list _ _ _ _ g (hB g (by simp)).1 (hB g (by simp)).2]
    congr 1
    conv_rhs => rw [← List.map_id gs]
    apply List.map_congr_left
    intro g2 hg2
    have := hB g2 (by simp [hg2])
    simp [mode_call_target_list _ _ _ _ g2 this.1 this.2]

/-! ## Properties of irc_command_mode_nicks -/

/-- The round trip of the function without the bound of `modes`: when the call is
not refused, the names of the channel nicks are not empty and have no space, and
every group of `max_modes` consecutive selected nicks, joined by spaces, has at most
1021 chars, `ceil(N / max_modes)` MODE messages are sent for the `N` selected nicks,
and the lists of nicks of these messages, in emission order, are the selected
nicks. -/
theorem mode_nicks_batches_roundtrip_unbounded (string_match : CStr → CStr → Bool) (server_nick : CStr)
    (max_modes : Nat) (prefix_chr : Char) (channel : t_irc_channel) (set mode : CStr)
    (argv : List CStr) (hM : 1 ≤ max_modes) (hmode : mode ≠ [])
    (hwf : ∀ n ∈ channel.nicks, n.name ≠ [] ∧ ' ' ∉ n.name)
    (hyes : ¬ ((mode_nicks_arguments argv).2 = false
      ∧ "*".toList ∈ (mode_nicks_arguments argv).1))
    (hfit : ∀ g ∈ batches max_modes (selected_nicks string_match server_nick prefix_chr
      channel set mode (mode_nicks_arguments argv).1), (join_sp g).length + 2 < sizeof_nicks) :
    mode_nicks_roundtrip_unbounded string_match server_nick max_modes prefix_chr channel set mode
      argv := by
  obtain ⟨S, _, himp, hsent⟩ := mode_nicks_refines string_match server_nick max_modes hM
    prefix_chr channel set mode hmode argv (fun n hn => (hwf n hn).1)
  have hS := himp hyes hfit
  subst hS
  have hB : ∀ g ∈ batches max_modes (selected_nicks string_match server_nick prefix_chr
      channel set mode (mode_nicks_arguments argv).1), g ≠ [] ∧ ∀ x ∈ g, ' ' ∉ x := by
    intro g hg
    refine ⟨?_, ?_⟩
    · have := (batch_aux_sizes max_modes [] _ hM (by simp) g hg).1
      intro h; rw [h] at this; simp at this
    · intro x hx
      have hx2 := batch_aux_mem max_modes [] _ g hg x hx
      obtain ⟨n, hn, rfl, _⟩ := selected_nicks_mem _ _ _ _ _ _ _ _ (by simpa using hx2)
      exact (hwf n hn).2
  unfold mode_nicks_roundtrip_unbounded
  rw [hsent]
  refine ⟨?_, ?_, keep_first_nodup _ _⟩
  · rw [mode_calls_length]
    unfold batches
    rw [batch_aux_length max_modes [] _ hM (by simp)]
    simp
  · rw [mode_calls_target_lists _ _ _ _ _ hB]
    unfold batches
    rw [batch_aux_flatten]
    simp

theorem prio_ok_send (sent : List SendfCall) (p : SendFlags) (f : CStr) (a : List CStr)
    (h : prio_ok sent p) :
    prio_ok (sent ++ [⟨p, f, a⟩]) IRC_SERVER_SEND_OUTQ_PRIO_LOW := by
  right
  rcases h with ⟨h1, h2⟩ | ⟨h1, h2, _⟩
  · subst h1; subst h2; simp
  · refine ⟨by simp, ?_, rfl⟩
    have hl : 0 < sent.length := List.length_pos.2 h1
    rw [List.map_append, h2]
    simp only [List.map_cons, List.map_nil, List.length_append, List.length_cons,
      List.length_nil, Nat.add_sub_cancel, List.cons_append]
    have : sent.length = (sent.length - 1) + 1 := by omega
    conv_rhs => rw [this, List.replicate_succ']
    subst_vars
    rfl

theorem prio_ok_final (sent : List SendfCall) (p : SendFlags) (h : prio_ok sent p)
    (hne : sent ≠ []) :
    sent.map SendfCall.flags
      = IRC_SERVER_SEND_OUTQ_PRIO_HIGH
        :: List.replicate (sent.length - 1) IRC_SERVER_SEND_OUTQ_PRIO_LOW := by
  rcases h with ⟨h1, _⟩ | ⟨_, h2, _⟩
  · exact absurd h1 hne
  · exact h2

theorem mode_nicks_send_if_full_prio (M : Nat) (channel : t_irc_channel) (set : CStr)
    (st : ModeNicksState) (h : prio_ok st.sent st.msg_priority) :
    prio_ok (mode_nicks_send_if_full M channel set st).sent
      (mode_nicks_send_if_full M channel set st).msg_priority := by
  unfold mode_nicks_send_if_full
  split
  · exact prio_ok_send _ _ _ _ h
  · exact h

theorem mode_nicks_args_prio (string_match : CStr → CStr → Bool) (server_nick : CStr)
    (M : Nat) (prefix_chr : Char) (channel : t_irc_channel) (set mode : CStr)
    (n : t_irc_nick) (args : List CStr) (st : ModeNicksState)
    (h : prio_ok st.sent st.msg_priority) :
    prio_ok (mode_nicks_args_unbounded string_match server_nick M prefix_chr channel set mode n args
        st).sent
      (mode_nicks_args_unbounded string_match server_nick M prefix_chr channel set mode n args
        st).msg_priority := by
  induction args generalizing st with
  | nil => simpa [mode_nicks_args_unbounded] using h
  | cons a rest ih =>
    simp only [mode_nicks_args_unbounded]
    split
    · split
      · exact ih st h
      · split
        · exact ih st h
        · split
          · exact mode_nicks_send_if_full_prio M channel set st h
          · exact ih _ (mode_nicks_send_if_full_prio M channel set st h)
    · exact ih st h

theorem mode_nicks_loop_prio (string_match : CStr → CStr → Bool) (server_nick : CStr)
    (M : Nat) (prefix_chr : Char) (channel : t_irc_channel) (set mode : CStr)
    (args : List CStr) (l : List t_irc_nick) (st : ModeNicksState)
    (h : prio_ok st.sent st.msg_priority) :
    prio_ok (mode_nicks_loop_unbounded string_match server_nick M prefix_chr channel set mode args l
        st).sent
      (mode_nicks_loop_unbounded string_match server_nick M prefix_chr channel set mode args l
        st).msg_priority := by
  induction l generalizing st with
  | nil => simpa [mode_nicks_loop_unbounded] using h
  | cons n l2 ih =>
    simp only [mode_nicks_loop_unbounded]
    split
    · exact ih st h
    · exact ih _ (mode_nicks_args_prio _ _ _ _ _ _ _ _ _ _ h)

/-- The priorities of the messages of the function without the bound of `modes`:
the first message has high priority and every following message low priority. -/
theorem mode_nicks_first_high_then_low_unbounded (string_match : CStr → CStr → Bool)
    (server_nick : CStr) (max_modes : Nat) (prefix_chr : Char) (channel : t_irc_channel)
    (set mode : CStr) (argv : List CStr)
    (h : (irc_command_mode_nicks_unbounded string_match server_nick max_modes prefix_chr channel set
      mode argv).sent ≠ []) :
    (irc_command_mode_nicks_unbounded string_match server_nick max_modes prefix_chr channel set mode
        argv).sent.map SendfCall.flags
      = IRC_SERVER_SEND_OUTQ_PRIO_HIGH
        :: List.replicate
          ((irc_command_mode_nicks_unbounded string_match server_nick max_modes prefix_chr channel set
            mode argv).sent.length - 1)
          IRC_SERVER_SEND_OUTQ_PRIO_LOW := by
  by_cases hargc : argv.length < 2
  · exact absurd (by simp [irc_command_mode_nicks_unbounded, hargc]) h
  by_cases hyes : (mode_nicks_arguments argv).2 = false
      ∧ "*".toList ∈ (mode_nicks_arguments argv).1
  · exact absurd (by simp only [irc_command_mode_nicks_unbounded, if_neg hargc, if_pos hyes]) h
  have hs : (irc_command_mode_nicks_unbounded string_match server_nick max_modes prefix_chr channel set
      mode argv).sent
      = mode_nicks_final channel set
        (mode_nicks_loop_unbounded string_match server_nick max_modes prefix_chr channel set mode
          (mode_nicks_arguments argv).1 channel.nicks
          ⟨[], [], 0, IRC_SERVER_SEND_OUTQ_PRIO_HIGH, [], []⟩) := by
    simp only [irc_command_mode_nicks_unbounded, if_neg hargc, if_neg hyes]
  rw [hs] at h ⊢
  apply prio_ok_final _ IRC_SERVER_SEND_OUTQ_PRIO_LOW _ h
  have h0 := mode_nicks_loop_prio string_match server_nick max_modes prefix_chr channel
    set mode (mode_nicks_arguments argv).1 channel.nicks
    ⟨[], [], 0, IRC_SERVER_SEND_OUTQ_PRIO_HIGH, [], []⟩ (Or.inl ⟨rfl, rfl⟩)
  unfold mode_nicks_final at h ⊢
  split
  · exact prio_ok_send _ _ _ _ h0
  · rename_i h3
    rw [if_neg h3] at h
    rcases h0 with ⟨h4, _⟩ | h4
    · exact absurd h4 h
    · exact Or.inr ⟨h4.1, h4.2.1, rfl⟩

theorem replicate_singleton_flatten (k : Nat) (c : Char) :
    (List.replicate k [c]).flatten = List.replicate k c := by
  induction k with
  | zero => rfl
  | succ k ih => simp [List.replicate_succ, ih]

theorem mode_call_line (channel_name set : CStr) (c : Char) (q : SendFlags) (g : List CStr) :
    (mode_call channel_name set [c] q g).line
      = "MODE ".toList ++ channel_name ++ " ".toList ++ set ++ List.replicate g.length c
        ++ " ".toList ++ join_sp g := by
  simp only [SendfCall.line, mode_call, format_s_mode, replicate_singleton_flatten]

/-- The form of the messages of the function without the bound of `modes`, for
`1 <= max_modes <= 128` and channel nicks whose names are not empty and have no
space. -/
theorem mode_nicks_message_form_unbounded (string_match : CStr → CStr → Bool) (server_nick : CStr)
    (max_modes : Nat) (prefix_chr : Char) (channel : t_irc_channel) (set : CStr) (c : Char)
    (argv : List CStr) (hM1 : 1 ≤ max_modes) (hM2 : max_modes ≤ 128)
    (hwf : ∀ n ∈ channel.nicks, n.name ≠ [] ∧ ' ' ∉ n.name) :
    (∀ m ∈ (irc_command_mode_nicks_unbounded string_match server_nick max_modes prefix_chr channel set
          [c] argv).sent,
        m.line = "MODE ".toList ++ channel.name ++ " ".toList ++ set
            ++ List.replicate m.target_list.length c ++ " ".toList ++ join_sp m.target_list
          ∧ m.modes = List.replicate m.target_list.length c
          ∧ m.targets = join_sp m.target_list
          ∧ 1 ≤ m.target_list.length ∧ m.target_list.length ≤ max_modes
          ∧ m.modes.length ≤ 128
          ∧ ∀ x ∈ m.target_list, x ≠ [])
    ∧ (∀ m ∈ (irc_command_mode_nicks_unbounded string_match server_nick max_modes prefix_chr
          channel set [c] argv).sent.dropLast, m.target_list.length = max_modes) := by
  obtain ⟨S, hmem, _, hsent⟩ := mode_nicks_refines string_match server_nick max_modes hM1
    prefix_chr channel set [c] (by simp) argv (fun n hn => (hwf n hn).1)
  have hB : ∀ g ∈ batches max_modes S, g ≠ [] ∧ ∀ x ∈ g, ' ' ∉ x := by
    intro g hg
    refine ⟨?_, ?_⟩
    · have := (batch_aux_sizes max_modes [] _ hM1 (by simp) g hg).1
      intro h; rw [h] at this; simp at this
    · intro x hx
      have hx2 := batch_aux_mem max_modes [] _ g hg x hx
      obtain ⟨n, hn, rfl, _⟩ := selected_nicks_mem _ _ _ _ _ _ _ _ (hmem x (by simpa using hx2))
      exact (hwf n hn).2
  rw [hsent]
  constructor
  · intro m hm
    obtain ⟨g, hg, q, rfl⟩ := mode_calls_mem _ _ _ _ _ m hm
    have hsz := batch_aux_sizes max_modes [] _ hM1 (by simp) g hg
    rw [mode_call_target_list _ _ _ _ g (hB g hg).1 (hB g hg).2, mode_call_line]
    refine ⟨rfl, ?_, ?_, hsz.1, hsz.2, ?_, ?_⟩
    · simp [SendfCall.modes, mode_call, replicate_singleton_flatten]
    · simp [SendfCall.targets, mode_call]
    · simp only [SendfCall.modes, mode_call, replicate_singleton_flatten, List.getD_cons_succ,
        List.getD_cons_zero, List.length_replicate]
      omega
    · intro x hx
      have hx2 := batch_aux_mem max_modes [] _ g hg x hx
      obtain ⟨n, hn, rfl, _⟩ := selected_nicks_mem _ _ _ _ _ _ _ _ (hmem x (by simpa using hx2))
      exact (hwf n hn).1
  · intro m hm
    obtain ⟨g, hg, q, rfl⟩ := mode_calls_dropLast_mem _ _ _ _ _ m hm
    have hg2 : g ∈ batches max_modes S := List.dropLast_subset _ hg
    rw [mode_call_target_list _ _ _ _ g (hB g hg2).1 (hB g hg2).2]
    exact batch_aux_dropLast max_modes [] S g hg

/-! ## Properties of irc_command_mode_masks -/

theorem mode_masks_step_spec (c : Char) (M : Nat) (hM : 1 ≤ M) (channel_name set : CStr)
    (x : CStr) (hx : x ≠ [] ∧ ' ' ∉ x) (st : ModeMasksState) (cur : List CStr)
    (hinv : ModeMasksInv c M st cur)
    (hgood : ∀ m ∈ st.sent, mode_masks_good c M channel_name set m)
    (hprio : prio_ok st.sent st.msg_priority) :
    ∃ cur2, ModeMasksInv c M (mode_masks_step_unbounded M channel_name set [c] x st) cur2
      ∧ (∀ m ∈ (mode_masks_step_unbounded M channel_name set [c] x st).sent,
          mode_masks_good c M channel_name set m)
      ∧ prio_ok (mode_masks_step_unbounded M channel_name set [c] x st).sent
          (mode_masks_step_unbounded M channel_name set [c] x st).msg_priority := by
  obtain ⟨h1, h2, h3, h4, h5⟩ := hinv
  -- the state after the possible MODE command
  have hst1 : ∃ (st1 : ModeMasksState) (c1 : List CStr),
      (if st.modes ≠ [] ∧ (st.modes_added = M
          ∨ ¬ (st.masks.length + 1 + x.length + 1 < sizeof_nicks)) then
        mode_masks_send channel_name set st else st) = st1
      ∧ ModeMasksInv c M st1 c1 ∧ c1.length < M
      ∧ (∀ m ∈ st1.sent, mode_masks_good c M channel_name set m)
      ∧ prio_ok st1.sent st1.msg_priority := by
    by_cases hsend : st.modes ≠ [] ∧ (st.modes_added = M
        ∨ ¬ (st.masks.length + 1 + x.length + 1 < sizeof_nicks))
    · refine ⟨_, [], if_pos hsend, ?_, by simpa using hM, ?_, ?_⟩
      · simp [ModeMasksInv, mode_masks_send, join_sp]
      · intro m hm
        simp only [mode_masks_send, List.mem_append, List.mem_singleton] at hm
        rcases hm with hm | rfl
        · exact hgood m hm
        · have hc : 1 ≤ cur.length := by
            rcases Nat.eq_zero_or_pos cur.length with h0 | h0
            · exfalso; apply hsend.1; rw [h2, h0]; rfl
            · exact h0
          exact ⟨cur, st.msg_priority, by simp [mode_call, h1, h2, replicate_singleton_flatten],
            hc, h4, h5⟩
      · exact prio_ok_send _ _ _ _ hprio
    · refine ⟨_, cur, if_neg hsend, ⟨h1, h2, h3, h4, h5⟩, ?_, hgood, hprio⟩
      by_cases hm : st.modes = []
      · rw [h2] at hm
        have h6 : (List.replicate cur.length c).length = 0 := by rw [hm]; rfl
        rw [List.length_replicate] at h6
        omega
      · have : ¬ st.modes_added = M := fun h => hsend ⟨hm, Or.inl h⟩
        omega
  obtain ⟨st1, c1, hst1, ⟨g1, g2, g3, g4, g5⟩, hlt, hgood1, hprio1⟩ := hst1
  simp only [mode_masks_step_unbounded, hst1]
  by_cases hfit : st.masks.length + 1 + x.length + 1 < sizeof_nicks
  · rw [if_pos hfit]
    refine ⟨c1 ++ [x], ⟨?_, ?_, ?_, ?_, ?_⟩, hgood1, hprio1⟩
    · by_cases hc : c1 = []
      · subst hc
        simp [g1, join_sp]
      · have hne : join_sp c1 ≠ [] :=
          fun h => hc ((join_sp_eq_nil c1 (fun y hy => (g5 y hy).1)).1 h)
        rw [join_sp_append_singleton c1 x hc]
        simp [g1, hne]
    · simp [g2, List.replicate_succ']
    · simp [g3]
    · simp; omega
    · intro y hy
      rcases List.mem_append.1 hy with hy | hy
      · exact g5 y hy
      · simp at hy; subst hy; exact hx
  · rw [if_neg hfit]
    exact ⟨c1, ⟨g1, g2, g3, g4, g5⟩, hgood1, hprio1⟩

theorem mode_masks_loop_spec (c : Char) (M : Nat) (hM : 1 ≤ M) (channel_name set : CStr)
    (l : List CStr) (hl : ∀ x ∈ l, x ≠ [] ∧ ' ' ∉ x) (st : ModeMasksState) (cur : List CStr)
    (hinv : ModeMasksInv c M st cur)
    (hgood : ∀ m ∈ st.sent, mode_masks_good c M channel_name set m)
    (hprio : prio_ok st.sent st.msg_priority) :
    ∃ cur2, ModeMasksInv c M (mode_masks_loop_unbounded M channel_name set [c] l st) cur2
      ∧ (∀ m ∈ (mode_masks_loop_unbounded M channel_name set [c] l st).sent,
          mode_masks_good c M channel_name set m)
      ∧ prio_ok (mode_masks_loop_unbounded M channel_name set [c] l st).sent
          (mode_masks_loop_unbounded M channel_name set [c] l st).msg_priority := by
  induction l generalizing st cur with
  | nil => exact ⟨cur, hinv, hgood, hprio⟩
  | cons x xs ih =>
    obtain ⟨cur2, k1, k2, k3⟩ := mode_masks_step_spec c M hM channel_name set x
      (hl x (by simp)) st cur hinv hgood hprio
    exact ih (fun y hy => hl y (by simp [hy])) _ cur2 k1 k2 k3

/-- The form and the priorities of the messages of the function without the bound
of `modes`, for `max_modes >= 1`, a mode letter `c` and masks that are not empty
and have no space. -/
theorem mode_masks_message_form_unbounded (chanmode_type : Char) (max_modes : Nat)
    (irc_nick_search : t_irc_channel → CStr → Option t_irc_nick)
    (irc_nick_default_ban_mask : t_irc_nick → Option CStr)
    (ptr_channel : Option t_irc_channel) (channel_name set : CStr) (c : Char)
    (argv : List CStr) (pos_masks : Nat) (hM : 1 ≤ max_modes)
    (hwf : ∀ x ∈ mode_masks_list irc_nick_search irc_nick_default_ban_mask ptr_channel argv
      pos_masks, x ≠ [] ∧ ' ' ∉ x) :
    (∀ m ∈ (irc_command_mode_masks_unbounded chanmode_type max_modes irc_nick_search
          irc_nick_default_ban_mask ptr_channel channel_name set [c] argv pos_masks).sent,
        1 ≤ m.target_list.length ∧ m.target_list.length ≤ max_modes
          ∧ m.modes = List.replicate m.target_list.length c
          ∧ m.targets = join_sp m.target_list
          ∧ ∀ x ∈ m.target_list, x ≠ [])
    ∧ ((irc_command_mode_masks_unbounded chanmode_type max_modes irc_nick_search
          irc_nick_default_ban_mask ptr_channel channel_name set [c] argv pos_masks).sent ≠ []
        → (irc_command_mode_masks_unbounded chanmode_type max_modes irc_nick_search
            irc_nick_default_ban_mask ptr_channel channel_name set [c] argv
            pos_masks).sent.map SendfCall.flags
          = IRC_SERVER_SEND_OUTQ_PRIO_HIGH
            :: List.replicate
              ((irc_command_mode_masks_unbounded chanmode_type max_modes irc_nick_search
                irc_nick_default_ban_mask ptr_channel channel_name set [c] argv
                pos_masks).sent.length - 1)
              IRC_SERVER_SEND_OUTQ_PRIO_LOW) := by
  by_cases htype : chanmode_type ≠ 'A'
  · have hs : (irc_command_mode_masks_unbounded chanmode_type max_modes irc_nick_search
        irc_nick_default_ban_mask ptr_channel channel_name set [c] argv pos_masks).sent
        = [] := by
      simp only [irc_command_mode_masks_unbounded, if_pos htype]
    rw [hs]
    simp
  · have hs : (irc_command_mode_masks_unbounded chanmode_type max_modes irc_nick_search
        irc_nick_default_ban_mask ptr_channel channel_name set [c] argv pos_masks).sent
        = mode_masks_final channel_name set
          (mode_masks_loop_unbounded max_modes channel_name set [c]
            (mode_masks_list irc_nick_search irc_nick_default_ban_mask ptr_channel argv
              pos_masks)
            ⟨[], [], 0, IRC_SERVER_SEND_OUTQ_PRIO_HIGH, []⟩) := by
      simp only [irc_command_mode_masks_unbounded, if_neg htype]
    rw [hs]
    obtain ⟨cur, ⟨h1, h2, _, h4, h5⟩, hgood, hprio⟩ := mode_masks_loop_spec c max_modes hM
      channel_name set _ hwf ⟨[], [], 0, IRC_SERVER_SEND_OUTQ_PRIO_HIGH, []⟩ []
      (by simp [ModeMasksInv, join_sp]) (by simp) (Or.inl ⟨rfl, rfl⟩)
    generalize mode_masks_loop_unbounded max_modes channel_name set [c]
      (mode_masks_list irc_nick_search irc_nick_default_ban_mask ptr_channel argv pos_masks)
      ⟨[], [], 0, IRC_SERVER_SEND_OUTQ_PRIO_HIGH, []⟩ = stf at h1 h2 hgood hprio ⊢
    have hall : (∀ m ∈ mode_masks_final channel_name set stf,
          mode_masks_good c max_modes channel_name set m)
        ∧ (mode_masks_final channel_name set stf ≠ []
          → prio_ok (mode_masks_final channel_name set stf)
              IRC_SERVER_SEND_OUTQ_PRIO_LOW) := by
      unfold mode_masks_final
      split
      · rename_i hlast
        refine ⟨?_, fun _ => prio_ok_send _ _ _ _ hprio⟩
        intro m hm
        rcases List.mem_append.1 hm with hm | hm
        · exact hgood m hm
        · simp only [List.mem_singleton] at hm
          subst hm
          have hc : 1 ≤ cur.length := by
            rcases Nat.eq_zero_or_pos cur.length with h0 | h0
            · exfalso; apply hlast.1; rw [h2, h0]; rfl
            · exact h0
          exact ⟨cur, stf.msg_priority,
            by simp [mode_call, h1, h2, replicate_singleton_flatten], hc, h4, h5⟩
      · refine ⟨hgood, fun hne => ?_⟩
        rcases hprio with ⟨k1, _⟩ | ⟨k1, k2, _⟩
        · exact absurd k1 hne
        · exact Or.inr ⟨k1, k2, rfl⟩
    constructor
    · intro m hm
      obtain ⟨g, q, rfl, hg1, hg2, hg3⟩ := hall.1 m hm
      have hgne : g ≠ [] := by intro h; rw [h] at hg1; simp at hg1
      rw [mode_call_target_list _ _ _ _ g hgne (fun x hx => (hg3 x hx).2)]
      exact ⟨hg1, hg2, by simp [SendfCall.modes, mode_call, replicate_singleton_flatten],
        by simp [SendfCall.targets, mode_call], fun x hx => (hg3 x hx).1⟩
    · intro hne
      exact prio_ok_final _ _ (hall.2 hne) hne

/-! ## Properties of the connection and disconnection of a server -/

/-- C6: on a server with `is_connected` set, `irc_command_connect_one_server`
returns 0, calls neither `irc_server_switch_address` nor `irc_server_connect`, and
leaves the server unchanged (so `disable_autojoin`, `reconnect_delay`,
`reconnect_start` and `reconnect_join` keep their values), whatever the arguments
`switch_address` and `no_join` are. -/
theorem connect_one_server_already_connected
    (irc_server_switch_address : t_irc_server → Int → t_irc_server)
    (irc_server_connect : t_irc_server → Int × t_irc_server)
    (server : t_irc_server) (switch_address no_join : Int)
    (h : server.is_connected ≠ 0) :
    (irc_command_connect_one_server irc_server_switch_address irc_server_connect
        (some server) switch_address no_join).rc = 0
    ∧ (irc_command_connect_one_server irc_server_switch_address irc_server_connect
        (some server) switch_address no_join).server = some server
    ∧ (∀ e ∈ (irc_command_connect_one_server irc_server_switch_address irc_server_connect
        (some server) switch_address no_join).effects, e.is_connect = false) := by
  simp [irc_command_connect_one_server, h, Effect.is_connect]

/-- Witness of C6: "/connect -switch -nojoin" on a connected server. -/
theorem connect_one_server_already_connected_witness :
    (irc_command_connect_one_server (fun s _ => s) (fun s => (1, s))
        (some server_me) 1 1).rc = 0
    ∧ (irc_command_connect_one_server (fun s _ => s) (fun s => (1, s))
        (some server_me) 1 1).server = some server_me
    ∧ (∀ e ∈ (irc_command_connect_one_server (fun s _ => s) (fun s => (1, s))
        (some server_me) 1 1).effects, e.is_connect = false) :=
  connect_one_server_already_connected (fun s _ => s) (fun s => (1, s)) server_me 1 1
    (by decide)

/-- C7 on the code: a server in the registration handshake (`hook_fd` set,
`hook_connect` unset, not connected yet) is not refused by
`irc_command_connect_one_server`: `irc_server_connect` is called and 1 is returned. -/
theorem connect_one_server_during_handshake :
    server_registering.is_connected = 0 ∧ server_registering.hook_fd = true
    ∧ (irc_command_connect_one_server (fun s _ => s) (fun s => (1, s))
        (some server_registering) 0 0).rc = 1
    ∧ Effect.server_connect server_registering.name
      ∈ (irc_command_connect_one_server (fun s _ => s) (fun s => (1, s))
        (some server_registering) 0 0).effects := by
  decide

/-- C8: `irc_command_disconnect_one_server` returns 0, sends nothing and does not
call `irc_server_disconnect` if and only if the server is NULL or fully
disconnected; in every other state, also when the server only has a reconnection
scheduled, it calls `irc_server_disconnect (server, 0, 0)` (no reconnection) and
returns 1. -/
theorem disconnect_one_server_refused_iff
    (irc_server_get_default_msg : CStr → t_irc_server → CStr)
    (irc_server_disconnect : t_irc_server → Int → Int → t_irc_server)
    (server : Option t_irc_server) (reason : Option CStr) :
    (((irc_command_disconnect_one_server irc_server_get_default_msg irc_server_disconnect
          server reason).rc = 0
        ∧ ∀ e ∈ (irc_command_disconnect_one_server irc_server_get_default_msg
            irc_server_disconnect server reason).effects,
          e.is_sendf = false ∧ e.is_server_disconnect = false)
      ↔ (server = none ∨ ∃ s, server = some s ∧ fully_disconnected s))
    ∧ (∀ s, server = some s → ¬ fully_disconnected s →
        (irc_command_disconnect_one_server irc_server_get_default_msg irc_server_disconnect
          server reason).rc = 1
        ∧ Effect.server_disconnect s.name 0 0
          ∈ (irc_command_disconnect_one_server irc_server_get_default_msg
            irc_server_disconnect server reason).effects
        ∧ (irc_command_disconnect_one_server irc_server_get_default_msg
            irc_server_disconnect server reason).server
          = some (irc_server_disconnect s 0 0)) := by
  cases server with
  | none => simp [irc_command_disconnect_one_server]
  | some s =>
    by_cases hd : fully_disconnected s
    · have hd2 := hd
      unfold fully_disconnected at hd2
      simp [irc_command_disconnect_one_server, hd, hd2, Effect.is_sendf,
        Effect.is_server_disconnect]
    · have hd2 := hd
      unfold fully_disconnected at hd2
      simp only [irc_command_disconnect_one_server, if_neg hd2]
      simp [hd]

/-- Witness of C8: a server that only has a reconnection scheduled is disconnected
(the reconnection is cancelled) and 1 is returned. -/
theorem disconnect_one_server_refused_iff_witness :
    (irc_command_disconnect_one_server (fun m _ => m) (fun s _ _ => s) (some server_pending)
        none).rc = 1
    ∧ Effect.server_disconnect server_pending.name 0 0
      ∈ (irc_command_disconnect_one_server (fun m _ => m) (fun s _ _ => s)
        (some server_pending) none).effects
    ∧ (irc_command_disconnect_one_server (fun m _ => m) (fun s _ _ => s) (some server_pending)
        none).server = some ((fun (s : t_irc_server) (_ _ : Int) => s) server_pending 0 0) :=
  (disconnect_one_server_refused_iff (fun m _ => m) (fun s _ _ => s) (some server_pending)
    none).2 server_pending rfl (by decide)

theorem quit_server_eq (irc_server_get_default_msg : CStr → t_irc_server → CStr)
    (s : t_irc_server) (reason : Option CStr) :
    irc_command_quit_server irc_server_get_default_msg (some s) reason
      = if s.is_connected = 0 then []
        else [Effect.sendf s.name (quit_call irc_server_get_default_msg s reason)] := by
  by_cases hc : s.is_connected = 0
  · simp [irc_command_quit_server, hc]
  · simp only [irc_command_quit_server, if_neg hc, quit_call, quit_text]
    cases reason with
    | some a =>
      cases a with
      | nil => simp
      | cons c cs => simp
    | none =>
      cases hq : s.msg_quit with
      | none => simp
      | some a =>
        cases a with
        | nil => simp
        | cons c cs => simp

theorem quit_call_line (irc_server_get_default_msg : CStr → t_irc_server → CStr)
    (s : t_irc_server) (reason : Option CStr) :
    (quit_call irc_server_get_default_msg s reason).line
      = (if quit_text s reason = [] then "QUIT".toList
        else "QUIT :".toList ++ irc_server_get_default_msg (quit_text s reason) s) := by
  unfold quit_call
  split <;> simp [SendfCall.line, format_s]

/-- C9: when `irc_command_disconnect_one_server` accepts the request (the server
is not fully disconnected), its effects are, in this order: the notice that the
reconnection is cancelled (if one is scheduled), the QUIT line if and only if the
server is connected, the call of `irc_server_disconnect` and the refresh of the
item "away". The QUIT line is "QUIT :msg" with msg built by
`irc_server_get_default_msg` from the reason given, or from the default quit
message of the server when no reason is given, and "QUIT" alone when the chosen
text is empty. -/
theorem disconnect_one_server_quit_line
    (irc_server_get_default_msg : CStr → t_irc_server → CStr)
    (irc_server_disconnect : t_irc_server → Int → Int → t_irc_server)
    (s : t_irc_server) (reason : Option CStr) (hacc : ¬ fully_disconnected s) :
    ∃ quit : SendfCall,
      quit.line
          = (if quit_text s reason = [] then "QUIT".toList
            else "QUIT :".toList ++ irc_server_get_default_msg (quit_text s reason) s)
      ∧ (irc_command_disconnect_one_server irc_server_get_default_msg irc_server_disconnect
          (some s) reason).effects
        = (if 0 < s.reconnect_start then [Effect.printf "%s: auto-reconnection is cancelled"]
            else [])
          ++ (if s.is_connected ≠ 0 then [Effect.sendf s.name quit] else [])
          ++ [Effect.server_disconnect s.name 0 0, Effect.bar_item_update "away"] := by
  have hd2 := hacc
  unfold fully_disconnected at hd2
  refine ⟨quit_call irc_server_get_default_msg s reason, quit_call_line _ _ _, ?_⟩
  simp only [irc_command_disconnect_one_server, if_neg hd2, quit_server_eq]
  by_cases hc : s.is_connected = 0 <;> simp [hc]

/-- Witness of C9: "/disconnect" without reason on a connected server whose default
quit message is "bye" sends "QUIT :bye" and then disconnects. -/
theorem disconnect_one_server_quit_line_witness :
    (irc_command_disconnect_one_server (fun m _ => m) (fun s _ _ => s) (some server_me)
        none).effects
      = [Effect.sendf server_me.name ⟨SendFlags.none, "QUIT :%s".toList, ["bye".toList]⟩,
          Effect.server_disconnect server_me.name 0 0, Effect.bar_item_update "away"]
    ∧ ∃ quit : SendfCall,
      quit.line
          = (if quit_text server_me none = [] then "QUIT".toList
            else "QUIT :".toList ++ (fun (m : CStr) (_ : t_irc_server) => m)
              (quit_text server_me none) server_me)
      ∧ (irc_command_disconnect_one_server (fun m _ => m) (fun s _ _ => s) (some server_me)
          none).effects
        = (if 0 < server_me.reconnect_start then
              [Effect.printf "%s: auto-reconnection is cancelled"]
            else [])
          ++ (if server_me.is_connected ≠ 0 then [Effect.sendf server_me.name quit] else [])
          ++ [Effect.server_disconnect server_me.name 0 0, Effect.bar_item_update "away"] :=
  ⟨by decide,
    disconnect_one_server_quit_line (fun m _ => m) (fun s _ _ => s) server_me none
      (by decide)⟩

/-! ## Properties of the command /server -/

theorem irc_server_casesearch_of_exists (irc_servers : List t_irc_server) (name : CStr)
    (h : ∃ s ∈ irc_servers, string_caseeq s.name name = true) :
    ∃ found, irc_server_casesearch irc_servers name = some found := by
  unfold irc_server_casesearch
  cases hf : irc_servers.find? fun s => string_caseeq s.name name with
  | some found => exact ⟨found, rfl⟩
  | none =>
    obtain ⟨s, hs, hs2⟩ := h
    have := List.find?_eq_none.1 hf s hs
    simp [hs2] at this

theorem string_caseeq_const (a b : CStr) (h : string_caseeq a b = true) (c : CStr)
    (hne : (b.map Char.toLower == c.map Char.toLower) = false) :
    string_caseeq a c = false := by
  unfold string_caseeq at h ⊢
  have h1 : a.map Char.toLower = b.map Char.toLower := by simpa using h
  rw [h1]
  exact hne

theorem server_add_duplicate (ops : ServerOps) (irc_servers : List t_irc_server)
    (argv : List CStr)
    (h : ∃ s ∈ irc_servers, string_caseeq s.name (argv.getD 2 []) = true) :
    (irc_command_server_add ops irc_servers argv).irc_servers = irc_servers
    ∧ ∀ e ∈ (irc_command_server_add ops irc_servers argv).effects,
        ∃ format, e = Effect.printf format := by
  obtain ⟨found, hf⟩ := irc_server_casesearch_of_exists irc_servers _ h
  unfold irc_command_server_add
  split
  · simp [weechat_command_min_args_error]
  · simp only [hf]
    simp

theorem server_copy_duplicate (ops : ServerOps) (irc_servers : List t_irc_server)
    (argv : List CStr)
    (h : ∃ s ∈ irc_servers, string_caseeq s.name (argv.getD 3 []) = true) :
    (irc_command_server_copy ops irc_servers argv).irc_servers = irc_servers
    ∧ ∀ e ∈ (irc_command_server_copy ops irc_servers argv).effects,
        ∃ format, e = Effect.printf format := by
  obtain ⟨found, hf⟩ := irc_server_casesearch_of_exists irc_servers _ h
  unfold irc_command_server_copy
  split
  · simp [weechat_command_min_args_error]
  · cases irc_server_search irc_servers (argv.getD 2 []) with
    | none => simp
    | some src =>
      simp only [hf]
      simp

theorem server_rename_duplicate (ops : ServerOps) (irc_servers : List t_irc_server)
    (argv : List CStr)
    (h : ∃ s ∈ irc_servers, string_caseeq s.name (argv.getD 3 []) = true) :
    (irc_command_server_rename ops irc_servers argv).irc_servers = irc_servers
    ∧ ∀ e ∈ (irc_command_server_rename ops irc_servers argv).effects,
        ∃ format, e = Effect.printf format := by
  obtain ⟨found, hf⟩ := irc_server_casesearch_of_exists irc_servers _ h
  unfold irc_command_server_rename
  split
  · simp [weechat_command_min_args_error]
  · cases irc_server_search irc_servers (argv.getD 2 []) with
    | none => simp
    | some src =>
      simp only [hf]
      simp

/-- C10: when a server whose name equals the requested name ignoring case is in
the registry, "/server add" (requested name `argv[2]`), "/server copy" and
"/server rename" (requested name `argv[3]`) leave the registry unchanged and do
nothing but display a message: no server is allocated, copied or renamed. -/
theorem server_duplicate_name_rejected (ops : ServerOps) (ptr_server : Option t_irc_server)
    (irc_servers : List t_irc_server) (argv argv_eol : List CStr)
    (h : (string_caseeq (argv.getD 1 []) "add".toList = true
          ∧ ∃ s ∈ irc_servers, string_caseeq s.name (argv.getD 2 []) = true)
      ∨ ((string_caseeq (argv.getD 1 []) "copy".toList = true
            ∨ string_caseeq (argv.getD 1 []) "rename".toList = true)
          ∧ ∃ s ∈ irc_servers, string_caseeq s.name (argv.getD 3 []) = true)) :
    (irc_command_server ops ptr_server irc_servers argv argv_eol).irc_servers = irc_servers
    ∧ ∀ e ∈ (irc_command_server ops ptr_server irc_servers argv argv_eol).effects,
        ∃ format, e = Effect.printf format := by
  have hlen : ∀ c : CStr, c ≠ [] → string_caseeq (argv.getD 1 []) c = true →
      ¬ argv.length = 1 := by
    intro c hc h1 h2
    have : argv.getD 1 [] = [] := by
      rw [List.getD_eq_getElem?_getD, List.getElem?_eq_none (by omega)]; rfl
    rw [this] at h1
    cases c with
    | nil => exact hc rfl
    | cons x xs => simp [string_caseeq] at h1
  rcases h with ⟨h1, h2⟩ | ⟨h1 | h1, h2⟩
  · have k0 := hlen _ (by decide) h1
    have k1 := string_caseeq_const _ _ h1 "list".toList (by decide)
    have k2 := string_caseeq_const _ _ h1 "listfull".toList (by decide)
    simp only [irc_command_server, k0, k1, k2, h1, if_true, or_self, Bool.false_eq_true,
      if_false]
    exact server_add_duplicate ops irc_servers argv h2
  · have k0 := hlen _ (by decide) h1
    have k1 := string_caseeq_const _ _ h1 "list".toList (by decide)
    have k2 := string_caseeq_const _ _ h1 "listfull".toList (by decide)
    have k3 := string_caseeq_const _ _ h1 "add".toList (by decide)
    simp only [irc_command_server, k0, k1, k2, k3, h1, if_true, or_self, Bool.false_eq_true,
      if_false]
    exact server_copy_duplicate ops irc_servers argv h2
  · have k0 := hlen _ (by decide) h1
    have k1 := string_caseeq_const _ _ h1 "list".toList (by decide)
    have k2 := string_caseeq_const _ _ h1 "listfull".toList (by decide)
    have k3 := string_caseeq_const _ _ h1 "add".toList (by decide)
    have k4 := string_caseeq_const _ _ h1 "copy".toList (by decide)
    simp only [irc_command_server, k0, k1, k2, k3, k4, h1, if_true, or_self,
      Bool.false_eq_true, if_false]
    exact server_rename_duplicate ops irc_servers argv h2

/-- Witness of C10: "/server add LIBERA irc.example.org" when the server "libera"
is in the registry. -/
theorem server_duplicate_name_rejected_witness :
    (irc_command_server ops_example none [server_me]
        ["server".toList, "add".toList, "LIBERA".toList, "irc.example.org".toList]
        []).irc_servers = [server_me]
    ∧ ∀ e ∈ (irc_command_server ops_example none [server_me]
        ["server".toList, "add".toList, "LIBERA".toList, "irc.example.org".toList]
        []).effects, ∃ format, e = Effect.printf format :=
  server_duplicate_name_rejected ops_example none [server_me]
    ["server".toList, "add".toList, "LIBERA".toList, "irc.example.org".toList] []
    (Or.inl ⟨by decide, server_me, by simp, by decide⟩)

theorem irc_command_server_del_branch (ops : ServerOps) (ptr_server : Option t_irc_server)
    (irc_servers : List t_irc_server) (argv argv_eol : List CStr)
    (hdel : string_caseeq (argv.getD 1 []) "del".toList = true) :
    irc_command_server ops ptr_server irc_servers argv argv_eol
      = irc_command_server_del ops irc_servers argv := by
  have k0 : ¬ argv.length = 1 := by
    intro h2
    have : argv.getD 1 [] = [] := by
      rw [List.getD_eq_getElem?_getD, List.getElem?_eq_none (by omega)]; rfl
    rw [this] at hdel
    simp [string_caseeq] at hdel
  have k1 := string_caseeq_const _ _ hdel "list".toList (by decide)
  have k2 := string_caseeq_const _ _ hdel "listfull".toList (by decide)
  have k3 := string_caseeq_const _ _ hdel "add".toList (by decide)
  have k4 := string_caseeq_const _ _ hdel "copy".toList (by decide)
  have k5 := string_caseeq_const _ _ hdel "rename".toList (by decide)
  have k6 := string_caseeq_const _ _ hdel "reorder".toList (by decide)
  have k7 := string_caseeq_const _ _ hdel "keep".toList (by decide)
  simp only [irc_command_server, k0, k1, k2, k3, k4, k5, k6, k7, hdel, if_true, or_self,
    Bool.false_eq_true, if_false]

/-- The only test of "/server del name" on the server found is `is_connected`: the
server found by its exact name is freed when `is_connected` is not set; when the
server is connected, is not found or no name is given, nothing but a message is
displayed and the registry is unchanged. -/
theorem server_del_frees_unless_connected (ops : ServerOps)
    (ptr_server : Option t_irc_server) (irc_servers : List t_irc_server)
    (argv argv_eol : List CStr)
    (hdel : string_caseeq (argv.getD 1 []) "del".toList = true) :
    (∀ s, 3 ≤ argv.length → irc_server_search irc_servers (argv.getD 2 []) = some s →
        s.is_connected = 0 →
        (irc_command_server ops ptr_server irc_servers argv argv_eol).irc_servers
            = ops.irc_server_free irc_servers s
          ∧ Effect.server_free s.name
            ∈ (irc_command_server ops ptr_server irc_servers argv argv_eol).effects)
    ∧ ((argv.length < 3 ∨ irc_server_search irc_servers (argv.getD 2 []) = none
          ∨ ∃ s, irc_server_search irc_servers (argv.getD 2 []) = some s
            ∧ s.is_connected ≠ 0) →
        (irc_command_server ops ptr_server irc_servers argv argv_eol).irc_servers
            = irc_servers
          ∧ ∀ e ∈ (irc_command_server ops ptr_server irc_servers argv argv_eol).effects,
              ∃ format, e = Effect.printf format) := by
  rw [irc_command_server_del_branch ops ptr_server irc_servers argv argv_eol hdel]
  constructor
  · intro s hlen hs hc
    have hlen2 : ¬ argv.length < 3 := by omega
    simp only [irc_command_server_del, if_neg hlen2, hs]
    simp [hc]
  · intro h
    unfold irc_command_server_del
    by_cases hlen : argv.length < 3
    · simp [hlen, weechat_command_min_args_error]
    · rw [if_neg hlen]
      rcases h with h | h | ⟨s, hs, hc⟩
      · exact absurd h hlen
      · simp only [h]
        simp
      · simp only [hs]
        simp [hc]

/-- The command "/server del libera" on a connected server changes nothing. -/
theorem server_del_frees_unless_connected_witness :
    (irc_command_server ops_example none [server_me]
        ["server".toList, "del".toList, "libera".toList] []).irc_servers = [server_me]
    ∧ ∀ e ∈ (irc_command_server ops_example none [server_me]
        ["server".toList, "del".toList, "libera".toList] []).effects,
        ∃ format, e = Effect.printf format :=
  (server_del_frees_unless_connected ops_example none [server_me]
    ["server".toList, "del".toList, "libera".toList] [] (by decide)).2
    (Or.inr (Or.inr ⟨server_me, by decide, by decide⟩))

/-- C11 on the code: "/server del libera" frees a server that is in the
registration handshake (`hook_fd` set, not connected yet) and a server that waits
for a scheduled reconnection (`reconnect_start` set): the server is freed and the
registry is empty afterwards, where the command should fail and leave the registry
unchanged. The test of /disconnect on the same fields,
`irc_command_disconnect_one_server`, takes both servers as busy. -/
theorem server_del_during_handshake :
    (server_registering.hook_fd = true
      ∧ Effect.server_free server_registering.name
        ∈ (irc_command_server ops_example none [server_registering]
          ["server".toList, "del".toList, "libera".toList] []).effects
      ∧ (irc_command_server ops_example none [server_registering]
          ["server".toList, "del".toList, "libera".toList] []).irc_servers = [])
    ∧ (server_pending.reconnect_start ≠ 0
      ∧ Effect.server_free server_pending.name
        ∈ (irc_command_server ops_example none [server_pending]
          ["server".toList, "del".toList, "libera".toList] []).effects
      ∧ (irc_command_server ops_example none [server_pending]
          ["server".toList, "del".toList, "libera".toList] []).irc_servers = [])
    ∧ ¬ fully_disconnected server_registering ∧ ¬ fully_disconnected server_pending := by
  decide

/-- C13 on the code: on a disconnected server, when `irc_server_connect` fails
(returns 0), `irc_command_connect_one_server` has called it and still returns 1. -/
theorem connect_one_server_failed_connect :
    (irc_command_connect_one_server (fun s _ => s) (fun s => (0, s))
        (some (server_new "libera".toList)) 0 0).rc = 1
    ∧ (irc_command_connect_one_server (fun s _ => s) (fun s => (0, s))
        (some (server_new "libera".toList)) 0 0).effects
      = [Effect.server_connect "libera".toList] := by
  decide

/-! ## Properties of the command /disconnect -/

theorem disconnect_one_server_accepted
    (irc_server_get_default_msg : CStr → t_irc_server → CStr)
    (irc_server_disconnect : t_irc_server → Int → Int → t_irc_server)
    (s : t_irc_server) (reason : Option CStr) (h : ¬ fully_disconnected s) :
    (irc_command_disconnect_one_server irc_server_get_default_msg irc_server_disconnect
        (some s) reason).server = some (irc_server_disconnect s 0 0)
    ∧ (irc_command_disconnect_one_server irc_server_get_default_msg irc_server_disconnect
        (some s) reason).effects.filter Effect.is_server_disconnect
      = [Effect.server_disconnect s.name 0 0] := by
  have hd2 := h
  unfold fully_disconnected at hd2
  simp only [irc_command_disconnect_one_server, if_neg hd2, quit_server_eq]
  refine ⟨trivial, ?_⟩
  by_cases h1 : 0 < s.reconnect_start <;> by_cases h2 : s.is_connected = 0 <;>
    simp [h1, h2, List.filter_cons, Effect.is_server_disconnect]

theorem disconnect_loop_spec
    (irc_server_get_default_msg : CStr → t_irc_server → CStr)
    (irc_server_disconnect : t_irc_server → Int → Int → t_irc_server)
    (test : t_irc_server → Bool) (htest : ∀ s, test s = true → ¬ fully_disconnected s)
    (reason : Option CStr) (l : List t_irc_server) (ok : Int) :
    (disconnect_loop irc_server_get_default_msg irc_server_disconnect test reason l
        ok).irc_servers
      = l.map (fun s => if test s then irc_server_disconnect s 0 0 else s)
    ∧ (disconnect_loop irc_server_get_default_msg irc_server_disconnect test reason l
        ok).effects
      = ((l.filter test).map (fun s =>
          (irc_command_disconnect_one_server irc_server_get_default_msg
            irc_server_disconnect (some s) reason).effects)).flatten
    ∧ (disconnect_loop irc_server_get_default_msg irc_server_disconnect test reason l
        ok).effects.filter Effect.is_server_disconnect
      = (l.filter test).map (fun s => Effect.server_disconnect s.name 0 0) := by
  induction l generalizing ok with
  | nil => simp [disconnect_loop]
  | cons s next ih =>
    by_cases hs : test s = true
    · obtain ⟨h1, h2⟩ := disconnect_one_server_accepted irc_server_get_default_msg
        irc_server_disconnect s reason (htest s hs)
      obtain ⟨i1, i2, i3⟩ := ih (if (irc_command_disconnect_one_server
        irc_server_get_default_msg irc_server_disconnect (some s) reason).rc = 0 then 0
        else ok)
      simp only [disconnect_loop, hs, if_true, List.map_cons, List.filter_cons,
        List.flatten_cons, List.filter_append]
      exact ⟨by rw [i1, h1]; rfl, by rw [i2], by rw [i3, h2]; rfl⟩
    · have hs2 : test s = false := by simpa using hs
      obtain ⟨i1, i2, i3⟩ := ih ok
      simp only [disconnect_loop, hs2, Bool.false_eq_true, if_false, List.map_cons,
        List.filter_cons]
      exact ⟨by rw [i1], i2, i3⟩

/-- C12: "/disconnect -pending" calls the disconnect operation on exactly the
servers that are not connected and have a reconnection scheduled, in registry
order (so never on a connected server), and "/disconnect -all" on exactly the
servers that are connected, connecting (`hook_connect` or `hook_fd` set) or have a
reconnection scheduled: the effects are those of
`irc_command_disconnect_one_server` on these servers, the calls of
`irc_server_disconnect` are the calls for these servers, and the other servers are
unchanged. -/
theorem disconnect_pending_and_all
    (irc_server_get_default_msg : CStr → t_irc_server → CStr)
    (irc_server_disconnect : t_irc_server → Int → Int → t_irc_server)
    (ptr_server : Option t_irc_server) (irc_servers : List t_irc_server)
    (argv argv_eol : List CStr) :
    (string_caseeq (argv.getD 1 []) "-pending".toList = true →
      (irc_command_disconnect irc_server_get_default_msg irc_server_disconnect ptr_server
          irc_servers argv argv_eol).effects
        = ((irc_servers.filter fun s => decide (disconnect_pending_test s)).map (fun s =>
            (irc_command_disconnect_one_server irc_server_get_default_msg
              irc_server_disconnect (some s)
              (if 2 < argv.length then some (argv_eol.getD 2 []) else none)).effects)).flatten
      ∧ (irc_command_disconnect irc_server_get_default_msg irc_server_disconnect ptr_server
          irc_servers argv argv_eol).effects.filter Effect.is_server_disconnect
        = (irc_servers.filter fun s => decide (disconnect_pending_test s)).map
            (fun s => Effect.server_disconnect s.name 0 0)
      ∧ (irc_command_disconnect irc_server_get_default_msg irc_server_disconnect ptr_server
          irc_servers argv argv_eol).irc_servers
        = irc_servers.map (fun s =>
            if disconnect_pending_test s then irc_server_disconnect s 0 0 else s))
    ∧ (string_caseeq (argv.getD 1 []) "-all".toList = true →
      (irc_command_disconnect irc_server_get_default_msg irc_server_disconnect ptr_server
          irc_servers argv argv_eol).effects
        = ((irc_servers.filter fun s => decide (disconnect_all_test s)).map (fun s =>
            (irc_command_disconnect_one_server irc_server_get_default_msg
              irc_server_disconnect (some s)
              (if 2 < argv.length then some (argv_eol.getD 2 []) else none)).effects)).flatten
      ∧ (irc_command_disconnect irc_server_get_default_msg irc_server_disconnect ptr_server
          irc_servers argv argv_eol).effects.filter Effect.is_server_disconnect
        = (irc_servers.filter fun s => decide (disconnect_all_test s)).map
            (fun s => Effect.server_disconnect s.name 0 0)
      ∧ (irc_command_disconnect irc_server_get_default_msg irc_server_disconnect ptr_server
          irc_servers argv argv_eol).irc_servers
        = irc_servers.map (fun s =>
            if disconnect_all_test s then irc_server_disconnect s 0 0 else s)) := by
  have hlen : ∀ c : CStr, c ≠ [] → string_caseeq (argv.getD 1 []) c = true →
      ¬ argv.length < 2 := by
    intro c hc h1 h2
    have : argv.getD 1 [] = [] := by
      rw [List.getD_eq_getElem?_getD, List.getElem?_eq_none (by omega)]; rfl
    rw [this] at h1
    cases c with
    | nil => exact hc rfl
    | cons x xs => simp [string_caseeq] at h1
  constructor
  · intro h
    have k0 := hlen _ (by decide) h
    have k1 := string_caseeq_const _ _ h "-all".toList (by decide)
    obtain ⟨i1, i2, i3⟩ := disconnect_loop_spec irc_server_get_default_msg
      irc_server_disconnect (fun s => decide (disconnect_pending_test s))
      (fun s hs hf => by
        simp only [decide_eq_true_eq, disconnect_pending_test] at hs
        exact hs.2 hf.2.2.2)
      (if 2 < argv.length then some (argv_eol.getD 2 []) else none) irc_servers 1
    simp only [irc_command_disconnect, if_neg k0, k1, h, if_true, Bool.false_eq_true,
      if_false]
    refine ⟨i2, i3, ?_⟩
    rw [i1]
    simp
  · intro h
    have k0 := hlen _ (by decide) h
    obtain ⟨i1, i2, i3⟩ := disconnect_loop_spec irc_server_get_default_msg
      irc_server_disconnect (fun s => decide (disconnect_all_test s))
      (fun s hs hf => by
        simp only [decide_eq_true_eq, disconnect_all_test] at hs
        obtain ⟨f1, f2, f3, f4⟩ := hf
        rcases hs with hs | hs | hs | hs
        · exact hs f1
        · rw [f2] at hs; exact Bool.false_ne_true hs
        · rw [f3] at hs; exact Bool.false_ne_true hs
        · exact hs f4)
      (if 2 < argv.length then some (argv_eol.getD 2 []) else none) irc_servers 1
    simp only [irc_command_disconnect, if_neg k0, h, if_true]
    refine ⟨i2, i3, ?_⟩
    rw [i1]
    simp

/-- Witness of C12: "/disconnect -pending" on a registry of four servers only
disconnects the server that waits for a reconnection. -/
theorem disconnect_pending_and_all_witness :
    (irc_command_disconnect (fun m _ => m) (fun s _ _ => server_new s.name) none
        registry_four ["disconnect".toList, "-pending".toList] []).effects.filter
          Effect.is_server_disconnect
      = [Effect.server_disconnect "efnet".toList 0 0]
    ∧ (irc_command_disconnect (fun m _ => m) (fun s _ _ => server_new s.name) none
        registry_four ["disconnect".toList, "-all".toList] []).effects.filter
          Effect.is_server_disconnect
      = (registry_four.filter fun s => decide (disconnect_all_test s)).map
          (fun s => Effect.server_disconnect s.name 0 0) :=
  ⟨by decide,
    ((disconnect_pending_and_all (fun m _ => m) (fun s _ _ => server_new s.name) none
      registry_four ["disconnect".toList, "-all".toList] []).2 (by decide)).2.1⟩

/-! ## The own nick in irc_command_mode_nicks -/

/-- The names in the MODE messages are selected nicks, and they are all the
selected nicks, in order, when the call is not refused and every group of selected
nicks fits in the buffer. -/
theorem mode_nicks_names_spec (string_match : CStr → CStr → Bool) (server_nick : CStr)
    (M : Nat) (hM : 1 ≤ M) (prefix_chr : Char) (channel : t_irc_channel) (set mode : CStr)
    (hmode : mode ≠ []) (argv : List CStr)
    (hwf : ∀ n ∈ channel.nicks, n.name ≠ [] ∧ ' ' ∉ n.name) :
    (∀ x ∈ mode_nicks_names_unbounded string_match server_nick M prefix_chr channel set mode argv,
        x ∈ selected_nicks string_match server_nick prefix_chr channel set mode
          (mode_nicks_arguments argv).1)
    ∧ (¬ ((mode_nicks_arguments argv).2 = false ∧ "*".toList ∈ (mode_nicks_arguments argv).1)
        → (∀ g ∈ batches M (selected_nicks string_match server_nick prefix_chr channel set
              mode (mode_nicks_arguments argv).1), (join_sp g).length + 2 < sizeof_nicks)
        → mode_nicks_names_unbounded string_match server_nick M prefix_chr channel set mode argv
          = selected_nicks string_match server_nick prefix_chr channel set mode
              (mode_nicks_arguments argv).1) := by
  obtain ⟨S, hmem, himp, hsent⟩ := mode_nicks_refines string_match server_nick M hM
    prefix_chr channel set mode hmode argv (fun n hn => (hwf n hn).1)
  have hB : ∀ g ∈ batches M S, g ≠ [] ∧ ∀ x ∈ g, ' ' ∉ x := by
    intro g hg
    refine ⟨?_, ?_⟩
    · have := (batch_aux_sizes M [] _ hM (by simp) g hg).1
      intro h; rw [h] at this; simp at this
    · intro x hx
      have hx2 := batch_aux_mem M [] _ g hg x hx
      obtain ⟨n, hn, rfl, _⟩ := selected_nicks_mem _ _ _ _ _ _ _ _ (hmem x (by simpa using hx2))
      exact (hwf n hn).2
  have hnames : mode_nicks_names_unbounded string_match server_nick M prefix_chr channel set mode argv
      = S := by
    unfold mode_nicks_names_unbounded
    rw [hsent, mode_calls_target_lists _ _ _ _ _ hB]
    unfold batches
    rw [batch_aux_flatten]
    simp
  rw [hnames]
  exact ⟨hmem, himp⟩

/-- The own nick and the other nicks in the messages of the function without the
bound of `modes`, for `max_modes >= 1`, a mode that is not empty and channel nicks
whose names are not empty and have no space. -/
theorem mode_nicks_own_nick_unbounded (string_match : CStr → CStr → Bool) (server_nick : CStr)
    (max_modes : Nat) (prefix_chr : Char) (channel : t_irc_channel) (set mode : CStr)
    (argv : List CStr) (hM : 1 ≤ max_modes) (hmode : mode ≠ [])
    (hwf : ∀ n ∈ channel.nicks, n.name ≠ [] ∧ ' ' ∉ n.name) :
    ((set.head? = some '-' ∧ (mode.head? = some 'o' ∨ mode.head? = some 'h')
        ∧ ∀ arg ∈ (mode_nicks_arguments argv).1,
            string_match server_nick arg = true → '*' ∈ arg)
      → server_nick ∉ mode_nicks_names_unbounded string_match server_nick max_modes prefix_chr channel
          set mode argv)
    ∧ (¬ ((mode_nicks_arguments argv).2 = false ∧ "*".toList ∈ (mode_nicks_arguments argv).1)
      → (∀ g ∈ batches max_modes (selected_nicks string_match server_nick prefix_chr channel
            set mode (mode_nicks_arguments argv).1), (join_sp g).length + 2 < sizeof_nicks)
      → mode_nicks_others_included_unbounded string_match server_nick max_modes prefix_chr channel set
          mode argv
        ∧ (¬ (set.head? = some '-' ∧ (mode.head? = some 'o' ∨ mode.head? = some 'h'))
          → ∀ n ∈ channel.nicks,
              (∃ arg ∈ (mode_nicks_arguments argv).1, string_match n.name arg = true) →
              ¬ mode_nicks_already_ok prefix_chr set n →
              n.name ∈ mode_nicks_names_unbounded string_match server_nick max_modes prefix_chr
                channel set mode argv)) := by
  obtain ⟨hsub, heq⟩ := mode_nicks_names_spec string_match server_nick max_modes hM
    prefix_chr channel set mode hmode argv hwf
  constructor
  · rintro ⟨hs, hm, hall⟩ hin
    obtain ⟨n, _, hname, arg, harg, hmatch, hnot, _⟩ :=
      selected_nicks_mem _ _ _ _ _ _ _ _ (hsub _ hin)
    apply hnot
    rw [hname] at hmatch
    have hstar := hall arg harg hmatch
    exact ⟨hs, hm, fun h => by rw [h] at hstar; simp at hstar, hstar, hname.symm⟩
  · intro hyes hfit
    have hin : ∀ n ∈ channel.nicks,
        mode_nicks_selects string_match server_nick prefix_chr set mode
          (mode_nicks_arguments argv).1 n →
        n.name ∈ mode_nicks_names_unbounded string_match server_nick max_modes prefix_chr channel set
          mode argv := by
      intro n hn hsel
      rw [heq hyes hfit]
      unfold selected_nicks
      rw [mem_keep_first]
      refine ⟨?_, by simp⟩
      unfold selected_names
      exact List.mem_map.2 ⟨n, List.mem_filter.2 ⟨hn, by simpa using hsel⟩, rfl⟩
    constructor
    · intro n hn hother ⟨arg, harg, hmatch⟩ hok
      exact hin n hn ⟨arg, harg, hmatch, fun h => hother h.2.2.2.2.symm, hok⟩
    · intro hset n hn ⟨arg, harg, hmatch⟩ hok
      exact hin n hn ⟨arg, harg, hmatch, fun h => hset ⟨h.1, h.2.1⟩, hok⟩

/-! ## Properties of the commands /allserv and /allchan -/

theorem exec_all_matches_iff (string_match : CStr → CStr → Bool) (name : CStr)
    (l : List CStr) :
    exec_all_matches string_match name l = true ↔ ∃ m ∈ l, string_match name m = true := by
  induction l with
  | nil => simp [exec_all_matches]
  | cons mask rest ih =>
    by_cases h : string_match name mask = true
    · simp [exec_all_matches, h]
    · simp [exec_all_matches, h, ih]

theorem exec_all_picked_iff (env : ExecEnv) (inclusive : Int) (str : Option CStr)
    (name : CStr) :
    exec_all_picked env.string_match inclusive (exec_all_split env str) name ≠ 0
      ↔ exec_all_selects env inclusive (exec_all_masks env str) name := by
  unfold exec_all_picked exec_all_selects exec_all_masks
  cases hsplit : exec_all_split env str with
  | none =>
    by_cases hi : inclusive = 0 <;> simp [hi]
  | some l =>
    have hm := exec_all_matches_iff env.string_match name l
    by_cases hmatch : exec_all_matches env.string_match name l = true
    · have hex := hm.1 hmatch
      by_cases hi : inclusive = 0
      · simp only [hmatch, hi, if_true, ne_eq, not_true_eq_false, if_false, Option.getD_some]
        simp only [not_true_eq_false, false_iff, not_forall]
        obtain ⟨m, hm1, hm2⟩ := hex
        exact ⟨m, hm1, by simp [hm2]⟩
      · simp only [hmatch, hi, if_true, ne_eq, not_false_eq_true, Option.getD_some]
        simp only [one_ne_zero, not_false_eq_true, true_iff]
        exact hex
    · have hnex : ¬ ∃ m ∈ l, env.string_match name m = true := fun h => hmatch (hm.2 h)
      by_cases hi : inclusive = 0
      · simp only [hmatch, hi, Bool.false_eq_true, if_false, ne_eq, not_true_eq_false,
          Option.getD_some]
        simp only [one_ne_zero, not_false_eq_true, true_iff]
        intro m hm1
        by_contra hc
        exact hnex ⟨m, hm1, by simpa using hc⟩
      · simp only [hmatch, hi, Bool.false_eq_true, if_false, ne_eq, not_false_eq_true,
          if_true, Option.getD_some]
        simp only [not_true_eq_false, false_iff]
        exact hnex

theorem exec_all_servers_buffers_eq (env : ExecEnv) (inclusive : Int) (str : Option CStr)
    (l : List t_irc_server) :
    exec_all_servers_buffers env inclusive (exec_all_split env str) l
      = (l.filter fun s => decide (s.is_connected ≠ 0
          ∧ exec_all_selects env inclusive (exec_all_masks env str) s.name)).map
            env.server_full_name := by
  induction l with
  | nil => rfl
  | cons s next ih =>
    have hp := exec_all_picked_iff env inclusive str s.name
    by_cases hc : s.is_connected ≠ 0
    · by_cases hsel : exec_all_selects env inclusive (exec_all_masks env str) s.name
      · simp only [exec_all_servers_buffers, if_pos hc, if_pos (hp.2 hsel), ih,
          List.filter_cons]
        simp [hc, hsel]
      · simp only [exec_all_servers_buffers, if_pos hc, if_neg (fun h => hsel (hp.1 h)), ih,
          List.filter_cons]
        simp [hsel]
    · simp only [exec_all_servers_buffers, if_neg hc, ih, List.filter_cons]
      simp [hc]

/-- C16: for a command that is not empty, `irc_command_exec_all_servers` selects,
in registry order, exactly the connected servers whose name matches at least one
mask of the list when `inclusive` is set (-include), and exactly the connected
servers whose name matches no mask when it is not set (-exclude), that is every
connected server when there is no list; a server that is not connected is never
selected. -/
theorem exec_all_servers_selection (env : ExecEnv) (irc_servers : List t_irc_server)
    (inclusive : Int) (str_servers : Option CStr) (command : CStr) (hcmd : command ≠ []) :
    (irc_command_exec_all_servers env irc_servers inclusive str_servers
        (some command)).list_buffers
      = (irc_servers.filter fun s => decide (s.is_connected ≠ 0
          ∧ exec_all_selects env inclusive (exec_all_masks env str_servers) s.name)).map
            env.server_full_name
    ∧ (inclusive = 0 → exec_all_masks env str_servers = [] →
        (irc_command_exec_all_servers env irc_servers inclusive str_servers
          (some command)).list_buffers
        = (irc_servers.filter fun s => decide (s.is_connected ≠ 0)).map
            env.server_full_name) := by
  have h1 : (irc_command_exec_all_servers env irc_servers inclusive str_servers
      (some command)).list_buffers
      = exec_all_servers_buffers env inclusive (exec_all_split env str_servers)
        irc_servers := by
    cases command with
    | nil => exact absurd rfl hcmd
    | cons c cs => rfl
  rw [h1, exec_all_servers_buffers_eq]
  refine ⟨rfl, ?_⟩
  intro hi hm
  congr 1
  apply List.filter_congr
  intro s _
  simp [exec_all_selects, hi, hm]

/-- Witness of C16: "/allserv -include=lib*,x whois me" on a registry with the
connected servers "libera", "oftc" and "liberty" and the server "ircnet" that is
not connected. -/
theorem exec_all_servers_selection_witness :
    (irc_command_allserv env_example registry_all
        ["allserv".toList, "-include=lib*,x".toList, "whois".toList, "me".toList]
        ["allserv -include=lib*,x whois me".toList, "-include=lib*,x whois me".toList,
          "whois me".toList, "me".toList]).exec.list_buffers
      = ["irc.server.libera".toList, "irc.server.liberty".toList]
    ∧ (irc_command_exec_all_servers env_example registry_all 1 (some "lib*,x".toList)
        (some "whois me".toList)).list_buffers
      = (registry_all.filter fun s => decide (s.is_connected ≠ 0
          ∧ exec_all_selects env_example 1
            (exec_all_masks env_example (some "lib*,x".toList)) s.name)).map
            env_example.server_full_name :=
  ⟨by decide,
    (exec_all_servers_selection env_example registry_all 1 (some "lib*,x".toList)
      "whois me".toList (by decide)).1⟩

theorem exec_all_channels_of_eq (env : ExecEnv) (channel_type inclusive : Int)
    (str : Option CStr) (s : t_irc_server) (l : List t_irc_channel) :
    exec_all_channels_of env channel_type inclusive (exec_all_split env str) s l
      = (l.filter fun c => decide (c.type = channel_type
          ∧ exec_all_selects env inclusive (exec_all_masks env str) c.name)).map
            (env.channel_full_name s) := by
  induction l with
  | nil => rfl
  | cons c next ih =>
    have hp := exec_all_picked_iff env inclusive str c.name
    by_cases hc : c.type = channel_type
    · by_cases hsel : exec_all_selects env inclusive (exec_all_masks env str) c.name
      · simp only [exec_all_channels_of, if_pos hc, if_pos (hp.2 hsel), ih, List.filter_cons]
        simp [hc, hsel]
      · simp only [exec_all_channels_of, if_pos hc, if_neg (fun h => hsel (hp.1 h)), ih,
          List.filter_cons]
        simp [hsel]
    · simp only [exec_all_channels_of, if_neg hc, ih, List.filter_cons]
      simp [hc]

theorem exec_all_channels_buffers_eq (env : ExecEnv) (server : Option t_irc_server)
    (channel_type inclusive : Int) (str : Option CStr) (l : List t_irc_server) :
    exec_all_channels_buffers env server channel_type inclusive (exec_all_split env str) l
      = ((l.filter fun s => decide ((server = none ∨ server = some s)
            ∧ s.is_connected ≠ 0)).map fun s =>
          (s.channels.filter fun c => decide (c.type = channel_type
            ∧ exec_all_selects env inclusive (exec_all_masks env str) c.name)).map
              (env.channel_full_name s)).flatten := by
  induction l with
  | nil => rfl
  | cons s next ih =>
    by_cases hs : server = none ∨ server = some s
    · by_cases hc : s.is_connected ≠ 0
      · simp only [exec_all_channels_buffers, if_pos hs, if_pos hc, ih, List.filter_cons,
          exec_all_channels_of_eq]
        simp [hs, hc]
      · simp only [exec_all_channels_buffers, if_pos hs, if_neg hc, ih, List.filter_cons]
        simp [hc]
    · simp only [exec_all_channels_buffers, if_neg hs, ih, List.filter_cons]
      simp [hs]

/-- C17: for a command that is not empty, `irc_command_exec_all_channels` selects,
in server order then channel order, exactly the channels of the type asked, on the
connected servers (only on the server given when one is given, as with -current),
whose name matches at least one mask when `inclusive` is set (-include) or matches
no mask when it is not set (-exclude); channels of another type and channels of
servers that are not connected are never selected. -/
theorem exec_all_channels_selection (env : ExecEnv) (irc_servers : List t_irc_server)
    (server : Option t_irc_server) (channel_type inclusive : Int)
    (str_channels : Option CStr) (command : CStr) (hcmd : command ≠ []) :
    (irc_command_exec_all_channels env irc_servers server channel_type inclusive
        str_channels (some command)).list_buffers
      = ((irc_servers.filter fun s => decide ((server = none ∨ server = some s)
            ∧ s.is_connected ≠ 0)).map fun s =>
          (s.channels.filter fun c => decide (c.type = channel_type
            ∧ exec_all_selects env inclusive (exec_all_masks env str_channels) c.name)).map
              (env.channel_full_name s)).flatten := by
  have h1 : (irc_command_exec_all_channels env irc_servers server channel_type inclusive
      str_channels (some command)).list_buffers
      = exec_all_channels_buffers env server channel_type inclusive
        (exec_all_split env str_channels) irc_servers := by
    cases command with
    | nil => exact absurd rfl hcmd
    | cons c cs => rfl
  rw [h1, exec_all_channels_buffers_eq]

/-- Witness of C17: "/allchan -exclude=#linux* me hi" on three connected servers and
one server that is not connected, with a private buffer on the first server. -/
theorem exec_all_channels_selection_witness :
    (irc_command_allchan env_example none registry_all
        ["allchan".toList, "-exclude=#linux*".toList, "me".toList, "hi".toList]
        ["allchan -exclude=#linux* me hi".toList, "-exclude=#linux* me hi".toList,
          "me hi".toList, "hi".toList]).exec.list_buffers
      = ["irc.libera.#weechat".toList, "irc.oftc.#debian".toList, "irc.liberty.#lean".toList]
    ∧ (irc_command_exec_all_channels env_example registry_all none IRC_CHANNEL_TYPE_CHANNEL 0
        (some "#linux*".toList) (some "me hi".toList)).list_buffers
      = ((registry_all.filter fun s => decide (((none : Option t_irc_server) = none
            ∨ (none : Option t_irc_server) = some s) ∧ s.is_connected ≠ 0)).map fun s =>
          (s.channels.filter fun c => decide (c.type = IRC_CHANNEL_TYPE_CHANNEL
            ∧ exec_all_selects env_example 0
              (exec_all_masks env_example (some "#linux*".toList)) c.name)).map
              (env_example.channel_full_name s)).flatten :=
  ⟨by decide,
    exec_all_channels_selection env_example registry_all none IRC_CHANNEL_TYPE_CHANNEL 0
      (some "#linux*".toList) "me hi".toList (by decide)⟩

/-! ## Properties of the commands /kickban and /whois -/

theorem cut_at_append (c : Char) (a b : CStr) (ha : c ∉ a) :
    cut_at c (a ++ c :: b) = a := by
  induction a with
  | nil => simp [cut_at]
  | cons x xs ih =>
    have hx : (x != c) = true := by
      simpa using fun h : x = c => ha (by simp [h])
    have hxs : c ∉ xs := fun h => ha (by simp [h])
    have := ih hxs
    simp only [cut_at] at this ⊢
    rw [List.cons_append, List.takeWhile_cons, hx, this]
    rfl

theorem cut_at_append_other (c d : Char) (a b : CStr) (ha : c ∉ a) (hd : d ≠ c) :
    cut_at c (a ++ d :: b) = a ++ d :: cut_at c b := by
  induction a with
  | nil =>
    have hd2 : (d != c) = true := by simpa using hd
    simp only [cut_at, List.nil_append]
    rw [List.takeWhile_cons, hd2]
    rfl
  | cons x xs ih =>
    have hx : (x != c) = true := by
      simpa using fun h : x = c => ha (by simp [h])
    have hxs : c ∉ xs := fun h => ha (by simp [h])
    have := ih hxs
    simp only [cut_at] at this ⊢
    rw [List.cons_append, List.takeWhile_cons, hx, this]
    rfl

theorem after_first_append (c : Char) (a b : CStr) (ha : c ∉ a) :
    after_first c (a ++ c :: b) = b := by
  induction a with
  | nil => simp [after_first, List.dropWhile]
  | cons x xs ih =>
    have hx : (x != c) = true := by
      simpa using fun h : x = c => ha (by simp [h])
    have hxs : c ∉ xs := fun h => ha (by simp [h])
    have := ih hxs
    simp only [after_first] at this ⊢
    rw [List.cons_append, List.dropWhile_cons, hx]
    exact this

theorem kick_channel_line (irc_server_get_default_msg : CStr → t_irc_server → CStr → CStr)
    (server : t_irc_server) (channel_name nick_name : CStr) (message : Option CStr) :
    (irc_command_kick_channel irc_server_get_default_msg server channel_name nick_name
        message).map SendfCall.line
      = ["KICK ".toList ++ channel_name ++ " ".toList ++ nick_name
          ++ (if kick_text server message = [] then []
            else " :".toList
              ++ irc_server_get_default_msg (kick_text server message) server channel_name)] := by
  unfold irc_command_kick_channel kick_text
  cases message with
  | some a =>
    cases a with
    | cons c cs => simp [SendfCall.line, format_s]
    | nil =>
      cases hk : server.msg_kick with
      | none => simp [SendfCall.line, format_s]
      | some b => cases b <;> simp [SendfCall.line, format_s]
  | none =>
    cases hk : server.msg_kick with
    | none => simp [SendfCall.line, format_s]
    | some b => cases b <;> simp [SendfCall.line, format_s]

/-- C18 (amended): for a /kickban argument of the form nick!rest, where nick has
neither '!' nor '@' and is not "*" and rest has a '@', on a connected server: the
ban "MODE channel +b *!rest" (the mask with its nick part replaced by "*") is sent
first, then the KICK of nick, with the comment or the default kick message. -/
theorem kickban_mask_ban_then_kick
    (irc_server_get_default_msg : CStr → t_irc_server → CStr → CStr)
    (irc_channel_is_channel : t_irc_server → CStr → Bool)
    (irc_channel_search : t_irc_server → CStr → Option t_irc_channel)
    (irc_nick_search : t_irc_channel → CStr → Option t_irc_nick)
    (irc_nick_default_ban_mask : t_irc_nick → Option CStr)
    (server : t_irc_server) (ptr_channel : Option t_irc_channel)
    (argv argv_eol : List CStr) (pos_channel nick rest : CStr) (pos_comment : Option CStr)
    (hconn : server.is_connected ≠ 0)
    (hargs : kickban_args irc_channel_is_channel server ptr_channel argv argv_eol
      = Except.ok (pos_channel, nick ++ '!' :: rest, pos_comment))
    (h1 : '!' ∉ nick) (h2 : '@' ∉ nick) (h3 : nick ≠ "*".toList) (h4 : '@' ∈ rest) :
    (irc_command_kickban irc_server_get_default_msg irc_channel_is_channel
        irc_channel_search irc_nick_search irc_nick_default_ban_mask (some server) ptr_channel
        argv argv_eol).sent
      = ⟨IRC_SERVER_SEND_OUTQ_PRIO_HIGH, "MODE %s +b %s".toList,
          [pos_channel, mask_nick_replaced (nick ++ '!' :: rest) nick]⟩
        :: irc_command_kick_channel irc_server_get_default_msg server pos_channel nick
          pos_comment
    ∧ (irc_command_kickban irc_server_get_default_msg irc_channel_is_channel
        irc_channel_search irc_nick_search irc_nick_default_ban_mask (some server) ptr_channel
        argv argv_eol).sent.map SendfCall.line
      = ["MODE ".toList ++ pos_channel ++ " +b *!".toList ++ rest,
          "KICK ".toList ++ pos_channel ++ " ".toList ++ nick
            ++ (if kick_text server pos_comment = [] then []
              else " :".toList
                ++ irc_server_get_default_msg (kick_text server pos_comment) server
                  pos_channel)] := by
  have hnick : cut_at '!' (cut_at '@' (nick ++ '!' :: rest)) = nick := by
    rw [cut_at_append_other '@' '!' nick rest h2 (by decide), cut_at_append '!' nick _ h1]
  have hafter : after_first '!' (nick ++ '!' :: rest) = rest := after_first_append '!' nick rest h1
  have hrepl : mask_nick_replaced (nick ++ '!' :: rest) nick = "*!".toList ++ rest := by
    simp [mask_nick_replaced]
  have hsent : (irc_command_kickban irc_server_get_default_msg irc_channel_is_channel
      irc_channel_search irc_nick_search irc_nick_default_ban_mask (some server) ptr_channel
      argv argv_eol).sent
      = ⟨IRC_SERVER_SEND_OUTQ_PRIO_HIGH, "MODE %s +b %s".toList,
          [pos_channel, mask_nick_replaced (nick ++ '!' :: rest) nick]⟩
        :: irc_command_kick_channel irc_server_get_default_msg server pos_channel nick
          pos_comment := by
    have hc : ¬ server.is_connected = 0 := hconn
    simp only [irc_command_kickban, if_neg hc, hargs, kickban_send, hnick, if_neg h3, hafter,
      hrepl]
    have hat : '@' ∈ nick ++ '!' :: rest := by simp [h4]
    have hbang : '!' ∈ nick ++ '!' :: rest := by simp
    rw [if_pos hat, if_pos hbang]
    rfl
  refine ⟨hsent, ?_⟩
  rw [hsent, List.map_cons, kick_channel_line, hrepl]
  simp [SendfCall.line, format_s]

/-- Witness of C18 (amended): "/kickban toto!*@host.com" in the buffer of the
channel "#weechat" bans "*!*@host.com" and then kicks "toto". -/
theorem kickban_mask_ban_then_kick_witness :
    (irc_command_kickban (fun m _ _ => m) (fun _ a => a.head? == some '#')
        (fun _ _ => none) (fun _ _ => none) (fun _ => none) (some server_me)
        (some channel_seven) ["kickban".toList, "toto!*@host.com".toList]
        ["kickban toto!*@host.com".toList, "toto!*@host.com".toList]).sent.map SendfCall.line
      = ["MODE ".toList ++ "#weechat".toList ++ " +b *!".toList ++ "*@host.com".toList,
          "KICK ".toList ++ "#weechat".toList ++ " ".toList ++ "toto".toList
            ++ (if kick_text server_me none = [] then []
              else " :".toList
                ++ (fun (m : CStr) (_ : t_irc_server) (_ : CStr) => m)
                  (kick_text server_me none) server_me "#weechat".toList)] :=
  (kickban_mask_ban_then_kick (fun m _ _ => m) (fun _ a => a.head? == some '#')
    (fun _ _ => none) (fun _ _ => none) (fun _ => none) server_me (some channel_seven)
    ["kickban".toList, "toto!*@host.com".toList]
    ["kickban toto!*@host.com".toList, "toto!*@host.com".toList]
    "#weechat".toList "toto".toList "*@host.com".toList none
    (by decide) rfl (by decide) (by decide) (by decide) (by decide)).2

/-- C18 fails as stated: for the argument "toto@host.com", which has a '@', the
nick kicked is "toto" but the ban is "*!toto@host.com", not the mask with its nick
part replaced by "*"; and for "*!*@host.com" nothing is sent. -/
theorem kickban_mask_counterexample :
    ((irc_command_kickban (fun m _ _ => m) (fun _ a => a.head? == some '#')
          (fun _ _ => none) (fun _ _ => none) (fun _ => none) (some server_me)
          (some channel_seven) ["kickban".toList, "toto@host.com".toList]
          ["kickban toto@host.com".toList, "toto@host.com".toList]).sent.map SendfCall.line
        = ["MODE #weechat +b *!toto@host.com".toList, "KICK #weechat toto".toList]
      ∧ mask_nick_replaced "toto@host.com".toList "toto".toList = "*@host.com".toList)
    ∧ (irc_command_kickban (fun m _ _ => m) (fun _ a => a.head? == some '#')
          (fun _ _ => none) (fun _ _ => none) (fun _ => none) (some server_me)
          (some channel_seven) ["kickban".toList, "*!*@host.com".toList]
          ["kickban *!*@host.com".toList, "*!*@host.com".toList]).sent = [] := by
  decide

/-- C19: on a connected server. With the option whois_double_nick enabled, /whois
with a single argument without comma sends "WHOIS nick nick"; with more than one
argument, or a comma in the arguments, it sends "WHOIS arguments", the arguments
unchanged and not doubled; with the option disabled the line is always "WHOIS"
followed by one target, never doubled. -/
theorem whois_double_nick (double_nick : Int) (server : t_irc_server)
    (ptr_channel : Option t_irc_channel) (argv argv_eol : List CStr)
    (hconn : server.is_connected ≠ 0) :
    (double_nick ≠ 0 → argv.length = 2 → ',' ∉ argv_eol.getD 1 [] →
      (irc_command_whois double_nick (some server) ptr_channel argv argv_eol).sent.map
          SendfCall.line
        = ["WHOIS ".toList ++ argv.getD 1 [] ++ " ".toList ++ argv.getD 1 []])
    ∧ ((2 < argv.length ∨ (1 < argv.length ∧ ',' ∈ argv_eol.getD 1 [])) →
      (irc_command_whois double_nick (some server) ptr_channel argv argv_eol).sent.map
          SendfCall.line
        = ["WHOIS ".toList ++ argv_eol.getD 1 []])
    ∧ (double_nick = 0 →
      ∃ target, (irc_command_whois double_nick (some server) ptr_channel argv
          argv_eol).sent
        = [⟨IRC_SERVER_SEND_OUTQ_PRIO_HIGH, "WHOIS %s%s%s".toList, [target, [], []]⟩]
        ∧ (irc_command_whois double_nick (some server) ptr_channel argv argv_eol).sent.map
            SendfCall.line
          = ["WHOIS ".toList ++ target]) := by
  have hc : ¬ server.is_connected = 0 := hconn
  refine ⟨?_, ?_, ?_⟩
  · intro hd hlen hcomma
    have h1 : 1 < argv.length := by omega
    have h2 : ¬ (2 < argv.length ∨ ',' ∈ argv_eol.getD 1 []) := by
      rintro (h | h)
      · omega
      · exact hcomma h
    simp only [irc_command_whois, if_neg hc, if_pos h1, if_neg h2, if_pos hd, List.map_cons,
      List.map_nil]
    simp [SendfCall.line, format_s]
  · intro h
    have h1 : 1 < argv.length := by
      rcases h with h | h
      · omega
      · exact h.1
    have h2 : 2 < argv.length ∨ ',' ∈ argv_eol.getD 1 [] := by
      rcases h with h | h
      · exact Or.inl h
      · exact Or.inr h.2
    simp only [irc_command_whois, if_neg hc, if_pos h1, if_pos h2, List.map_cons,
      List.map_nil]
    simp [SendfCall.line, format_s]
  · intro hd
    subst hd
    by_cases h1 : 1 < argv.length
    · by_cases h2 : 2 < argv.length ∨ ',' ∈ argv_eol.getD 1 []
      · refine ⟨argv_eol.getD 1 [], ?_, ?_⟩ <;>
          simp only [irc_command_whois, if_neg hc, if_pos h1, if_pos h2] <;>
          simp [SendfCall.line, format_s]
      · refine ⟨argv.getD 1 [], ?_, ?_⟩ <;>
          simp only [irc_command_whois, if_neg hc, if_pos h1, if_neg h2] <;>
          simp [SendfCall.line, format_s]
    · cases ptr_channel with
      | none =>
        refine ⟨server.nick, ?_, ?_⟩ <;>
          simp only [irc_command_whois, if_neg hc, if_neg h1] <;>
          simp [SendfCall.line, format_s]
      | some channel =>
        by_cases h3 : channel.type = IRC_CHANNEL_TYPE_PRIVATE
        · refine ⟨channel.name, ?_, ?_⟩ <;>
            simp only [irc_command_whois, if_neg hc, if_neg h1, if_pos h3] <;>
            simp [SendfCall.line, format_s]
        · refine ⟨server.nick, ?_, ?_⟩ <;>
            simp only [irc_command_whois, if_neg hc, if_neg h1, if_neg h3] <;>
            simp [SendfCall.line, format_s]

/-- Witness of C19: with the option enabled, "/whois toto" sends "WHOIS toto toto"
and "/whois toto,titi" sends "WHOIS toto,titi". -/
theorem whois_double_nick_witness :
    (irc_command_whois 1 (some server_me) (some channel_seven)
        ["whois".toList, "toto".toList] ["whois toto".toList, "toto".toList]).sent.map
          SendfCall.line
      = ["WHOIS ".toList ++ "toto".toList ++ " ".toList ++ "toto".toList]
    ∧ (irc_command_whois 1 (some server_me) (some channel_seven)
        ["whois".toList, "toto,titi".toList]
        ["whois toto,titi".toList, "toto,titi".toList]).sent.map SendfCall.line
      = ["WHOIS ".toList ++ "toto,titi".toList] :=
  ⟨(whois_double_nick 1 server_me (some channel_seven) ["whois".toList, "toto".toList]
      ["whois toto".toList, "toto".toList] (by decide)).1 (by decide) (by decide) (by decide),
    (whois_double_nick 1 server_me (some channel_seven) ["whois".toList, "toto,titi".toList]
      ["whois toto,titi".toList, "toto,titi".toList] (by decide)).2.1
      (Or.inr ⟨by decide, by decide⟩)⟩

/-! ## Properties of "/server list" -/

theorem string_casestr_iff (name text : CStr) :
    string_casestr name text = true ↔ name_contains name text := by
  unfold string_casestr name_contains
  rw [List.any_eq_true, List.infix_iff_prefix_suffix]
  constructor
  · rintro ⟨t, ht, hp⟩
    exact ⟨t, List.isPrefixOf_iff_prefix.1 hp, (List.mem_tails _ _).1 ht⟩
  · rintro ⟨t, hp, hs⟩
    exact ⟨t, (List.mem_tails _ _).2 hs, List.isPrefixOf_iff_prefix.2 hp⟩

theorem server_list_loop_spec (server_name : CStr) (detailed_list : Int)
    (l : List t_irc_server) (found : Int) :
    (server_list_loop server_name detailed_list l found).2.filter Effect.is_display_server
      = (l.filter fun s => decide (name_contains s.name server_name)).map
          (fun s => Effect.display_server s.name detailed_list)
    ∧ ((server_list_loop server_name detailed_list l found).1 = 0
      ↔ (found = 0 ∧ ∀ s ∈ l, ¬ name_contains s.name server_name))
    ∧ (∀ e ∈ (server_list_loop server_name detailed_list l found).2,
        e ≠ Effect.printf "No server found with \"%s\"") := by
  induction l generalizing found with
  | nil => simp [server_list_loop]
  | cons s next ih =>
    by_cases hs : string_casestr s.name server_name = true
    · have hc := (string_casestr_iff s.name server_name).1 hs
      obtain ⟨i1, i2, i3⟩ := ih 1
      simp only [server_list_loop, hs, if_true, List.filter_append, List.filter_cons]
      refine ⟨?_, ?_, ?_⟩
      · rw [i1]
        by_cases hf : found = 0 <;> simp [hf, hc, Effect.is_display_server]
      · rw [i2]
        constructor
        · intro h
          exact absurd h.1 one_ne_zero
        · intro h
          exact absurd hc (h.2 s (by simp))
      · intro e he
        rcases List.mem_append.1 he with he | he
        · by_cases hf : found = 0
          · simp only [hf, if_true, List.mem_cons, List.mem_singleton, List.mem_nil_iff,
              or_false] at he
            rcases he with rfl | rfl <;> simp
          · simp [hf] at he
        · rcases List.mem_cons.1 he with rfl | he
          · simp
          · exact i3 e he
    · have hc : ¬ name_contains s.name server_name :=
        fun h => hs ((string_casestr_iff s.name server_name).2 h)
      have hs2 : string_casestr s.name server_name = false := by simpa using hs
      obtain ⟨i1, i2, i3⟩ := ih found
      simp only [server_list_loop, hs2, Bool.false_eq_true, if_false, List.filter_cons]
      refine ⟨?_, ?_, i3⟩
      · rw [i1]
        simp [hc]
      · rw [i2]
        simp [hc]

/-- C20 (amended): for a search text that is neither "list" nor "listfull" (ignoring
case), "/server list text" and "/server listfull text" display, in registry order,
exactly the servers whose name contains the text as a substring ignoring case, tell
that no server was found if and only if there is none, and leave the registry
unchanged. -/
theorem server_list_by_name (ops : ServerOps) (ptr_server : Option t_irc_server)
    (irc_servers : List t_irc_server) (cmd sub text : CStr) (argv_eol : List CStr)
    (hsub : string_caseeq sub "list".toList = true
      ∨ string_caseeq sub "listfull".toList = true)
    (h1 : string_caseeq text "list".toList = false)
    (h2 : string_caseeq text "listfull".toList = false) :
    (irc_command_server ops ptr_server irc_servers [cmd, sub, text] argv_eol).effects.filter
        Effect.is_display_server
      = (irc_servers.filter fun s => decide (name_contains s.name text)).map
          (fun s => Effect.display_server s.name
            (if string_caseeq sub "listfull".toList then 1 else 0))
    ∧ (Effect.printf "No server found with \"%s\""
        ∈ (irc_command_server ops ptr_server irc_servers [cmd, sub, text] argv_eol).effects
      ↔ ∀ s ∈ irc_servers, ¬ name_contains s.name text)
    ∧ (irc_command_server ops ptr_server irc_servers [cmd, sub, text] argv_eol).irc_servers
      = irc_servers := by
  have hbranch : irc_command_server ops ptr_server irc_servers [cmd, sub, text] argv_eol
      = irc_command_server_list irc_servers [cmd, sub, text] := by
    have : string_caseeq sub "list".toList = true ∨ string_caseeq sub "listfull".toList = true :=
      hsub
    simp only [irc_command_server, List.getD_cons_succ, List.getD_cons_zero]
    rw [if_pos (Or.inr (by simpa using this))]
  have hargs : server_list_args [sub, text] (none, 0)
      = (some text, if string_caseeq sub "listfull".toList then 1 else 0) := by
    rcases hsub with hs | hs
    · have hf := string_caseeq_const _ _ hs "listfull".toList (by decide)
      simp only [server_list_args, hs, hf, h1, h2, if_true, Bool.false_eq_true, if_false]
    · have hl := string_caseeq_const _ _ hs "list".toList (by decide)
      simp only [server_list_args, hs, hl, h1, h2, if_true, Bool.false_eq_true, if_false]
  obtain ⟨i1, i2, i3⟩ := server_list_loop_spec text
    (if string_caseeq sub "listfull".toList then 1 else 0) irc_servers 0
  rw [hbranch]
  simp only [irc_command_server_list, List.drop_succ_cons, List.drop_zero, hargs]
  refine ⟨?_, ?_, trivial⟩
  · rw [List.filter_append, i1]
    split <;> simp [Effect.is_display_server]
  · rw [List.mem_append]
    constructor
    · rintro (h | h)
      · exact absurd rfl (i3 _ h)
      · by_cases hz : (server_list_loop text
            (if string_caseeq sub "listfull".toList then 1 else 0) irc_servers 0).1 = 0
        · exact (i2.1 hz).2
        · rw [if_neg hz] at h
          simp at h
    · intro h
      right
      rw [if_pos (i2.2 ⟨rfl, h⟩)]
      simp

/-- Witness of C20 (amended): "/server list LIB" on the servers "libera", "MyList"
and "liberty" displays "libera" and "liberty". -/
theorem server_list_by_name_witness :
    (irc_command_server ops_example none registry_list
        ["server".toList, "list".toList, "LIB".toList] []).effects.filter
          Effect.is_display_server
      = [Effect.display_server "libera".toList 0, Effect.display_server "liberty".toList 0]
    ∧ (irc_command_server ops_example none registry_list
        ["server".toList, "list".toList, "LIB".toList] []).effects.filter
          Effect.is_display_server
      = (registry_list.filter fun s => decide (name_contains s.name "LIB".toList)).map
          (fun s => Effect.display_server s.name
            (if string_caseeq "list".toList "listfull".toList then 1 else 0)) :=
  ⟨by decide,
    (server_list_by_name ops_example none registry_list "server".toList "list".toList
      "LIB".toList [] (Or.inl (by decide)) (by decide) (by decide)).1⟩

/-- C20 fails as stated: with the search text "list", "/server list list" displays
all the servers, also "libera" and "liberty" whose names do not contain "list". -/
theorem server_list_counterexample :
    (irc_command_server ops_example none registry_list
        ["server".toList, "list".toList, "list".toList] []).effects.filter
          Effect.is_display_server
      = [Effect.display_server "libera".toList 0, Effect.display_server "MyList".toList 0,
          Effect.display_server "liberty".toList 0]
    ∧ (registry_list.filter fun s => decide (name_contains s.name "list".toList)).map
          (fun s => Effect.display_server s.name 0)
      = [Effect.display_server "MyList".toList 0] := by
  decide

/-! ## Nicks whose mode is already as asked -/

/-- No message of the function without the bound of `modes` names a channel nick
whose state is already as asked, when the mode has a prefix char. -/
theorem mode_nicks_skips_already_ok_unbounded (string_match : CStr → CStr → Bool)
    (server_nick : CStr) (max_modes : Nat) (prefix_chr : Char) (channel : t_irc_channel)
    (set mode : CStr) (argv : List CStr) (hM : 1 ≤ max_modes) (hmode : mode ≠ [])
    (hwf : ∀ n ∈ channel.nicks, n.name ≠ [] ∧ ' ' ∉ n.name)
    (hnd : (channel.nicks.map t_irc_nick.name).Nodup) (hpre : prefix_chr ≠ ' ') :
    ∀ c ∈ (irc_command_mode_nicks_unbounded string_match server_nick max_modes prefix_chr channel set
        mode argv).sent,
      ∀ n ∈ channel.nicks, n.name ∈ c.target_list →
        ¬ (set.head? = some '+' ∧ prefix_chr ∈ n.prefixes)
        ∧ ¬ (set.head? = some '-' ∧ prefix_chr ∉ n.prefixes) := by
  intro c hc n hn hin
  have hnames : n.name ∈ mode_nicks_names_unbounded string_match server_nick max_modes prefix_chr
      channel set mode argv := by
    unfold mode_nicks_names_unbounded
    exact List.mem_flatten.2 ⟨c.target_list, List.mem_map.2 ⟨c, hc, rfl⟩, hin⟩
  obtain ⟨m, hm, hname, _, _, _, _, hok⟩ := selected_nicks_mem _ _ _ _ _ _ _ _
    ((mode_nicks_names_spec string_match server_nick max_modes hM prefix_chr channel set mode
      hmode argv hwf).1 _ hnames)
  have hmn : m = n := List.inj_on_of_nodup_map hnd hm hn hname
  subst hmn
  constructor
  · intro h
    exact hok ⟨hpre, Or.inl h⟩
  · intro h
    exact hok ⟨hpre, Or.inr h⟩

/-! ## Properties of irc_command_away_server -/

/-- The result of `irc_command_away_server` with a message on a connected
server. -/
theorem away_server_set_connected (env : AwayEnv) (server : t_irc_server) (message : CStr)
    (reset_unread_marker : Int) (hc : server.is_connected ≠ 0) :
    (irc_command_away_server env (some server) (some message) reset_unread_marker).1
        = some (env.irc_server_set_away
            { server with
              away_message := some message
              is_away := 1
              away_time := env.time_now } server.nick 1)
    ∧ (irc_command_away_server env (some server) (some message) reset_unread_marker).2.head?
        = some (Effect.sendf server.name
            ⟨IRC_SERVER_SEND_OUTQ_PRIO_HIGH, "AWAY :%s".toList, [message]⟩) := by
  simp only [irc_command_away_server, ne_eq, hc, not_false_eq_true, if_true,
    List.singleton_append, List.cons_append, List.append_assoc, List.head?_cons, and_self]

/-- The result of `irc_command_away_server` without message on a connected
server. -/
theorem away_server_unset_connected (env : AwayEnv) (server : t_irc_server)
    (reset_unread_marker : Int) (hc : server.is_connected ≠ 0) :
    (irc_command_away_server env (some server) none reset_unread_marker).1
        = some (env.irc_server_set_away
            { server with
              away_message := none
              is_away := 0
              away_time := 0 } server.nick 0)
    ∧ (irc_command_away_server env (some server) none reset_unread_marker).2.head?
        = some (Effect.sendf server.name
            ⟨IRC_SERVER_SEND_OUTQ_PRIO_HIGH, "AWAY".toList, []⟩) := by
  by_cases ht : server.away_time = 0
  · simp only [irc_command_away_server, ne_eq, hc, not_false_eq_true, if_true, ht,
      not_true_eq_false, if_false, List.singleton_append, List.cons_append, List.append_assoc,
      List.head?_cons, and_true]
  · simp only [irc_command_away_server, ne_eq, hc, not_false_eq_true, if_true, ht,
      List.singleton_append, List.cons_append, List.append_assoc, List.head?_cons, and_self]

/-- C23: `irc_command_away_server` on a server, where `irc_server_set_away` leaves
the fields `is_away`, `away_time` and `away_message` of the server as they are.
With a message on a connected server, the message is stored, `is_away` is 1 and
the first call of `irc_server_sendf` sends "AWAY :" followed by the message. With
a NULL message on a connected server, the stored message is cleared, `is_away` and
`away_time` are 0 and the first call sends "AWAY". On a server that is not
connected, no call of `irc_server_sendf` is made and the server is unchanged but
for `away_message`, which is the message (NULL when there is none). -/
theorem away_server_spec (env : AwayEnv) (server : t_irc_server)
    (reset_unread_marker : Int)
    (hset : ∀ (s : t_irc_server) (nick : CStr) (is_away : Int),
      (env.irc_server_set_away s nick is_away).is_away = s.is_away
      ∧ (env.irc_server_set_away s nick is_away).away_time = s.away_time
      ∧ (env.irc_server_set_away s nick is_away).away_message = s.away_message) :
    (server.is_connected ≠ 0 →
      (∀ message : CStr,
        ∃ s call, (irc_command_away_server env (some server) (some message)
            reset_unread_marker).1 = some s
          ∧ s.away_message = some message ∧ s.is_away = 1
          ∧ (irc_command_away_server env (some server) (some message)
              reset_unread_marker).2.head? = some (Effect.sendf server.name call)
          ∧ call.flags = IRC_SERVER_SEND_OUTQ_PRIO_HIGH
          ∧ call.line = "AWAY :".toList ++ message)
      ∧ ∃ s call, (irc_command_away_server env (some server) none reset_unread_marker).1
            = some s
          ∧ s.away_message = none ∧ s.is_away = 0 ∧ s.away_time = 0
          ∧ (irc_command_away_server env (some server) none reset_unread_marker).2.head?
              = some (Effect.sendf server.name call)
          ∧ call.flags = IRC_SERVER_SEND_OUTQ_PRIO_HIGH
          ∧ call.line = "AWAY".toList)
    ∧ (server.is_connected = 0 →
      ∀ arguments : Option CStr,
        (irc_command_away_server env (some server) arguments reset_unread_marker).1
            = some { server with away_message := arguments }
        ∧ ∀ e ∈ (irc_command_away_server env (some server) arguments reset_unread_marker).2,
            e.is_sendf = false) := by
  constructor
  · intro hc
    constructor
    · intro message
      obtain ⟨h1, h2⟩ := away_server_set_connected env server message reset_unread_marker hc
      rw [h1, h2]
      exact ⟨_, _, rfl, by rw [(hset _ _ _).2.2], by rw [(hset _ _ _).1], rfl, rfl,
        by simp [SendfCall.line, format_s]⟩
    · obtain ⟨h1, h2⟩ := away_server_unset_connected env server reset_unread_marker hc
      rw [h1, h2]
      exact ⟨_, _, rfl, by rw [(hset _ _ _).2.2], by rw [(hset _ _ _).1],
        by rw [(hset _ _ _).2.1], rfl, rfl, by simp [SendfCall.line, format_s]⟩
  · intro hc arguments
    cases arguments with
    | none =>
      simp only [irc_command_away_server, ne_eq, hc, not_true_eq_false, if_false]
      refine ⟨trivial, ?_⟩
      intro e he
      simp at he
      rcases he with rfl | rfl <;> rfl
    | some message =>
      simp only [irc_command_away_server, ne_eq, hc, not_true_eq_false, if_false]
      refine ⟨trivial, ?_⟩
      intro e he
      simp at he
      subst he
      rfl

set_option maxRecDepth 100000 in
/-- Witness of C23: "/away" typed on a connected server that is away since the
instant 100 with the message "lunch", at the instant 4000; the first message sent
is "AWAY", then the channel is told "is back (gone 01:05:00)". With
"/away lunch" on the same server not yet connected, only the message is stored. -/
theorem away_server_spec_witness :
    (irc_command_away_server env_away (some server_away) none 1
      = (some { server_away with
            is_away := 0
            away_time := 0
            away_message := none },
          [Effect.sendf "libera".toList ⟨IRC_SERVER_SEND_OUTQ_PRIO_HIGH, "AWAY".toList, []⟩,
            Effect.sendf "libera".toList
              ⟨SendFlags.outq_prio_high_return_hashtable,
                "PRIVMSG %s :\x01ACTION %s\x01".toList,
                ["#weechat".toList, "is back (gone 01:05:00)".toList]⟩,
            Effect.server_set_away "libera".toList "me".toList 0,
            Effect.bar_item_update "away"]))
    ∧ (irc_command_away_server env_away (some { server_new "oftc".toList with is_away := 0 })
        (some "lunch".toList) 1).1
        = some { server_new "oftc".toList with away_message := some "lunch".toList }
    ∧ ∃ s call, (irc_command_away_server env_away (some server_away) none 1).1 = some s
        ∧ s.away_message = none ∧ s.is_away = 0 ∧ s.away_time = 0
        ∧ (irc_command_away_server env_away (some server_away) none 1).2.head?
            = some (Effect.sendf server_away.name call)
        ∧ call.flags = IRC_SERVER_SEND_OUTQ_PRIO_HIGH
        ∧ call.line = "AWAY".toList :=
  ⟨by decide,
    ((away_server_spec env_away (server_new "oftc".toList) 1
      (fun _ _ _ => ⟨rfl, rfl, rfl⟩)).2 (by decide) (some "lunch".toList)).1,
    ((away_server_spec env_away server_away 1 (fun _ _ _ => ⟨rfl, rfl, rfl⟩)).1
      (by decide)).2⟩

/-! ## Properties of irc_command_join_server -/

theorem join_comma_cons (a : CStr) (rest : List CStr) :
    join_comma (a :: rest) = a ++ (rest.map fun c => ',' :: c).flatten := by
  induction rest generalizing a with
  | nil => simp [join_comma]
  | cons b t ih => simp [join_comma, ih b]

theorem not_mem_join_comma (l : List CStr) (h : ∀ c ∈ l, ' ' ∉ c) : ' ' ∉ join_comma l := by
  cases l with
  | nil => simp [join_comma]
  | cons a rest =>
    rw [join_comma_cons]
    intro hin
    rcases List.mem_append.1 hin with h1 | h1
    · exact h a (by simp) h1
    · obtain ⟨x, hx, hin2⟩ := List.mem_flatten.1 h1
      obtain ⟨c, hc, rfl⟩ := List.mem_map.1 hx
      rcases List.mem_cons.1 hin2 with h2 | h2
      · exact absurd h2 (by decide)
      · exact h c (by simp [hc]) h2

theorem cut_at_of_not_mem (c : Char) (a : CStr) (ha : c ∉ a) : cut_at c a = a := by
  induction a with
  | nil => simp [cut_at]
  | cons x xs ih =>
    have hx : (x != c) = true := by
      simpa using fun h : x = c => ha (by simp [h])
    have hxs : c ∉ xs := fun h => ha (by simp [h])
    have := ih hxs
    simp only [cut_at] at this ⊢
    rw [List.takeWhile_cons, hx, this]
    rfl

theorem same_keys_set_key (env : JoinEnv) (a b : t_irc_server) (pos_channel key : CStr)
    (h : same_keys a b) :
    same_keys (join_server_set_key env a pos_channel key)
      (join_server_set_key env b pos_channel key) := by
  obtain ⟨h1, h2⟩ := h
  unfold join_server_set_key same_keys
  rw [h1]
  cases env.irc_channel_search b.channels pos_channel with
  | none => simp only [h1, h2, and_self]
  | some position =>
    cases hp : b.channels[position]? with
    | none => simp only [hp, h1, h2, and_self]
    | some ptr_channel => simp only [hp, h2, and_self]

theorem same_keys_set_manual (env : JoinEnv) (manual_join noswitch : Int)
    (a : t_irc_server) (pos_channel : CStr) :
    same_keys (join_server_set_manual env manual_join noswitch a pos_channel) a := by
  unfold join_server_set_manual same_keys
  split_ifs <;> exact ⟨rfl, rfl⟩

theorem getD_append_cons (pre post : List CStr) (c d : CStr) :
    (pre ++ c :: post).getD pre.length d = c := by
  induction pre with
  | nil => rfl
  | cons p ps ih => simpa using ih

theorem join_server_loop_effects (env : JoinEnv) (manual_join noswitch : Int)
    (channels : List CStr) (keys : Option (List CStr)) (todo i : Nat) (st : JoinState) :
    (join_server_loop_unbounded env manual_join noswitch channels keys todo i st).effects.filter
        Effect.is_sendf
      = st.effects.filter Effect.is_sendf := by
  induction todo generalizing i st with
  | zero => rfl
  | succ n ih =>
    rw [join_server_loop_unbounded, ih]
    unfold join_server_body_unbounded
    simp only
    split_ifs
    · rw [List.filter_append]
      simp [Effect.is_sendf]
    · rfl

theorem join_server_loop_new_args (env : JoinEnv) (manual_join noswitch : Int)
    (keys : Option (List CStr)) (post pre : List CStr) (st : JoinState) :
    (join_server_loop_unbounded env manual_join noswitch (pre ++ post) keys post.length pre.length
        st).new_args
      = st.new_args ++
          if pre = [] then join_comma (join_named env post)
          else ((join_named env post).map fun c => ',' :: c).flatten := by
  induction post generalizing pre st with
  | nil =>
    simp [join_server_loop_unbounded, join_named, join_comma]
  | cons c post ih =>
    rw [List.length_cons, join_server_loop_unbounded]
    have hpre : pre ++ c :: post = (pre ++ [c]) ++ post := by simp
    have hlen : pre.length + 1 = (pre ++ [c]).length := by simp
    have hget : (pre ++ c :: post).getD pre.length [] = c := getD_append_cons pre post c []
    rw [hlen, hpre, ih]
    rw [← hpre]
    have hbody : (join_server_body_unbounded env manual_join noswitch (pre ++ c :: post) keys pre.length
        st).new_args
        = (if 0 < pre.length then st.new_args ++ [','] else st.new_args)
          ++ (env.irc_channel_get_auto_chantype c ++ c) := by
      unfold join_server_body_unbounded
      simp only [hget]
    rw [hbody]
    have hne : pre ++ [c] ≠ [] := by simp
    rw [if_neg hne]
    cases pre with
    | nil =>
      simp only [List.length_nil, lt_irrefl, if_false, if_true, join_named, List.map_cons]
      rw [join_comma_cons]
      simp
    | cons p ps =>
      simp [join_named]

theorem join_server_loop_keys (env : JoinEnv) (manual_join noswitch : Int)
    (keys : Option (List CStr)) (post pre : List CStr) (st : JoinState) (s : t_irc_server)
    (h : same_keys st.server s) :
    same_keys
      (join_server_loop_unbounded env manual_join noswitch (pre ++ post) keys post.length pre.length
        st).server
      ((List.zip (join_named env post) ((keys.getD []).drop pre.length)).foldl
        (fun s entry => join_server_set_key env s entry.1 entry.2) s) := by
  induction post generalizing pre st s with
  | nil =>
    simpa [join_server_loop_unbounded, join_named] using h
  | cons c post ih =>
    rw [List.length_cons, join_server_loop_unbounded]
    have hpre : pre ++ c :: post = (pre ++ [c]) ++ post := by simp
    have hlen : pre.length + 1 = (pre ++ [c]).length := by simp
    have hget : (pre ++ c :: post).getD pre.length [] = c := getD_append_cons pre post c []
    have hman := same_keys_set_manual env manual_join noswitch st.server
      (env.irc_channel_get_auto_chantype c ++ c)
    have hman2 : same_keys (join_server_set_manual env manual_join noswitch st.server
        (env.irc_channel_get_auto_chantype c ++ c)) s := ⟨hman.1.trans h.1, hman.2.trans h.2⟩
    by_cases hi : pre.length < (keys.getD []).length
    · have hdrop : (keys.getD []).drop pre.length
          = (keys.getD []).getD pre.length [] :: (keys.getD []).drop (pre.length + 1) := by
        rw [List.getD_eq_getElem _ _ hi]
        exact List.drop_eq_getElem_cons hi
      have hbody : (join_server_body_unbounded env manual_join noswitch (pre ++ c :: post) keys
          pre.length st).server
          = join_server_set_key env (join_server_set_manual env manual_join noswitch st.server
              (env.irc_channel_get_auto_chantype c ++ c))
            (env.irc_channel_get_auto_chantype c ++ c) ((keys.getD []).getD pre.length []) := by
        unfold join_server_body_unbounded
        cases keys with
        | none => simp at hi
        | some ks =>
          simp only [Option.getD_some] at hi ⊢
          simp only [hget, hi, if_true]
      rw [hdrop]
      simp only [join_named, List.map_cons, List.zip_cons_cons, List.foldl_cons]
      rw [hlen, hpre]
      have := ih (pre ++ [c]) (join_server_body_unbounded env manual_join noswitch (pre ++ c :: post) keys
        pre.length st) _ (by rw [hbody]; exact same_keys_set_key env _ _ _ _ hman2)
      rw [← hlen, ← hpre] at this ⊢
      simpa [join_named] using this
    · have hdrop : (keys.getD []).drop pre.length = [] :=
        List.drop_eq_nil_of_le (by omega)
      have hbody : (join_server_body_unbounded env manual_join noswitch (pre ++ c :: post) keys
          pre.length st).server
          = join_server_set_manual env manual_join noswitch st.server
              (env.irc_channel_get_auto_chantype c ++ c) := by
        unfold join_server_body_unbounded
        cases keys with
        | none => simp only [hget]
        | some ks =>
          simp only [Option.getD_some] at hi
          simp only [hget, hi, if_false]
      rw [hdrop]
      simp only [List.zip_nil_right, List.foldl_nil]
      have := ih (pre ++ [c]) (join_server_body_unbounded env manual_join noswitch (pre ++ c :: post) keys
        pre.length st) s (by rw [hbody]; exact hman2)
      rw [← hlen, ← hpre] at this
      have hdrop2 : (keys.getD []).drop (pre.length + 1) = [] :=
        List.drop_eq_nil_of_le (by omega)
      rw [hdrop2] at this
      simpa using this

theorem dropWhile_space_join_comma (keys : List CStr) (hne : keys ≠ [])
    (hk : ∀ k ∈ keys, k ≠ [] ∧ ' ' ∉ k) :
    (join_comma keys).dropWhile (fun c => c == ' ') = join_comma keys
      ∧ join_comma keys ≠ [] := by
  cases keys with
  | nil => exact absurd rfl hne
  | cons k rest =>
    obtain ⟨h1, h2⟩ := hk k (by simp)
    rw [join_comma_cons]
    cases k with
    | nil => exact absurd rfl h1
    | cons x xs =>
      have hx : (x == ' ') = false := by
        simpa using fun h : x = ' ' => h2 (by simp [h])
      refine ⟨?_, by simp⟩
      rw [List.cons_append, List.dropWhile_cons, hx]
      rfl

theorem join_server_display_effects (env : JoinEnv) (server : t_irc_server)
    (channels : List CStr) (length : Nat) (manual_join noswitch : Int) :
    (join_server_display env server channels length manual_join noswitch).filter
      Effect.is_sendf = [] := by
  unfold join_server_display
  by_cases hm : manual_join ≠ 0
  · rw [if_pos hm]
    simp only
    cases (env.irc_channel_search server.channels _).bind
        fun position => server.channels[position]? with
    | none => rfl
    | some ptr_channel =>
      by_cases hn : noswitch = 0
      · simp only [hn, if_true]
        rfl
      · simp only [hn, if_false]
        rfl
  · rw [if_neg hm]
    rfl

/-- The result of `irc_command_join_server` on a server with an open socket, when
the arguments are split into the channels and the keys. -/
theorem join_server_eq (env : JoinEnv) (server : t_irc_server) (channels keys : List CStr)
    (manual_join noswitch : Int) (hsock : 0 ≤ server.sock)
    (hchannels : env.weechat_string_split (join_comma channels) = some channels)
    (hkeys : keys ≠ [] → env.weechat_string_split (join_comma keys) = some keys)
    (hc : ∀ c ∈ channels, ' ' ∉ c) (hk : ∀ k ∈ keys, k ≠ [] ∧ ' ' ∉ k) :
    irc_command_join_server_unbounded env server (join_arguments channels keys) manual_join noswitch
      = ((join_server_loop_unbounded env manual_join noswitch ([] ++ channels)
            (if keys = [] then none else some keys) channels.length ([] : List CStr).length
            ⟨[], server, join_server_display env server channels
              ((join_arguments channels keys).length + channels.length + 1) manual_join
              noswitch⟩).server,
          (join_server_loop_unbounded env manual_join noswitch ([] ++ channels)
            (if keys = [] then none else some keys) channels.length ([] : List CStr).length
            ⟨[], server, join_server_display env server channels
              ((join_arguments channels keys).length + channels.length + 1) manual_join
              noswitch⟩).effects
            ++ [Effect.sendf server.name
              ⟨IRC_SERVER_SEND_OUTQ_PRIO_HIGH, "JOIN %s".toList,
                [(join_server_loop_unbounded env manual_join noswitch ([] ++ channels)
                  (if keys = [] then none else some keys) channels.length
                  ([] : List CStr).length
                  ⟨[], server, join_server_display env server channels
                    ((join_arguments channels keys).length + channels.length + 1) manual_join
                    noswitch⟩).new_args
                  ++ if keys = [] then [] else ' ' :: join_comma keys]⟩]) := by
  have hnosp := not_mem_join_comma channels hc
  have hs : ¬ server.sock < 0 := by omega
  by_cases hkn : keys = []
  · subst hkn
    have harg : join_arguments channels [] = join_comma channels := by simp [join_arguments]
    rw [harg]
    simp only [irc_command_join_server_unbounded, hs, if_false, hnosp, cut_at_of_not_mem _ _ hnosp,
      hchannels, if_true, List.append_nil, List.nil_append, List.length_nil]
  · have harg : join_arguments channels keys = join_comma channels ++ ' ' :: join_comma keys := by
      simp [join_arguments, hkn]
    obtain ⟨hd1, hd2⟩ := dropWhile_space_join_comma keys hkn hk
    have hin : ' ' ∈ join_comma channels ++ ' ' :: join_comma keys := by simp
    rw [harg]
    simp only [irc_command_join_server_unbounded, hs, if_false, hin, if_true,
      cut_at_append _ _ _ hnosp, after_first_append _ _ _ hnosp, hd1, ne_eq, hd2,
      not_false_eq_true, hkeys hkn, hchannels, hkn, List.nil_append, List.length_nil]

/-! ## Properties of the send queue -/

theorem drain_lane_append (anti_flood now : Int) (lane : List CStr) (last_send : Option Int) :
    (drain_lane anti_flood now lane last_send).1 ++ (drain_lane anti_flood now lane last_send).2.1
      = lane := by
  induction lane generalizing last_send with
  | nil => rfl
  | cons line rest ih =>
    unfold drain_lane
    by_cases h : lane_ready last_send anti_flood now = true
    · simp only [h, if_true, List.cons_append, ih]
    · have h2 : lane_ready last_send anti_flood now = false := by simpa using h
      simp only [h2, Bool.false_eq_true, if_false, List.nil_append]

theorem drain_lane_ne_nil (anti_flood now : Int) (lane : List CStr) (last_send : Option Int)
    (hne : lane ≠ []) (hready : lane_ready last_send anti_flood now = true) :
    (drain_lane anti_flood now lane last_send).1 ≠ [] := by
  cases lane with
  | nil => exact absurd rfl hne
  | cons line rest =>
    unfold drain_lane
    simp only [hready, if_true]
    exact List.cons_ne_nil _ _

theorem drain_lane_all (anti_flood now : Int) (lane : List CStr) (last_send : Option Int)
    (hflood : anti_flood ≤ 0) (hready : lane_ready last_send anti_flood now = true) :
    (drain_lane anti_flood now lane last_send).2.1 = [] := by
  induction lane generalizing last_send with
  | nil => rfl
  | cons line rest ih =>
    unfold drain_lane
    simp only [hready, if_true]
    apply ih
    simp only [lane_ready, decide_eq_true_eq]
    omega

theorem transmitted_lines_map (priority p : Lane) (l : List CStr) :
    transmitted_lines priority (l.map fun line => (p, line)) = if p = priority then l else [] := by
  induction l with
  | nil => simp [transmitted_lines]
  | cons x xs ih =>
    unfold transmitted_lines at ih ⊢
    by_cases h : p = priority
    · simp only [h, if_true] at ih ⊢
      simp [ih]
    · simp only [h, if_false] at ih ⊢
      simp [h, ih]

theorem transmitted_lines_append (priority : Lane) (a b : List (Lane × CStr)) :
    transmitted_lines priority (a ++ b)
      = transmitted_lines priority a ++ transmitted_lines priority b := by
  simp [transmitted_lines]

theorem transmitted_lines_drain_ready (q : SendQueue) (now : Int) (priority : Lane) :
    transmitted_lines priority (drain_ready q now).2 ++ (drain_ready q now).1.lane priority
      = q.lane priority := by
  unfold drain_ready
  simp only [transmitted_lines_append, transmitted_lines_map]
  cases priority with
  | high =>
    simp only [if_true, SendQueue.lane]
    rw [if_neg (by decide), List.append_nil]
    exact drain_lane_append _ _ _ _
  | low =>
    simp only [if_true, SendQueue.lane]
    rw [if_neg (by decide), List.nil_append]
    exact drain_lane_append _ _ _ _

theorem queue_run_fifo (priority : Lane) (events : List QueueEvent) (q : SendQueue) :
    transmitted_lines priority (queue_run q events).2 ++ (queue_run q events).1.lane priority
      = q.lane priority ++ enqueued_lines priority events := by
  induction events generalizing q with
  | nil => simp [queue_run, enqueued_lines, transmitted_lines]
  | cons e events ih =>
    cases e with
    | enqueue p line =>
      rw [queue_run, ih]
      by_cases h : p = priority
      · subst h
        have hl : enqueued_lines p (QueueEvent.enqueue p line :: events)
            = line :: enqueued_lines p events := by simp [enqueued_lines]
        rw [hl]
        cases p <;> simp [enqueue, SendQueue.lane]
      · have hl : enqueued_lines priority (QueueEvent.enqueue p line :: events)
            = enqueued_lines priority events := by simp [enqueued_lines, h]
        rw [hl]
        cases p <;> cases priority <;> simp_all [enqueue, SendQueue.lane]
    | drain_ready now =>
      rw [queue_run]
      simp only [transmitted_lines_append, List.append_assoc]
      rw [ih, ← List.append_assoc, transmitted_lines_drain_ready]
      rfl

theorem drain_lane_not_ready (anti_flood now : Int) (lane : List CStr)
    (last_send : Option Int) :
    (drain_lane anti_flood now lane last_send).2.1 = []
      ∨ lane_ready (drain_lane anti_flood now lane last_send).2.2 anti_flood now = false := by
  induction lane generalizing last_send with
  | nil => exact Or.inl rfl
  | cons line rest ih =>
    unfold drain_lane
    by_cases h : lane_ready last_send anti_flood now = true
    · simp only [h, if_true]
      exact ih (some now)
    · have h2 : lane_ready last_send anti_flood now = false := by simpa using h
      simp only [h2, Bool.false_eq_true, if_false]
      exact Or.inr trivial

theorem drain_lane_paced (anti_flood now : Int) (lane : List CStr) (last_send : Option Int)
    (hflood : 0 < anti_flood) :
    (drain_lane anti_flood now lane last_send).1.length ≤ 1 := by
  have hnot : lane_ready (some now) anti_flood now = false := by
    simp only [lane_ready, decide_eq_false_iff_not]
    omega
  cases lane with
  | nil => simp [drain_lane]
  | cons line rest =>
    unfold drain_lane
    by_cases h : lane_ready last_send anti_flood now = true
    · simp only [h, if_true, List.length_cons]
      cases rest with
      | nil => simp [drain_lane]
      | cons x xs =>
        unfold drain_lane
        simp [hnot]
    · have h2 : lane_ready last_send anti_flood now = false := by simpa using h
      simp [h2]

theorem mode_nicks_add_some (mode name : CStr) (st st2 : ModeNicksState)
    (h : mode_nicks_add mode name st = some st2) :
    st2 = mode_nicks_add_unbounded mode name st := by
  unfold mode_nicks_add at h
  split at h
  · exact (Option.some.inj h).symm
  · exact absurd h (by simp)

theorem mode_nicks_add_fits (mode name : CStr) (st : ModeNicksState)
    (h : st.modes.length + mode.length < sizeof_modes) :
    mode_nicks_add mode name st = some (mode_nicks_add_unbounded mode name st) := by
  unfold mode_nicks_add mode_nicks_add_unbounded
  rw [if_pos h]

/-- When `mode_nicks_args` has a value, it is the value of the loop without the
bound of `modes`. -/
theorem mode_nicks_args_some (string_match : CStr → CStr → Bool) (server_nick : CStr)
    (max_modes : Nat) (prefix_chr : Char) (channel : t_irc_channel) (set mode : CStr)
    (ptr_nick : t_irc_nick) (rest : List CStr) (st st2 : ModeNicksState)
    (h : mode_nicks_args string_match server_nick max_modes prefix_chr channel set mode
      ptr_nick rest st = some st2) :
    st2 = mode_nicks_args_unbounded string_match server_nick max_modes prefix_chr channel set
      mode ptr_nick rest st := by
  induction rest generalizing st with
  | nil =>
    simp only [mode_nicks_args] at h
    simp only [mode_nicks_args_unbounded]
    exact (Option.some.inj h).symm
  | cons arg rest ih =>
    simp only [mode_nicks_args] at h
    simp only [mode_nicks_args_unbounded]
    split_ifs at h ⊢
    · exact ih _ h
    · exact ih _ h
    · exact mode_nicks_add_some _ _ _ _ h
    · exact ih _ h
    · exact ih _ h

/-- When `mode_nicks_loop` has a value, it is the value of the loop without the
bound of `modes`. -/
theorem mode_nicks_loop_some (string_match : CStr → CStr → Bool) (server_nick : CStr)
    (max_modes : Nat) (prefix_chr : Char) (channel : t_irc_channel) (set mode : CStr)
    (args : List CStr) (l : List t_irc_nick) (st st2 : ModeNicksState)
    (h : mode_nicks_loop string_match server_nick max_modes prefix_chr channel set mode
      args l st = some st2) :
    st2 = mode_nicks_loop_unbounded string_match server_nick max_modes prefix_chr channel set
      mode args l st := by
  induction l generalizing st with
  | nil =>
    simp only [mode_nicks_loop] at h
    simp only [mode_nicks_loop_unbounded]
    exact (Option.some.inj h).symm
  | cons n l ih =>
    simp only [mode_nicks_loop] at h
    simp only [mode_nicks_loop_unbounded]
    split_ifs at h ⊢
    · exact ih _ h
    · cases ha : mode_nicks_args string_match server_nick max_modes prefix_chr channel set mode
          n args st with
      | none => rw [ha] at h; exact absurd h (by simp)
      | some st1 =>
        rw [ha] at h
        rw [← mode_nicks_args_some _ _ _ _ _ _ _ _ _ _ _ ha]
        exact ih _ h

/-- When `irc_command_mode_nicks` has a value, it is the value of the function
without the bound of `modes`. -/
theorem irc_command_mode_nicks_some (string_match : CStr → CStr → Bool) (server_nick : CStr)
    (max_modes : Nat) (prefix_chr : Char) (channel : t_irc_channel) (set mode : CStr)
    (argv : List CStr) (r : ModeResult)
    (h : irc_command_mode_nicks string_match server_nick max_modes prefix_chr channel set mode
      argv = some r) :
    r = irc_command_mode_nicks_unbounded string_match server_nick max_modes prefix_chr channel
      set mode argv := by
  simp only [irc_command_mode_nicks] at h
  simp only [irc_command_mode_nicks_unbounded]
  split_ifs at h ⊢
  · exact (Option.some.inj h).symm
  · exact (Option.some.inj h).symm
  · simp only [Option.map_eq_some'] at h
    obtain ⟨st, hst, rfl⟩ := h
    rw [mode_nicks_loop_some _ _ _ _ _ _ _ _ _ _ _ hst]

/-- The letters of `modes` fit in the buffer: `modes` has at most one `mode` per
mode added, and at most `max_modes` modes are added. -/
theorem mode_nicks_args_fits (string_match : CStr → CStr → Bool) (server_nick : CStr)
    (max_modes : Nat) (prefix_chr : Char) (channel : t_irc_channel) (set mode : CStr)
    (ptr_nick : t_irc_nick) (hM : 1 ≤ max_modes) (hbuf : max_modes * mode.length ≤ 128)
    (rest : List CStr) (st : ModeNicksState)
    (hst : st.modes.length ≤ st.modes_added * mode.length ∧ st.modes_added ≤ max_modes) :
    mode_nicks_args string_match server_nick max_modes prefix_chr channel set mode
        ptr_nick rest st
      = some (mode_nicks_args_unbounded string_match server_nick max_modes prefix_chr channel
          set mode ptr_nick rest st)
    ∧ (mode_nicks_args_unbounded string_match server_nick max_modes prefix_chr channel
          set mode ptr_nick rest st).modes.length
        ≤ (mode_nicks_args_unbounded string_match server_nick max_modes prefix_chr channel
          set mode ptr_nick rest st).modes_added * mode.length
    ∧ (mode_nicks_args_unbounded string_match server_nick max_modes prefix_chr channel
          set mode ptr_nick rest st).modes_added ≤ max_modes := by
  have hfull : ∀ s : ModeNicksState,
      s.modes.length ≤ s.modes_added * mode.length ∧ s.modes_added ≤ max_modes →
      (mode_nicks_send_if_full max_modes channel set s).modes.length
          ≤ (mode_nicks_send_if_full max_modes channel set s).modes_added * mode.length
        ∧ (mode_nicks_send_if_full max_modes channel set s).modes_added < max_modes := by
    intro s hs
    unfold mode_nicks_send_if_full
    split
    · simp only [mode_nicks_send, List.length_nil, Nat.zero_mul, le_refl, true_and]
      omega
    · exact ⟨hs.1, by omega⟩
  induction rest generalizing st with
  | nil =>
    simp only [mode_nicks_args, mode_nicks_args_unbounded]
    exact ⟨trivial, hst⟩
  | cons arg rest ih =>
    simp only [mode_nicks_args, mode_nicks_args_unbounded]
    split_ifs
    · exact ih _ hst
    · exact ih _ hst
    · obtain ⟨k1, k2⟩ := hfull st hst
      have hmul : (mode_nicks_send_if_full max_modes channel set st).modes_added * mode.length
          + mode.length ≤ max_modes * mode.length := by
        rw [← Nat.succ_mul]
        exact Nat.mul_le_mul_right _ k2
      refine ⟨mode_nicks_add_fits _ _ _ (by simp only [sizeof_modes]; omega), ?_, ?_⟩
      · simp only [mode_nicks_add_unbounded, List.length_append, Nat.succ_mul]
        omega
      · simp only [mode_nicks_add_unbounded]
        omega
    · obtain ⟨k1, k2⟩ := hfull st hst
      exact ih _ ⟨k1, by omega⟩
    · exact ih _ hst

/-- For `max_modes >= 1` and `max_modes` copies of `mode` that fit in `modes`, the
loop of `irc_command_mode_nicks` never writes past the end of `modes`. -/
theorem mode_nicks_loop_fits (string_match : CStr → CStr → Bool) (server_nick : CStr)
    (max_modes : Nat) (prefix_chr : Char) (channel : t_irc_channel) (set mode : CStr)
    (args : List CStr) (hM : 1 ≤ max_modes) (hbuf : max_modes * mode.length ≤ 128)
    (l : List t_irc_nick) (st : ModeNicksState)
    (hst : st.modes.length ≤ st.modes_added * mode.length ∧ st.modes_added ≤ max_modes) :
    mode_nicks_loop string_match server_nick max_modes prefix_chr channel set mode args l st
      = some (mode_nicks_loop_unbounded string_match server_nick max_modes prefix_chr channel
          set mode args l st) := by
  induction l generalizing st with
  | nil => simp only [mode_nicks_loop, mode_nicks_loop_unbounded]
  | cons n l ih =>
    simp only [mode_nicks_loop, mode_nicks_loop_unbounded]
    split_ifs
    · exact ih _ hst
    · obtain ⟨k1, k2⟩ := mode_nicks_args_fits string_match server_nick max_modes prefix_chr
        channel set mode n hM hbuf args st hst
      rw [k1]
      exact ih _ k2

/-- For `max_modes >= 1` and `max_modes` copies of `mode` that fit in `modes`
(at most 128 chars), `irc_command_mode_nicks` has a value: the one of the function
without the bound of `modes`. -/
theorem irc_command_mode_nicks_fits (string_match : CStr → CStr → Bool) (server_nick : CStr)
    (max_modes : Nat) (prefix_chr : Char) (channel : t_irc_channel) (set mode : CStr)
    (argv : List CStr) (hM : 1 ≤ max_modes) (hbuf : max_modes * mode.length ≤ 128) :
    irc_command_mode_nicks string_match server_nick max_modes prefix_chr channel set mode argv
      = some (irc_command_mode_nicks_unbounded string_match server_nick max_modes prefix_chr
          channel set mode argv) := by
  simp only [irc_command_mode_nicks, irc_command_mode_nicks_unbounded]
  split_ifs
  · rfl
  · rfl
  · rw [mode_nicks_loop_fits string_match server_nick max_modes prefix_chr channel set mode _
      hM hbuf _ _ (by simp)]
    rfl

theorem mode_masks_step_some (max_modes : Nat) (channel_name set mode m : CStr)
    (st st2 : ModeMasksState)
    (h : mode_masks_step max_modes channel_name set mode m st = some st2) :
    st2 = mode_masks_step_unbounded max_modes channel_name set mode m st := by
  simp only [mode_masks_step] at h
  simp only [mode_masks_step_unbounded]
  split_ifs at h ⊢ <;> exact (Option.some.inj h).symm

/-- When `mode_masks_loop` has a value, it is the value of the loop without the
bound of `modes`. -/
theorem mode_masks_loop_some (max_modes : Nat) (channel_name set mode : CStr)
    (l : List CStr) (st st2 : ModeMasksState)
    (h : mode_masks_loop max_modes channel_name set mode l st = some st2) :
    st2 = mode_masks_loop_unbounded max_modes channel_name set mode l st := by
  induction l generalizing st with
  | nil =>
    simp only [mode_masks_loop] at h
    simp only [mode_masks_loop_unbounded]
    exact (Option.some.inj h).symm
  | cons m l ih =>
    simp only [mode_masks_loop] at h
    simp only [mode_masks_loop_unbounded]
    cases hs : mode_masks_step max_modes channel_name set mode m st with
    | none => rw [hs] at h; exact absurd h (by simp)
    | some st1 =>
      rw [hs] at h
      rw [← mode_masks_step_some _ _ _ _ _ _ _ hs]
      exact ih _ h

/-- When `irc_command_mode_masks` has a value, it is the value of the function
without the bound of `modes`. -/
theorem irc_command_mode_masks_some (chanmode_type : Char) (max_modes : Nat)
    (irc_nick_search : t_irc_channel → CStr → Option t_irc_nick)
    (irc_nick_default_ban_mask : t_irc_nick → Option CStr)
    (ptr_channel : Option t_irc_channel) (channel_name set mode : CStr)
    (argv : List CStr) (pos_masks : Nat) (r : ModeResult)
    (h : irc_command_mode_masks chanmode_type max_modes irc_nick_search
      irc_nick_default_ban_mask ptr_channel channel_name set mode argv pos_masks = some r) :
    r = irc_command_mode_masks_unbounded chanmode_type max_modes irc_nick_search
      irc_nick_default_ban_mask ptr_channel channel_name set mode argv pos_masks := by
  simp only [irc_command_mode_masks] at h
  simp only [irc_command_mode_masks_unbounded]
  split_ifs at h ⊢
  · exact (Option.some.inj h).symm
  · simp only [Option.map_eq_some'] at h
    obtain ⟨st, hst, rfl⟩ := h
    rw [mode_masks_loop_some _ _ _ _ _ _ _ hst]

theorem mode_masks_step_fits (max_modes : Nat) (channel_name set mode m : CStr)
    (hM : 1 ≤ max_modes) (hmode : mode ≠ []) (hbuf : max_modes * mode.length ≤ 128)
    (st : ModeMasksState)
    (hst : st.modes.length = st.modes_added * mode.length ∧ st.modes_added ≤ max_modes) :
    mode_masks_step max_modes channel_name set mode m st
      = some (mode_masks_step_unbounded max_modes channel_name set mode m st)
    ∧ (mode_masks_step_unbounded max_modes channel_name set mode m st).modes.length
        = (mode_masks_step_unbounded max_modes channel_name set mode m st).modes_added
          * mode.length
    ∧ (mode_masks_step_unbounded max_modes channel_name set mode m st).modes_added
        ≤ max_modes := by
  have hlen : 0 < mode.length := List.length_pos.2 hmode
  have hone : mode.length ≤ max_modes * mode.length := Nat.le_mul_of_pos_left _ hM
  have hstep : ∀ k : Nat, k < max_modes → k * mode.length + mode.length ≤ 128 := by
    intro k hk
    have : (k + 1) * mode.length ≤ max_modes * mode.length := Nat.mul_le_mul_right _ hk
    rw [Nat.succ_mul] at this
    omega
  simp only [mode_masks_step, mode_masks_step_unbounded]
  generalize hst1 : (if st.modes ≠ [] ∧ (st.modes_added = max_modes
      ∨ ¬ st.masks.length + 1 + m.length + 1 < sizeof_nicks)
    then mode_masks_send channel_name set st else st) = st1
  have h1 : st1.modes.length = st1.modes_added * mode.length ∧ st1.modes_added ≤ max_modes
      ∧ (st.masks.length + 1 + m.length + 1 < sizeof_nicks → st1.modes_added < max_modes) := by
    subst hst1
    split_ifs with hsend
    · simp only [mode_masks_send, List.length_nil, Nat.zero_mul, true_and]
      omega
    · refine ⟨hst.1, hst.2, fun hfit => ?_⟩
      by_cases hm : st.modes = []
      · have h0 : st.modes_added * mode.length = 0 := by rw [← hst.1, hm]; rfl
        rcases Nat.mul_eq_zero.1 h0 with h1 | h1
        · omega
        · omega
      · have : st.modes_added ≠ max_modes := fun h => hsend ⟨hm, Or.inl h⟩
        omega
  by_cases hfit : st.masks.length + 1 + m.length + 1 < sizeof_nicks
  · have hb : st1.modes.length + mode.length < sizeof_modes := by
      have := hstep _ (h1.2.2 hfit)
      simp only [sizeof_modes]
      omega
    rw [if_pos hfit, if_pos hfit, if_pos hb]
    refine ⟨rfl, ?_, ?_⟩
    · simp only [List.length_append, Nat.succ_mul]
      omega
    · have := h1.2.2 hfit
      simp only []
      omega
  · rw [if_neg hfit, if_neg hfit]
    exact ⟨rfl, h1.1, h1.2.1⟩

/-- For `max_modes >= 1`, a mode that is not empty and `max_modes` copies of `mode`
that fit in `modes`, the loop of `irc_command_mode_masks` never writes past the end
of `modes`. -/
theorem mode_masks_loop_fits (max_modes : Nat) (channel_name set mode : CStr)
    (hM : 1 ≤ max_modes) (hmode : mode ≠ []) (hbuf : max_modes * mode.length ≤ 128)
    (l : List CStr) (st : ModeMasksState)
    (hst : st.modes.length = st.modes_added * mode.length ∧ st.modes_added ≤ max_modes) :
    mode_masks_loop max_modes channel_name set mode l st
      = some (mode_masks_loop_unbounded max_modes channel_name set mode l st) := by
  induction l generalizing st with
  | nil => simp only [mode_masks_loop, mode_masks_loop_unbounded]
  | cons m l ih =>
    simp only [mode_masks_loop, mode_masks_loop_unbounded]
    obtain ⟨k1, k2⟩ := mode_masks_step_fits max_modes channel_name set mode m hM hmode hbuf
      st hst
    rw [k1]
    exact ih _ k2

/-- For `max_modes >= 1`, a mode that is not empty and `max_modes` copies of `mode`
that fit in `modes` (at most 128 chars), `irc_command_mode_masks` has a value: the
one of the function without the bound of `modes`. -/
theorem irc_command_mode_masks_fits (chanmode_type : Char) (max_modes : Nat)
    (irc_nick_search : t_irc_channel → CStr → Option t_irc_nick)
    (irc_nick_default_ban_mask : t_irc_nick → Option CStr)
    (ptr_channel : Option t_irc_channel) (channel_name set mode : CStr)
    (argv : List CStr) (pos_masks : Nat)
    (hM : 1 ≤ max_modes) (hmode : mode ≠ []) (hbuf : max_modes * mode.length ≤ 128) :
    irc_command_mode_masks chanmode_type max_modes irc_nick_search
        irc_nick_default_ban_mask ptr_channel channel_name set mode argv pos_masks
      = some (irc_command_mode_masks_unbounded chanmode_type max_modes irc_nick_search
          irc_nick_default_ban_mask ptr_channel channel_name set mode argv pos_masks) := by
  simp only [irc_command_mode_masks, irc_command_mode_masks_unbounded]
  split_ifs
  · rfl
  · rw [mode_masks_loop_fits max_modes channel_name set mode hM hmode hbuf _ _ (by simp)]
    rfl

/-! ## Properties of irc_command_mode_nicks and irc_command_mode_masks -/

/-- C1 (amended): for `max_modes >= 1` and `max_modes` copies of `mode` that fit in
`modes` (`max_modes * strlen (mode) <= 128`), a mode that is not empty, channel
nicks whose names are not empty and have no space, a call that is not refused (the
argument "*" comes with a final "-yes") and groups of `max_modes` consecutive
selected nicks that, joined by spaces, have at most 1021 chars:
`irc_command_mode_nicks` has a result, it sends `ceil(N / max_modes)` MODE messages
for the `N` selected nicks, and the lists of nicks of these messages, in emission
order, are the selected nicks, without duplicates and without omissions. -/
theorem mode_nicks_batches_roundtrip (string_match : CStr → CStr → Bool) (server_nick : CStr)
    (max_modes : Nat) (prefix_chr : Char) (channel : t_irc_channel) (set mode : CStr)
    (argv : List CStr) (hM : 1 ≤ max_modes) (hbuf : max_modes * mode.length ≤ 128)
    (hmode : mode ≠ []) (hwf : ∀ n ∈ channel.nicks, n.name ≠ [] ∧ ' ' ∉ n.name)
    (hyes : ¬ ((mode_nicks_arguments argv).2 = false
      ∧ "*".toList ∈ (mode_nicks_arguments argv).1))
    (hfit : ∀ g ∈ batches max_modes (selected_nicks string_match server_nick prefix_chr
      channel set mode (mode_nicks_arguments argv).1), (join_sp g).length + 2 < sizeof_nicks) :
    mode_nicks_roundtrip string_match server_nick max_modes prefix_chr channel set mode
      argv := by
  have hold := mode_nicks_batches_roundtrip_unbounded string_match server_nick max_modes
    prefix_chr channel set mode argv hM hmode hwf hyes hfit
  simp only [mode_nicks_roundtrip, irc_command_mode_nicks_fits string_match server_nick
    max_modes prefix_chr channel set mode argv hM hbuf]
  exact hold

/-- Witness of C1 (amended): "/op * -yes" on a channel with seven nicks and 3 modes
per message. -/
theorem mode_nicks_batches_roundtrip_witness :
    mode_nicks_roundtrip star_match "me".toList 3 '@' channel_seven "+".toList "o".toList
      argv_op_all :=
  mode_nicks_batches_roundtrip star_match "me".toList 3 '@' channel_seven "+".toList
    "o".toList argv_op_all (by decide) (by decide) (by decide) (by decide) (by decide)
    (by decide)

set_option maxRecDepth 1000000 in
/-- C1 fails as stated: "/op *" without "-yes" is refused although the argument
matches the seven nicks of the channel; with 40 modes per message and 35 selected
nicks of 30 chars, the nicks that do not fit in the buffer of 1024 chars are left
out; and with 200 modes per message and 150 selected nicks of one char, the 129th
letter does not fit in `modes[128+1]`: the source writes past the end of the
buffer. -/
theorem mode_nicks_roundtrip_counterexample :
    ((irc_command_mode_nicks star_match "me".toList 3 '@' channel_seven "+".toList "o".toList
        ["op".toList, "*".toList]).isSome = true
      ∧ ¬ mode_nicks_roundtrip star_match "me".toList 3 '@' channel_seven "+".toList
          "o".toList ["op".toList, "*".toList])
    ∧ ((irc_command_mode_nicks star_match "me".toList 40 '@' channel_long "+".toList
          "o".toList argv_op_all).isSome = true
      ∧ ¬ mode_nicks_roundtrip star_match "me".toList 40 '@' channel_long "+".toList
          "o".toList argv_op_all)
    ∧ (irc_command_mode_nicks star_match "me".toList 200 '@' channel_many "+".toList
          "o".toList argv_op_all = none
      ∧ ¬ mode_nicks_roundtrip star_match "me".toList 200 '@' channel_many "+".toList
          "o".toList argv_op_all) := by
  refine ⟨⟨by decide, by decide⟩, ⟨by decide, by decide⟩, ⟨by decide, by decide⟩⟩

/-- C2: whenever `irc_command_mode_nicks` has a result with at least one MODE
message, the first message is sent with `IRC_SERVER_SEND_OUTQ_PRIO_HIGH` and every
following message of the call with `IRC_SERVER_SEND_OUTQ_PRIO_LOW`; and it has a
result for `max_modes >= 1` when `max_modes` copies of `mode` fit in `modes`
(`max_modes * strlen (mode) <= 128`). -/
theorem mode_nicks_first_high_then_low (string_match : CStr → CStr → Bool)
    (server_nick : CStr) (max_modes : Nat) (prefix_chr : Char) (channel : t_irc_channel)
    (set mode : CStr) (argv : List CStr) :
    (∀ r, irc_command_mode_nicks string_match server_nick max_modes prefix_chr channel set
        mode argv = some r → r.sent ≠ [] →
      r.sent.map SendfCall.flags
        = IRC_SERVER_SEND_OUTQ_PRIO_HIGH
          :: List.replicate (r.sent.length - 1) IRC_SERVER_SEND_OUTQ_PRIO_LOW)
    ∧ (1 ≤ max_modes → max_modes * mode.length ≤ 128 →
      ∃ r, irc_command_mode_nicks string_match server_nick max_modes prefix_chr channel set
        mode argv = some r) := by
  constructor
  · intro r hr hne
    have := irc_command_mode_nicks_some _ _ _ _ _ _ _ _ _ hr
    subst this
    exact mode_nicks_first_high_then_low_unbounded string_match server_nick max_modes
      prefix_chr channel set mode argv hne
  · intro hM hbuf
    exact ⟨_, irc_command_mode_nicks_fits string_match server_nick max_modes prefix_chr
      channel set mode argv hM hbuf⟩

/-- Witness of C2: "/op * -yes" on a channel with seven nicks and 3 modes per
message sends three messages, the first with high priority and the two others with
low priority. -/
theorem mode_nicks_first_high_then_low_witness :
    irc_command_mode_nicks star_match "me".toList 3 '@' channel_seven "+".toList "o".toList
        argv_op_all = some result_op_seven
    ∧ result_op_seven.sent.map SendfCall.flags
      = IRC_SERVER_SEND_OUTQ_PRIO_HIGH
        :: List.replicate (result_op_seven.sent.length - 1) IRC_SERVER_SEND_OUTQ_PRIO_LOW
    ∧ ∃ r, irc_command_mode_nicks star_match "me".toList 3 '@' channel_seven "+".toList
        "o".toList argv_op_all = some r :=
  ⟨by decide,
    (mode_nicks_first_high_then_low star_match "me".toList 3 '@' channel_seven "+".toList
      "o".toList argv_op_all).1 result_op_seven (by decide) (by decide),
    (mode_nicks_first_high_then_low star_match "me".toList 3 '@' channel_seven "+".toList
      "o".toList argv_op_all).2 (by decide) (by decide)⟩

/-- C3: for `1 <= max_modes <= 128` and channel nicks whose names are not empty and
have no space, `irc_command_mode_nicks` has a result and each MODE message it sends
is the line "MODE channel set+modes nicks" where modes is the mode letter repeated
once per nick of the message (at most 128 letters); every message carries between
1 and `max_modes` nicks, none of them empty, and every message except the last
carries `max_modes` nicks. -/
theorem mode_nicks_message_form (string_match : CStr → CStr → Bool) (server_nick : CStr)
    (max_modes : Nat) (prefix_chr : Char) (channel : t_irc_channel) (set : CStr) (c : Char)
    (argv : List CStr) (hM1 : 1 ≤ max_modes) (hM2 : max_modes ≤ 128)
    (hwf : ∀ n ∈ channel.nicks, n.name ≠ [] ∧ ' ' ∉ n.name) :
    ∃ r, irc_command_mode_nicks string_match server_nick max_modes prefix_chr channel set
        [c] argv = some r
      ∧ (∀ m ∈ r.sent,
          m.line = "MODE ".toList ++ channel.name ++ " ".toList ++ set
              ++ List.replicate m.target_list.length c ++ " ".toList ++ join_sp m.target_list
            ∧ m.modes = List.replicate m.target_list.length c
            ∧ m.targets = join_sp m.target_list
            ∧ 1 ≤ m.target_list.length ∧ m.target_list.length ≤ max_modes
            ∧ m.modes.length ≤ 128
            ∧ ∀ x ∈ m.target_list, x ≠ [])
      ∧ (∀ m ∈ r.sent.dropLast, m.target_list.length = max_modes) :=
  ⟨_, irc_command_mode_nicks_fits string_match server_nick max_modes prefix_chr channel set
      [c] argv hM1 (by simpa using hM2),
    mode_nicks_message_form_unbounded string_match server_nick max_modes prefix_chr channel
      set c argv hM1 hM2 hwf⟩

set_option maxRecDepth 100000 in
/-- Witness of C3: "/op * -yes" on a channel with seven nicks, none of them
operator, with 3 modes per message, sends three messages with "+ooo", "+ooo" and
"+o". -/
theorem mode_nicks_message_form_witness :
    (irc_command_op star_match 3 '@' (some server_me) (some channel_seven) true
        argv_op_all).map (fun r => r.sent.map SendfCall.line)
      = some ["MODE #weechat +ooo alice bob carol".toList,
          "MODE #weechat +ooo dave erin frank".toList, "MODE #weechat +o grace".toList]
    ∧ ∃ r, irc_command_mode_nicks star_match "me".toList 3 '@' channel_seven "+".toList
        ['o'] argv_op_all = some r
      ∧ (∀ m ∈ r.sent,
          m.line = "MODE ".toList ++ channel_seven.name ++ " ".toList ++ "+".toList
              ++ List.replicate m.target_list.length 'o' ++ " ".toList
              ++ join_sp m.target_list
            ∧ m.modes = List.replicate m.target_list.length 'o'
            ∧ m.targets = join_sp m.target_list
            ∧ 1 ≤ m.target_list.length ∧ m.target_list.length ≤ 3
            ∧ m.modes.length ≤ 128
            ∧ ∀ x ∈ m.target_list, x ≠ [])
      ∧ (∀ m ∈ r.sent.dropLast, m.target_list.length = 3) :=
  ⟨by decide,
    mode_nicks_message_form star_match "me".toList 3 '@' channel_seven "+".toList 'o'
      argv_op_all (by decide) (by decide) (by decide)⟩

set_option maxRecDepth 100000 in
/-- C4 on the code: "/ban" with eleven masks of 100 chars and 20 modes per message.
The eleventh mask does not fit in the buffer after the first ten: the MODE command
with the first ten masks is sent, the eleventh mask is in no message and nothing is
displayed. -/
theorem mode_masks_drops_mask :
    (mode_masks_list (fun _ _ => none) (fun _ => none) none argv_ban_eleven 1).length = 11
    ∧ (irc_command_mode_masks 'A' 20 (fun _ _ => none) (fun _ => none) none "#weechat".toList
          "+".toList "b".toList argv_ban_eleven 1).map ModeResult.names
        = some ((mode_masks_list (fun _ _ => none) (fun _ => none) none argv_ban_eleven
            1).take 10)
    ∧ (irc_command_mode_masks 'A' 20 (fun _ _ => none) (fun _ => none) none "#weechat".toList
          "+".toList "b".toList argv_ban_eleven 1).map ModeResult.printed = some [] := by
  decide

/-- C5: for `max_modes >= 1`, a mode letter `c` and masks that are not empty and
have no space. Whenever `irc_command_mode_masks` has a result, each MODE message it
sends carries at least 1 and at most `max_modes` masks, none of them empty, with
one mode letter per mask, the first message is sent with high priority and every
following message with low priority; and it has a result when `max_modes <= 128`,
the letters of a message then fit in `modes[128+1]`. -/
theorem mode_masks_message_form (chanmode_type : Char) (max_modes : Nat)
    (irc_nick_search : t_irc_channel → CStr → Option t_irc_nick)
    (irc_nick_default_ban_mask : t_irc_nick → Option CStr)
    (ptr_channel : Option t_irc_channel) (channel_name set : CStr) (c : Char)
    (argv : List CStr) (pos_masks : Nat) (hM : 1 ≤ max_modes)
    (hwf : ∀ x ∈ mode_masks_list irc_nick_search irc_nick_default_ban_mask ptr_channel argv
      pos_masks, x ≠ [] ∧ ' ' ∉ x) :
    (∀ r, irc_command_mode_masks chanmode_type max_modes irc_nick_search
        irc_nick_default_ban_mask ptr_channel channel_name set [c] argv pos_masks = some r →
      (∀ m ∈ r.sent,
          1 ≤ m.target_list.length ∧ m.target_list.length ≤ max_modes
            ∧ m.modes = List.replicate m.target_list.length c
            ∧ m.targets = join_sp m.target_list
            ∧ ∀ x ∈ m.target_list, x ≠ [])
      ∧ (r.sent ≠ [] →
          r.sent.map SendfCall.flags
            = IRC_SERVER_SEND_OUTQ_PRIO_HIGH
              :: List.replicate (r.sent.length - 1) IRC_SERVER_SEND_OUTQ_PRIO_LOW))
    ∧ (max_modes ≤ 128 →
      ∃ r, irc_command_mode_masks chanmode_type max_modes irc_nick_search
        irc_nick_default_ban_mask ptr_channel channel_name set [c] argv pos_masks
          = some r) := by
  constructor
  · intro r hr
    have := irc_command_mode_masks_some _ _ _ _ _ _ _ _ _ _ _ hr
    subst this
    exact mode_masks_message_form_unbounded chanmode_type max_modes irc_nick_search
      irc_nick_default_ban_mask ptr_channel channel_name set c argv pos_masks hM hwf
  · intro hM2
    exact ⟨_, irc_command_mode_masks_fits chanmode_type max_modes irc_nick_search
      irc_nick_default_ban_mask ptr_channel channel_name set [c] argv pos_masks hM (by simp)
      (by simpa using hM2)⟩

set_option maxRecDepth 100000 in
/-- Witness of C5: "/ban" with three masks and two nicks, 4 modes per message, sends
two messages, with four masks and with one mask. -/
theorem mode_masks_message_form_witness :
    (irc_command_mode_masks 'A' 4 (fun _ _ => none) (fun _ => none) none "#weechat".toList
        "+".toList "b".toList argv_ban_five 1).map (fun r => r.sent.map SendfCall.line)
      = some ["MODE #weechat +bbbb a!*@* b!*@* *!*@c.example dave".toList,
          "MODE #weechat +b erin".toList]
    ∧ ∃ r, irc_command_mode_masks 'A' 4 (fun _ _ => none) (fun _ => none) none
        "#weechat".toList "+".toList ['b'] argv_ban_five 1 = some r
      ∧ (∀ m ∈ r.sent,
          1 ≤ m.target_list.length ∧ m.target_list.length ≤ 4
            ∧ m.modes = List.replicate m.target_list.length 'b'
            ∧ m.targets = join_sp m.target_list
            ∧ ∀ x ∈ m.target_list, x ≠ [])
      ∧ (r.sent ≠ [] →
          r.sent.map SendfCall.flags
            = IRC_SERVER_SEND_OUTQ_PRIO_HIGH
              :: List.replicate (r.sent.length - 1) IRC_SERVER_SEND_OUTQ_PRIO_LOW) := by
  obtain ⟨r, hr⟩ := (mode_masks_message_form 'A' 4 (fun _ _ => none) (fun _ => none) none
    "#weechat".toList "+".toList 'b' argv_ban_five 1 (by decide) (by decide)).2 (by decide)
  exact ⟨by decide, r, hr,
    (mode_masks_message_form 'A' 4 (fun _ _ => none) (fun _ => none) none
      "#weechat".toList "+".toList 'b' argv_ban_five 1 (by decide) (by decide)).1 r hr⟩

set_option maxRecDepth 1000000 in
/-- With more than 128 modes per message the letters of a message may not fit:
"/ban" with 150 masks of one char and 200 modes per message. No message is sent
before the 129th mask, whose letter does not fit in `modes[128+1]`: the source
writes past the end of the buffer. -/
theorem mode_masks_overrun :
    (∀ x ∈ mode_masks_list (fun _ _ => none) (fun _ => none) none argv_ban_many 1,
      x ≠ [] ∧ ' ' ∉ x)
    ∧ irc_command_mode_masks 'A' 200 (fun _ _ => none) (fun _ => none) none
        "#weechat".toList "+".toList "b".toList argv_ban_many 1 = none := by
  refine ⟨by decide, by decide⟩

/-- C14: when some nick argument is exactly "*" and the last argument is not
"-yes", `irc_command_mode_nicks` sends no MODE message, whatever the set and the
mode are (/op, /deop, /halfop, /dehalfop, /voice, /devoice): it only displays the
error. -/
theorem mode_nicks_star_requires_yes (string_match : CStr → CStr → Bool)
    (server_nick : CStr) (max_modes : Nat) (prefix_chr : Char) (channel : t_irc_channel)
    (set mode : CStr) (argv : List CStr)
    (hstar : "*".toList ∈ argv.drop 1) (hlast : argv.getLast? ≠ some "-yes".toList) :
    ∃ r, irc_command_mode_nicks string_match server_nick max_modes prefix_chr channel set mode
        argv = some r
      ∧ r.sent = [] ∧ r.printed.length = 1 := by
  have ha : mode_nicks_arguments argv = (argv.drop 1, false) := by
    unfold mode_nicks_arguments
    rw [if_neg (fun h => hlast h.2)]
  have hlen : ¬ argv.length < 2 := by
    intro h
    have : argv.drop 1 = [] := List.drop_eq_nil_of_le (by omega)
    rw [this] at hstar
    simp at hstar
  simp only [irc_command_mode_nicks, if_neg hlen, ha]
  rw [if_pos ⟨trivial, hstar⟩]
  exact ⟨_, rfl, rfl, rfl⟩

/-- Witness of C14: "/deop * bob" on a channel with seven nicks. -/
theorem mode_nicks_star_requires_yes_witness :
    ∃ r, irc_command_mode_nicks star_match "me".toList 3 '@' channel_seven "-".toList
        "o".toList ["deop".toList, "*".toList, "bob".toList] = some r
      ∧ r.sent = [] ∧ r.printed.length = 1 :=
  mode_nicks_star_requires_yes star_match "me".toList 3 '@' channel_seven "-".toList
    "o".toList ["deop".toList, "*".toList, "bob".toList] (by decide) (by decide)

/-- C15 (amended): for `max_modes >= 1` and `max_modes` copies of `mode` that fit in
`modes` (`max_modes * strlen (mode) <= 128`), a mode that is not empty and channel
nicks whose names are not empty and have no space, `irc_command_mode_nicks` has a
result. With set "-" and mode "o" or "h", if every nick argument that matches the
own nick has a wildcard '*', the own nick is in no MODE message. When the call is
not refused ("*" comes with a final "-yes") and every group of `max_modes`
consecutive selected nicks, joined by spaces, has at most 1021 chars, every other
channel nick that matches an argument and whose mode is not already as asked is in
a MODE message; and for any other set or mode this also holds for the own nick,
which is not excluded. -/
theorem mode_nicks_own_nick (string_match : CStr → CStr → Bool) (server_nick : CStr)
    (max_modes : Nat) (prefix_chr : Char) (channel : t_irc_channel) (set mode : CStr)
    (argv : List CStr) (hM : 1 ≤ max_modes) (hbuf : max_modes * mode.length ≤ 128)
    (hmode : mode ≠ []) (hwf : ∀ n ∈ channel.nicks, n.name ≠ [] ∧ ' ' ∉ n.name) :
    ∃ r, irc_command_mode_nicks string_match server_nick max_modes prefix_chr channel set
        mode argv = some r
      ∧ ((set.head? = some '-' ∧ (mode.head? = some 'o' ∨ mode.head? = some 'h')
          ∧ ∀ arg ∈ (mode_nicks_arguments argv).1,
              string_match server_nick arg = true → '*' ∈ arg)
        → server_nick ∉ r.names)
      ∧ (¬ ((mode_nicks_arguments argv).2 = false
            ∧ "*".toList ∈ (mode_nicks_arguments argv).1)
        → (∀ g ∈ batches max_modes (selected_nicks string_match server_nick prefix_chr
              channel set mode (mode_nicks_arguments argv).1),
            (join_sp g).length + 2 < sizeof_nicks)
        → mode_nicks_others_included string_match server_nick max_modes prefix_chr channel
            set mode argv
          ∧ (¬ (set.head? = some '-' ∧ (mode.head? = some 'o' ∨ mode.head? = some 'h'))
            → ∀ n ∈ channel.nicks,
                (∃ arg ∈ (mode_nicks_arguments argv).1, string_match n.name arg = true) →
                ¬ mode_nicks_already_ok prefix_chr set n → n.name ∈ r.names)) := by
  have hf := irc_command_mode_nicks_fits string_match server_nick max_modes prefix_chr
    channel set mode argv hM hbuf
  obtain ⟨h1, h2⟩ := mode_nicks_own_nick_unbounded string_match server_nick max_modes
    prefix_chr channel set mode argv hM hmode hwf
  refine ⟨_, hf, h1, fun hyes hfit => ⟨?_, (h2 hyes hfit).2⟩⟩
  simp only [mode_nicks_others_included, hf]
  exact (h2 hyes hfit).1

/-- Witness of C15 (amended): "/deop * -yes" typed by the operator "me" on a
channel where "me", "alice" and "carol" are operators removes the status of
"alice" and "carol" only. -/
theorem mode_nicks_own_nick_witness :
    (irc_command_mode_nicks star_match "me".toList 4 '@' channel_ops "-".toList "o".toList
        argv_deop_all).map ModeResult.names = some ["alice".toList, "carol".toList]
    ∧ mode_nicks_others_included star_match "me".toList 4 '@' channel_ops "-".toList
        "o".toList argv_deop_all
    ∧ ∃ r, irc_command_mode_nicks star_match "me".toList 4 '@' channel_ops "-".toList
        "o".toList argv_deop_all = some r ∧ "me".toList ∉ r.names := by
  obtain ⟨r, hr, h1, h2⟩ := mode_nicks_own_nick star_match "me".toList 4 '@' channel_ops
    "-".toList "o".toList argv_deop_all (by decide) (by decide) (by decide) (by decide)
  exact ⟨by decide, (h2 (by decide) (by decide)).1, r, hr, h1 (by decide)⟩

set_option maxRecDepth 1000000 in
/-- C15 fails as stated: with "/deop *" (no "-yes") the only argument has a
wildcard but the operators "alice" and "carol" are in no MODE message, the call is
refused; with "/deop * -yes", 40 modes per message and 35 operators whose nicks
have 30 chars, the operators that do not fit in the buffer of 1024 chars are left
out (in both calls the function has a result); and with "/deop * -yes", 200 modes
per message and 150 operators whose nicks have one char, no operator is in a MODE
message: the 129th letter does not fit in `modes[128+1]` and the source writes
past the end of the buffer. -/
theorem mode_nicks_own_nick_counterexample :
    ((∀ arg ∈ (mode_nicks_arguments ["deop".toList, "*".toList]).1,
        star_match "me".toList arg = true → '*' ∈ arg)
      ∧ (irc_command_mode_nicks star_match "me".toList 4 '@' channel_ops "-".toList
          "o".toList ["deop".toList, "*".toList]).isSome = true
      ∧ ¬ mode_nicks_others_included star_match "me".toList 4 '@' channel_ops "-".toList
          "o".toList ["deop".toList, "*".toList])
    ∧ ((∀ arg ∈ (mode_nicks_arguments argv_deop_all).1,
        star_match "me".toList arg = true → '*' ∈ arg)
      ∧ (irc_command_mode_nicks star_match "me".toList 40 '@' channel_long_ops "-".toList
          "o".toList argv_deop_all).isSome = true
      ∧ ¬ mode_nicks_others_included star_match "me".toList 40 '@' channel_long_ops
          "-".toList "o".toList argv_deop_all)
    ∧ (irc_command_mode_nicks star_match "me".toList 200 '@' channel_many_ops "-".toList
          "o".toList argv_deop_all = none
      ∧ ¬ mode_nicks_others_included star_match "me".toList 200 '@' channel_many_ops
          "-".toList "o".toList argv_deop_all) := by
  refine ⟨⟨by decide, by decide, by decide⟩, ⟨by decide, by decide, by decide⟩,
    ⟨by decide, by decide⟩⟩

/-- C22: for `max_modes >= 1`, a mode that is not empty and a channel whose nicks
have distinct names that are not empty and have no space, when the mode has a
prefix char (`prefix != ' '`). Whenever `irc_command_mode_nicks` has a result, no
MODE message it sends names a channel nick whose state is already as asked: no
nick that has the prefix when set is "+", and no nick that lacks the prefix when
set is "-"; and it has a result when `max_modes` copies of `mode` fit in `modes`
(`max_modes * strlen (mode) <= 128`). -/
theorem mode_nicks_skips_already_ok (string_match : CStr → CStr → Bool)
    (server_nick : CStr) (max_modes : Nat) (prefix_chr : Char) (channel : t_irc_channel)
    (set mode : CStr) (argv : List CStr) (hM : 1 ≤ max_modes) (hmode : mode ≠ [])
    (hwf : ∀ n ∈ channel.nicks, n.name ≠ [] ∧ ' ' ∉ n.name)
    (hnd : (channel.nicks.map t_irc_nick.name).Nodup) (hpre : prefix_chr ≠ ' ') :
    (∀ r, irc_command_mode_nicks string_match server_nick max_modes prefix_chr channel set
        mode argv = some r →
      ∀ c ∈ r.sent, ∀ n ∈ channel.nicks, n.name ∈ c.target_list →
        ¬ (set.head? = some '+' ∧ prefix_chr ∈ n.prefixes)
        ∧ ¬ (set.head? = some '-' ∧ prefix_chr ∉ n.prefixes))
    ∧ (max_modes * mode.length ≤ 128 →
      ∃ r, irc_command_mode_nicks string_match server_nick max_modes prefix_chr channel set
        mode argv = some r) := by
  constructor
  · intro r hr
    have := irc_command_mode_nicks_some _ _ _ _ _ _ _ _ _ hr
    subst this
    exact mode_nicks_skips_already_ok_unbounded string_match server_nick max_modes
      prefix_chr channel set mode argv hM hmode hwf hnd hpre
  · intro hbuf
    exact ⟨_, irc_command_mode_nicks_fits string_match server_nick max_modes prefix_chr
      channel set mode argv hM hbuf⟩

/-- Witness of C22: "/op * -yes" typed by "me" on a channel where "me", "alice" and
"carol" are operators and "bob" is not sends one MODE message, for "bob" only; no
message names a nick that has the prefix '@'. -/
theorem mode_nicks_skips_already_ok_witness :
    (irc_command_mode_nicks star_match "me".toList 4 '@' channel_ops "+".toList "o".toList
        argv_op_all).map ModeResult.names = some ["bob".toList]
    ∧ ∃ r, irc_command_mode_nicks star_match "me".toList 4 '@' channel_ops "+".toList
        "o".toList argv_op_all = some r
      ∧ ∀ c ∈ r.sent, ∀ n ∈ channel_ops.nicks, n.name ∈ c.target_list →
          ¬ ("+".toList.head? = some '+' ∧ '@' ∈ n.prefixes)
          ∧ ¬ ("+".toList.head? = some '-' ∧ '@' ∉ n.prefixes) := by
  obtain ⟨r, hr⟩ := (mode_nicks_skips_already_ok star_match "me".toList 4 '@' channel_ops
    "+".toList "o".toList argv_op_all (by decide) (by decide) (by decide) (by decide)
    (by decide)).2 (by decide)
  exact ⟨by decide, r, hr,
    (mode_nicks_skips_already_ok star_match "me".toList 4 '@' channel_ops "+".toList
      "o".toList argv_op_all (by decide) (by decide) (by decide) (by decide)
      (by decide)).1 r hr⟩

/-! ## The bound of `new_args` and the keys of irc_command_join_server -/

theorem hashtable_get_set_same (hashtable : List (CStr × CStr)) (key value : CStr) :
    weechat_hashtable_get (weechat_hashtable_set hashtable key value) key = some value := by
  simp [weechat_hashtable_get, weechat_hashtable_set]

theorem hashtable_find_filter (hashtable : List (CStr × CStr)) (key other : CStr)
    (h : other ≠ key) :
    (hashtable.filter fun entry => decide (entry.1 ≠ key)).find?
        (fun entry => decide (entry.1 = other))
      = hashtable.find? fun entry => decide (entry.1 = other) := by
  induction hashtable with
  | nil => rfl
  | cons e rest ih =>
    rw [List.filter_cons]
    by_cases he : e.1 = key
    · have h1 : decide (e.1 ≠ key) = false := by simpa using he
      have h2 : decide (e.1 = other) = false := by
        simpa using fun h3 : e.1 = other => h (h3.symm.trans he)
      rw [h1, if_neg (by simp)]
      simp only [List.find?_cons, h2]
      exact ih
    · have h1 : decide (e.1 ≠ key) = true := by simpa using he
      rw [h1, if_pos rfl]
      cases ho : decide (e.1 = other) with
      | true => simp only [List.find?_cons, ho]
      | false =>
        simp only [List.find?_cons, ho]
        exact ih

theorem hashtable_get_set_other (hashtable : List (CStr × CStr)) (key value other : CStr)
    (h : other ≠ key) :
    weechat_hashtable_get (weechat_hashtable_set hashtable key value) other
      = weechat_hashtable_get hashtable other := by
  unfold weechat_hashtable_get weechat_hashtable_set
  have hk : decide (key = other) = false := by
    simpa using fun h2 : key = other => h h2.symm
  simp only [List.find?_cons, hk]
  rw [hashtable_find_filter hashtable key other h]

theorem join_server_set_key_names (env : JoinEnv) (server : t_irc_server)
    (pos_channel key : CStr) :
    (join_server_set_key env server pos_channel key).channels.map t_irc_channel.name
      = server.channels.map t_irc_channel.name := by
  unfold join_server_set_key
  cases hs : env.irc_channel_search server.channels pos_channel with
  | none => rfl
  | some position =>
    cases hp : server.channels[position]? with
    | none => simp only [hp]
    | some ptr_channel =>
      simp only [hp]
      apply List.ext_getElem?
      intro i
      simp only [List.getElem?_map, List.getElem?_set]
      by_cases hi : position = i
      · subst hi
        simp only [if_true]
        have hlt : position < server.channels.length := by
          rcases Nat.lt_or_ge position server.channels.length with h | h
          · exact h
          · rw [List.getElem?_eq_none h] at hp
            exact absurd hp (by simp)
        simp [hlt, hp]
      · simp [hi]

theorem join_stored_key_set_same (env : JoinEnv)
    (hnames : ∀ (chs chs2 : List t_irc_channel) (x : CStr),
      chs.map t_irc_channel.name = chs2.map t_irc_channel.name →
      env.irc_channel_search chs x = env.irc_channel_search chs2 x)
    (hpos : ∀ (chs : List t_irc_channel) (x : CStr) (p : Nat),
      env.irc_channel_search chs x = some p → p < chs.length)
    (s : t_irc_server) (c k : CStr) :
    join_stored_key env (join_server_set_key env s c k) c = some k := by
  have hsearch : env.irc_channel_search (join_server_set_key env s c k).channels c
      = env.irc_channel_search s.channels c :=
    hnames _ _ _ (join_server_set_key_names env s c k)
  unfold join_stored_key
  rw [hsearch]
  cases hs : env.irc_channel_search s.channels c with
  | none =>
    simp only [join_server_set_key, hs]
    exact hashtable_get_set_same _ _ _
  | some p =>
    have hlt := hpos _ _ _ hs
    have hp : s.channels[p]? = some (s.channels.get ⟨p, hlt⟩) := by
      simp [List.getElem?_eq_getElem hlt]
    simp only [join_server_set_key, hs, hp]
    simp [List.getElem?_set, hlt]

theorem join_stored_key_set_other (env : JoinEnv)
    (hnames : ∀ (chs chs2 : List t_irc_channel) (x : CStr),
      chs.map t_irc_channel.name = chs2.map t_irc_channel.name →
      env.irc_channel_search chs x = env.irc_channel_search chs2 x)
    (server s : t_irc_server) (c d k : CStr)
    (hn : s.channels.map t_irc_channel.name = server.channels.map t_irc_channel.name)
    (hd : join_distinct env server c d) :
    join_stored_key env (join_server_set_key env s c k) d = join_stored_key env s d := by
  have hsearch : env.irc_channel_search (join_server_set_key env s c k).channels d
      = env.irc_channel_search s.channels d :=
    hnames _ _ _ (join_server_set_key_names env s c k)
  have hc : env.irc_channel_search s.channels c = env.irc_channel_search server.channels c :=
    hnames _ _ _ hn
  have hdd : env.irc_channel_search s.channels d = env.irc_channel_search server.channels d :=
    hnames _ _ _ hn
  obtain ⟨hne, hdis⟩ := hd
  unfold join_stored_key
  rw [hsearch]
  cases hs : env.irc_channel_search s.channels c with
  | none =>
    simp only [join_server_set_key, hs]
    cases env.irc_channel_search s.channels d with
    | none => exact hashtable_get_set_other _ _ _ _ (fun h => hne h.symm)
    | some q => rfl
  | some p =>
    cases hp : s.channels[p]? with
    | none => simp only [join_server_set_key, hs, hp]
    | some ptr_channel =>
      simp only [join_server_set_key, hs, hp]
      cases hq : env.irc_channel_search s.channels d with
      | none => rfl
      | some q =>
        have hpq : p ≠ q := by
          intro h
          subst h
          rw [← hc, ← hdd, hs, hq] at hdis
          rcases hdis with h1 | h1
          · exact absurd h1 (by simp)
          · exact h1 rfl
        simp only [List.getElem?_set, hpq, if_false]

/-- The keys held after a list of keys is recorded, for names that are distinct
for the server: every name of the list has its key, and a name that is distinct
from the names of the list has the key it had. -/
theorem join_stored_key_foldl (env : JoinEnv)
    (hnames : ∀ (chs chs2 : List t_irc_channel) (x : CStr),
      chs.map t_irc_channel.name = chs2.map t_irc_channel.name →
      env.irc_channel_search chs x = env.irc_channel_search chs2 x)
    (hpos : ∀ (chs : List t_irc_channel) (x : CStr) (p : Nat),
      env.irc_channel_search chs x = some p → p < chs.length)
    (server : t_irc_server) (l : List (CStr × CStr)) (s : t_irc_server)
    (hn : s.channels.map t_irc_channel.name = server.channels.map t_irc_channel.name)
    (hl : (l.map Prod.fst).Pairwise (join_distinct env server)) :
    (∀ e ∈ l,
        join_stored_key env
            (l.foldl (fun s entry => join_server_set_key env s entry.1 entry.2) s) e.1
          = some e.2)
    ∧ (∀ d, (∀ e ∈ l, join_distinct env server e.1 d) →
        join_stored_key env
            (l.foldl (fun s entry => join_server_set_key env s entry.1 entry.2) s) d
          = join_stored_key env s d) := by
  induction l generalizing s with
  | nil => exact ⟨fun e he => absurd he (by simp), fun d _ => rfl⟩
  | cons e l ih =>
    simp only [List.map_cons, List.pairwise_cons] at hl
    obtain ⟨h1, h2⟩ := ih (join_server_set_key env s e.1 e.2)
      ((join_server_set_key_names env s e.1 e.2).trans hn) hl.2
    simp only [List.foldl_cons]
    constructor
    · intro x hx
      rcases List.mem_cons.1 hx with rfl | hx
      · rw [h2 x.1]
        · exact join_stored_key_set_same env hnames hpos s x.1 x.2
        · intro y hy
          obtain ⟨hne, hdis⟩ := hl.1 y.1 (List.mem_map.2 ⟨y, hy, rfl⟩)
          refine ⟨fun h => hne h.symm, ?_⟩
          rcases hdis with h3 | h3
          · by_cases h4 : env.irc_channel_search server.channels y.1 = none
            · exact Or.inl h4
            · exact Or.inr (fun h5 => h4 (h5.trans h3))
          · by_cases h4 : env.irc_channel_search server.channels y.1 = none
            · exact Or.inl h4
            · exact Or.inr (fun h5 => h3 h5.symm)
      · exact h1 x hx
    · intro d hd
      rw [h2 d (fun y hy => hd y (by simp [hy]))]
      exact join_stored_key_set_other env hnames server s e.1 d e.2 hn (hd e (by simp))

theorem same_keys_stored_key (env : JoinEnv) (a b : t_irc_server) (x : CStr)
    (h : same_keys a b) : join_stored_key env a x = join_stored_key env b x := by
  unfold join_stored_key
  rw [h.1, h.2]

theorem join_server_body_some (env : JoinEnv) (manual_join noswitch : Int)
    (channels : List CStr) (keys : Option (List CStr)) (length i : Nat) (st st2 : JoinState)
    (h : join_server_body env manual_join noswitch channels keys length i st = some st2) :
    st2 = join_server_body_unbounded env manual_join noswitch channels keys i st := by
  simp only [join_server_body] at h
  simp only [join_server_body_unbounded]
  split_ifs at h ⊢ <;> exact (Option.some.inj h).symm

theorem join_server_body_fits (env : JoinEnv) (manual_join noswitch : Int)
    (channels : List CStr) (keys : Option (List CStr)) (length i : Nat) (st : JoinState)
    (h : (join_server_body_unbounded env manual_join noswitch channels keys i st).new_args.length
      < length) :
    join_server_body env manual_join noswitch channels keys length i st
      = some (join_server_body_unbounded env manual_join noswitch channels keys i st) := by
  simp only [join_server_body_unbounded] at h
  simp only [join_server_body, join_server_body_unbounded]
  rw [if_pos h]

theorem join_server_loop_mono (env : JoinEnv) (manual_join noswitch : Int)
    (channels : List CStr) (keys : Option (List CStr)) (todo i : Nat) (st : JoinState) :
    st.new_args.length
      ≤ (join_server_loop_unbounded env manual_join noswitch channels keys todo i
          st).new_args.length := by
  induction todo generalizing i st with
  | zero => simp [join_server_loop_unbounded]
  | succ n ih =>
    rw [join_server_loop_unbounded]
    refine Nat.le_trans ?_ (ih _ _)
    simp only [join_server_body_unbounded]
    split_ifs
    · simp only [List.length_append]
      omega
    · simp only [List.length_append]
      omega

/-- When `join_server_loop` has a value, it is the value of the loop without the
bound of `new_args`. -/
theorem join_server_loop_some (env : JoinEnv) (manual_join noswitch : Int)
    (channels : List CStr) (keys : Option (List CStr)) (length todo i : Nat)
    (st st2 : JoinState)
    (h : join_server_loop env manual_join noswitch channels keys length todo i st = some st2) :
    st2 = join_server_loop_unbounded env manual_join noswitch channels keys todo i st := by
  induction todo generalizing i st with
  | zero =>
    simp only [join_server_loop] at h
    simp only [join_server_loop_unbounded]
    exact (Option.some.inj h).symm
  | succ n ih =>
    simp only [join_server_loop] at h
    simp only [join_server_loop_unbounded]
    cases hb : join_server_body env manual_join noswitch channels keys length i st with
    | none => rw [hb] at h; exact absurd h (by simp)
    | some st1 =>
      rw [hb] at h
      rw [← join_server_body_some _ _ _ _ _ _ _ _ _ hb]
      exact ih _ _ h

/-- When the string built by the loop fits in `new_args`, the loop of
`irc_command_join_server` never writes past the end of `new_args`. -/
theorem join_server_loop_fits (env : JoinEnv) (manual_join noswitch : Int)
    (channels : List CStr) (keys : Option (List CStr)) (length todo i : Nat) (st : JoinState)
    (h : (join_server_loop_unbounded env manual_join noswitch channels keys todo i
      st).new_args.length < length) :
    join_server_loop env manual_join noswitch channels keys length todo i st
      = some (join_server_loop_unbounded env manual_join noswitch channels keys todo i st) := by
  induction todo generalizing i st with
  | zero => simp only [join_server_loop, join_server_loop_unbounded]
  | succ n ih =>
    simp only [join_server_loop, join_server_loop_unbounded] at h ⊢
    have hb := join_server_loop_mono env manual_join noswitch channels keys n (i + 1)
      (join_server_body_unbounded env manual_join noswitch channels keys i st)
    rw [join_server_body_fits env manual_join noswitch channels keys length i st (by omega)]
    exact ih _ _ h

theorem join_named_flatten_length (env : JoinEnv)
    (hauto : ∀ c, (env.irc_channel_get_auto_chantype c).length ≤ 1) (l : List CStr) :
    (((join_named env l).map fun c => ',' :: c).flatten).length
      ≤ ((l.map fun c => ',' :: c).flatten).length + l.length := by
  induction l with
  | nil => simp [join_named]
  | cons a rest ih =>
    have := hauto a
    simp only [join_named, List.map_cons, List.flatten_cons, List.length_append,
      List.length_cons] at ih ⊢
    omega

/-- The channels after their automatic channel type, separated by commas, are at
most one char per channel longer than the channels as typed, when the channel type
has at most one char. -/
theorem join_named_length (env : JoinEnv)
    (hauto : ∀ c, (env.irc_channel_get_auto_chantype c).length ≤ 1) (l : List CStr) :
    (join_comma (join_named env l)).length ≤ (join_comma l).length + l.length := by
  cases l with
  | nil => simp [join_named, join_comma]
  | cons a rest =>
    have h1 := join_named_flatten_length env hauto rest
    have h2 := hauto a
    have h3 : join_named env (a :: rest)
        = (env.irc_channel_get_auto_chantype a ++ a) :: join_named env rest := by
      simp [join_named]
    rw [h3, join_comma_cons, join_comma_cons]
    simp only [List.length_append, List.length_cons]
    omega

/-- On a server with an open socket, when the arguments are split into the channels
and the keys and the channel type has at most one char, `irc_command_join_server`
has a value: the one of the function without the bound of `new_args`. -/
theorem join_server_fits (env : JoinEnv) (server : t_irc_server) (channels keys : List CStr)
    (manual_join noswitch : Int) (hsock : 0 ≤ server.sock)
    (hchannels : env.weechat_string_split (join_comma channels) = some channels)
    (hkeys : keys ≠ [] → env.weechat_string_split (join_comma keys) = some keys)
    (hc : ∀ c ∈ channels, ' ' ∉ c) (hk : ∀ k ∈ keys, k ≠ [] ∧ ' ' ∉ k)
    (hauto : ∀ c, (env.irc_channel_get_auto_chantype c).length ≤ 1) :
    irc_command_join_server env server (join_arguments channels keys) manual_join noswitch
      = some (irc_command_join_server_unbounded env server (join_arguments channels keys)
          manual_join noswitch) := by
  have hnosp := not_mem_join_comma channels hc
  have hs : ¬ server.sock < 0 := by omega
  have hlen := join_named_length env hauto channels
  by_cases hkn : keys = []
  · subst hkn
    have harg : join_arguments channels [] = join_comma channels := by simp [join_arguments]
    have hnew := join_server_loop_new_args env manual_join noswitch none channels []
      ⟨[], server, join_server_display env server channels
        ((join_comma channels).length + channels.length + 1) manual_join noswitch⟩
    simp only [List.nil_append, if_true, List.length_nil] at hnew
    rw [harg]
    simp only [irc_command_join_server, irc_command_join_server_unbounded, hs, if_false, hnosp,
      cut_at_of_not_mem _ _ hnosp, hchannels]
    rw [join_server_loop_fits _ _ _ _ _ _ _ _ _ (by rw [hnew]; omega)]
    simp only [hnew]
    rw [if_pos (by omega)]
  · have harg : join_arguments channels keys = join_comma channels ++ ' ' :: join_comma keys := by
      simp [join_arguments, hkn]
    obtain ⟨hd1, hd2⟩ := dropWhile_space_join_comma keys hkn hk
    have hin : ' ' ∈ join_comma channels ++ ' ' :: join_comma keys := by simp
    have hnew := join_server_loop_new_args env manual_join noswitch (some keys) channels []
      ⟨[], server, join_server_display env server channels
        ((join_comma channels ++ ' ' :: join_comma keys).length + channels.length + 1)
        manual_join noswitch⟩
    simp only [List.nil_append, if_true, List.length_nil] at hnew
    rw [harg]
    simp only [irc_command_join_server, irc_command_join_server_unbounded, hs, if_false, hin,
      if_true, cut_at_append _ _ _ hnosp, after_first_append _ _ _ hnosp, hd1, ne_eq, hd2,
      not_false_eq_true, hkeys hkn, hchannels]
    rw [join_server_loop_fits _ _ _ _ _ _ _ _ _
      (by rw [hnew]; simp only [List.length_append, List.length_cons]; omega)]
    simp only [hnew]
    rw [if_pos (by simp only [List.length_append, List.length_cons]; omega)]

/-- The function without the bound of `new_args`, on a server whose socket is open (`sock >= 0`), for the
argument "<chan1>,...,<chanN> <key1>,...,<keyK>" of /join (or
"<chan1>,...,<chanN>" without key) that `weechat_string_split` splits into the
channels and the keys, the channels without space and the keys not empty and
without space: after it the channels of the server and the
table `join_channel_key` are those obtained by recording key i for channel i (the
name after its automatic channel type) for every i below N and K, in this order,
and nothing for the other channels; the only message sent, after all other
effects, is "JOIN " followed by the channels in the given order, each after its
automatic channel type, separated by commas, followed by the space and the keys
as typed. -/
theorem join_server_keys_and_line_unbounded (env : JoinEnv) (server : t_irc_server)
    (channels keys : List CStr) (manual_join noswitch : Int) (hsock : 0 ≤ server.sock)
    (hchannels : env.weechat_string_split (join_comma channels) = some channels)
    (hkeys : keys ≠ [] → env.weechat_string_split (join_comma keys) = some keys)
    (hc : ∀ c ∈ channels, ' ' ∉ c) (hk : ∀ k ∈ keys, k ≠ [] ∧ ' ' ∉ k) :
    (irc_command_join_server_unbounded env server (join_arguments channels keys) manual_join
        noswitch).1.channels = (join_recorded env server channels keys).channels
    ∧ (irc_command_join_server_unbounded env server (join_arguments channels keys) manual_join
        noswitch).1.join_channel_key
        = (join_recorded env server channels keys).join_channel_key
    ∧ ∃ call,
        (irc_command_join_server_unbounded env server (join_arguments channels keys) manual_join
          noswitch).2.filter Effect.is_sendf = [Effect.sendf server.name call]
        ∧ (irc_command_join_server_unbounded env server (join_arguments channels keys) manual_join
          noswitch).2.getLast? = some (Effect.sendf server.name call)
        ∧ call.flags = IRC_SERVER_SEND_OUTQ_PRIO_HIGH
        ∧ call.line = "JOIN ".toList ++ join_comma (join_named env channels)
            ++ (if keys = [] then [] else ' ' :: join_comma keys) := by
  rw [join_server_eq env server channels keys manual_join noswitch hsock hchannels hkeys hc hk]
  have hk2 : (if keys = [] then none else some keys : Option (List CStr)).getD [] = keys := by
    by_cases h : keys = []
    · simp [h]
    · simp [h]
  have h1 := join_server_loop_keys env manual_join noswitch
    (if keys = [] then none else some keys) channels []
    ⟨[], server, join_server_display env server channels
      ((join_arguments channels keys).length + channels.length + 1) manual_join noswitch⟩
    server ⟨rfl, rfl⟩
  rw [hk2, List.length_nil, List.drop_zero] at h1
  have h2 := join_server_loop_new_args env manual_join noswitch
    (if keys = [] then none else some keys) channels []
    ⟨[], server, join_server_display env server channels
      ((join_arguments channels keys).length + channels.length + 1) manual_join noswitch⟩
  have h3 := join_server_loop_effects env manual_join noswitch ([] ++ channels)
    (if keys = [] then none else some keys) channels.length ([] : List CStr).length
    ⟨[], server, join_server_display env server channels
      ((join_arguments channels keys).length + channels.length + 1) manual_join noswitch⟩
  rw [join_server_display_effects] at h3
  simp only [List.nil_append, if_true] at h2
  simp only [List.nil_append] at h1 h3 ⊢
  rw [h2]
  refine ⟨h1.1, h1.2,
    ⟨IRC_SERVER_SEND_OUTQ_PRIO_HIGH, "JOIN %s".toList,
      [join_comma (join_named env channels)
        ++ (if keys = [] then [] else ' ' :: join_comma keys)]⟩, ?_, ?_, rfl, ?_⟩
  · rw [List.filter_append, h3]
    rfl
  · simp
  · simp [SendfCall.line, format_s]

theorem pairwise_zip_fst {α β : Type} (R : α → α → Prop) :
    ∀ (l1 : List α) (l2 : List β), l1.Pairwise R →
      ((List.zip l1 l2).map Prod.fst).Pairwise R
  | [], _, _ => by simp
  | _ :: _, [], _ => by simp
  | a :: l1, b :: l2, h => by
    simp only [List.zip_cons_cons, List.map_cons, List.pairwise_cons] at h ⊢
    refine ⟨?_, pairwise_zip_fst R l1 l2 h.2⟩
    intro x hx
    obtain ⟨⟨y, z⟩, he, rfl⟩ := List.mem_map.1 hx
    exact h.1 y (List.of_mem_zip he).1

theorem getD_mem_zip {α β : Type} (d1 : α) (d2 : β) :
    ∀ (l1 : List α) (l2 : List β) (i : Nat), i < l1.length → i < l2.length →
      (l1.getD i d1, l2.getD i d2) ∈ List.zip l1 l2
  | [], _, _, h, _ => absurd h (by simp)
  | _ :: _, [], _, _, h => absurd h (by simp)
  | a :: l1, b :: l2, 0, _, _ => by simp
  | a :: l1, b :: l2, i + 1, h1, h2 => by
    simp only [List.getD_cons_succ, List.zip_cons_cons]
    exact List.mem_cons_of_mem _
      (getD_mem_zip d1 d2 l1 l2 i (by simpa using h1) (by simpa using h2))

theorem zip_mem_index {α β : Type} (d1 : α) :
    ∀ (l1 : List α) (l2 : List β) (e : α × β), e ∈ List.zip l1 l2 →
      ∃ j, j < l1.length ∧ j < l2.length ∧ e.1 = l1.getD j d1
  | [], _, _, h => absurd h (by simp)
  | _ :: _, [], _, h => absurd h (by simp)
  | a :: l1, b :: l2, e, h => by
    simp only [List.zip_cons_cons, List.mem_cons] at h
    rcases h with rfl | h
    · exact ⟨0, by simp, by simp, rfl⟩
    · obtain ⟨j, h1, h2, h3⟩ := zip_mem_index d1 l1 l2 e h
      exact ⟨j + 1, by simpa using h1, by simpa using h2, by simpa using h3⟩

theorem pairwise_getD {α : Type} (R : α → α → Prop) (d : α) (l : List α)
    (h : l.Pairwise R) (j i : Nat) (hji : j < i) (hi : i < l.length) :
    R (l.getD j d) (l.getD i d) := by
  rw [List.getD_eq_getElem l d hi, List.getD_eq_getElem l d (by omega)]
  exact List.pairwise_iff_getElem.1 h j i (by omega) hi hji

instance (env : JoinEnv) (server : t_irc_server) (a b : CStr) :
    Decidable (join_distinct env server a b) := by
  unfold join_distinct; infer_instance

/-- The search of `env_join` depends on the names of the channels only. -/
theorem env_join_search_names (chs chs2 : List t_irc_channel) (x : CStr)
    (h : chs.map t_irc_channel.name = chs2.map t_irc_channel.name) :
    env_join.irc_channel_search chs x = env_join.irc_channel_search chs2 x := by
  simp only [env_join, h]

/-- The search of `env_join` gives a position of the list. -/
theorem env_join_search_pos (chs : List t_irc_channel) (x : CStr) (p : Nat)
    (h : env_join.irc_channel_search chs x = some p) : p < chs.length := by
  simp only [env_join] at h
  split_ifs at h with h1
  have h2 := Option.some.inj h
  rw [List.length_map] at h1
  omega

/-- The automatic channel type of `env_join` has at most one char. -/
theorem env_join_auto_chantype (c : CStr) :
    (env_join.irc_channel_get_auto_chantype c).length ≤ 1 := by
  simp only [env_join]
  split_ifs <;> simp

/-- On a server whose socket is not open, "/join lean k" returns, holds no key for
"#lean" and sends no message; only an error is displayed. -/
theorem join_server_not_connected :
    irc_command_join_server env_join server_me
        (join_arguments ["lean".toList] ["k".toList]) 0 0
      = some (server_me,
          [Effect.printf "%s%s: command \"%s\" must be executed on connected irc server"])
    ∧ join_stored_key env_join server_me "#lean".toList = none := by
  refine ⟨by decide, by decide⟩

/-- With the same name twice in the list, the key held for the name after the call
is the last key given for it: "/join #a,#a k1,k2" leaves "k2" for "#a". -/
theorem join_server_same_name_twice :
    (irc_command_join_server env_join server_joined
        (join_arguments ["#a".toList, "#a".toList] ["k1".toList, "k2".toList]) 0 0).map
      (fun r => join_stored_key env_join r.1 "#a".toList)
      = some (some "k2".toList) := by
  decide

end IrcCommand
